import Mathlib

/-!
Embree kernels/common: hit records and the triangle mesh buffer layer

A shallow embedding of `kernels/common/hit.h` and
`kernels/common/scene_triangle_mesh.cpp`.

Conventions of the embedding.

* Float values are never inspected by the code of `hit.h`; they are elements of
  a type parameter `F`.  Where the mesh code computes with them
  (`interpolate`) the arithmetic is a parameter as well.
* Signed and unsigned 32-bit ids are copied, never computed with, in `hit.h`;
  they are integers.
* A K-wide SIMD value is a function from lanes `Fin K`.
* Code that throws is a function returning the error (or the result) together
  with the state reached at that point, so that a mutation made before a
  throw stays visible.
* Machine integers are natural numbers; where the source computes in `size_t`,
  `unsigned` or `int` the wrap-around is written out (`% 2 ^ 64`, `% 2 ^ 32`,
  `toInt32`).
* Pointers are addresses, null is 0.  The mesh records where its buffers lie;
  what memory holds there is an argument of the functions that read it.
  `interpolate` works on one float memory indexed by byte address, in which a
  store changes every float that shares a byte with the float stored, and
  which also logs the addresses loaded from and stored to.
* Where the source depends on the build (`#if defined(DEBUG)`, `assert`), the
  build is an argument; a failed assertion and a store through a null pointer
  end the call.
* Constants, types and helper functions of headers that are not among the two
  source files are parameters, or are modelled from the specification; their
  doc comments say so.
-/

namespace Embree

/-! ## hit.h -/

/-- Three components `x`, `y`, `z` (the source's `Vec3<T>` / `Vec3vf<K>`). -/
structure Vec3 (α : Type) where
  x : α
  y : α
  z : α

/-- The scalar hit, `HitK<1>` of hit.h. -/
structure Hit (F : Type) where
  Ng : Vec3 F
  t : F
  u : F
  v : F
  primID : Int
  geomID : Int
  instID : Int

/-- The K-wide hit, `HitK<K>` of hit.h: every field holds K lanes. -/
structure HitK (K : Nat) (F : Type) where
  Ng : Vec3 (Fin K → F)
  t : Fin K → F
  u : Fin K → F
  v : Fin K → F
  primID : Fin K → Int
  geomID : Fin K → Int
  instID : Fin K → Int

/-- Modelled from the spec: the scalar ray record of `ray.h`, which is not part
of the sources at hand.  It holds the ray data (origin, direction, near and far
distance, time, mask) and the currently best hit (normal, barycentric u and v,
the three ids).  The accessor `tfar()` of the source is the field `tfar`. -/
structure Ray (F : Type) where
  org : Vec3 F
  dir : Vec3 F
  tnear : F
  tfar : F
  time : F
  mask : Int
  Ng : Vec3 F
  u : F
  v : F
  geomID : Int
  primID : Int
  instID : Int

/-- Modelled from the spec: the K-wide ray record `RayK<K>` of `ray.h`, laid out
as a record of K-lane arrays; the far distance is the field `_tfar` that the
source writes. -/
structure RayK (K : Nat) (F : Type) where
  org : Vec3 (Fin K → F)
  dir : Vec3 (Fin K → F)
  _tnear : Fin K → F
  _tfar : Fin K → F
  time : Fin K → F
  mask : Fin K → Int
  Ng : Vec3 (Fin K → F)
  u : Fin K → F
  v : Fin K → F
  geomID : Fin K → Int
  primID : Fin K → Int
  instID : Fin K → Int

/-- Modelled from the spec: the masked store `vfloat<K>::storeu(mask, dst, src)`
of the SIMD headers, which are not part of the sources at hand.  For each of the
K lanes, a set selection bit overwrites the lane of the destination with the
lane of the source, a clear bit leaves the destination lane as it is. -/
def vfloat.storeu {K : Nat} {F : Type} (mask : Fin K → Bool) (dst src : Fin K → F) :
    Fin K → F :=
  fun i => if mask i then src i else dst i

/-- Modelled from the spec: the masked store `vint<K>::storeu(mask, dst, src)`,
the integer twin of `vfloat.storeu`. -/
def vint.storeu {K : Nat} (mask : Fin K → Bool) (dst src : Fin K → Int) : Fin K → Int :=
  fun i => if mask i then src i else dst i

/-- The scalar `copyHitToRay(Ray&, const Hit&)` of hit.h: seven assignments. -/
def copyHitToRay {F : Type} (ray : Ray F) (hit : Hit F) : Ray F :=
  let ray := { ray with Ng := hit.Ng }
  let ray := { ray with primID := hit.primID }
  let ray := { ray with geomID := hit.geomID }
  let ray := { ray with instID := hit.instID }
  let ray := { ray with u := hit.u }
  let ray := { ray with v := hit.v }
  { ray with tfar := hit.t }

/-- The masked `copyHitToRay<K>(mask, RayK<K>&, const HitK<K>&)` of hit.h: nine
masked stores, one per field. -/
def copyHitToRayK {K : Nat} {F : Type} (mask : Fin K → Bool) (ray : RayK K F)
    (hit : HitK K F) : RayK K F :=
  let ray := { ray with Ng := { ray.Ng with x := vfloat.storeu mask ray.Ng.x hit.Ng.x } }
  let ray := { ray with Ng := { ray.Ng with y := vfloat.storeu mask ray.Ng.y hit.Ng.y } }
  let ray := { ray with Ng := { ray.Ng with z := vfloat.storeu mask ray.Ng.z hit.Ng.z } }
  let ray := { ray with primID := vint.storeu mask ray.primID hit.primID }
  let ray := { ray with geomID := vint.storeu mask ray.geomID hit.geomID }
  let ray := { ray with instID := vint.storeu mask ray.instID hit.instID }
  let ray := { ray with u := vfloat.storeu mask ray.u hit.u }
  let ray := { ray with v := vfloat.storeu mask ray.v hit.v }
  { ray with _tfar := vfloat.storeu mask ray._tfar hit.t }

/-! ## scene_triangle_mesh.cpp: errors, constants, buffers -/

/-- The two error codes thrown by the mesh (`throw_RTCError`). -/
inductive RTCError where
  | RTC_INVALID_ARGUMENT
  | RTC_INVALID_OPERATION
  deriving DecidableEq, Repr

/-- The buffer-kind constants and the user-slot limit of the public API header,
which is not part of the sources at hand: they are parameters of the model.
A buffer kind (`RTCBufferType`) is a natural number. -/
structure RTCConsts where
  RTC_INDEX_BUFFER : Nat
  RTC_VERTEX_BUFFER0 : Nat
  RTC_USER_VERTEX_BUFFER0 : Nat
  RTC_MAX_USER_VERTEX_BUFFERS : Nat
  RTC_USER_VERTEX_BUFFER1 : Nat
  deriving DecidableEq, Repr

/-- Modelled from the spec: the raw view that `get()` of a typed buffer hands
out (buffer.h is not part of the sources at hand): the address of element 0,
the element stride in bytes and the element count. -/
structure BufferView where
  addr : Nat
  stride : Nat
  size : Nat
  deriving DecidableEq, Repr

/-- Modelled from the spec: the typed buffer (`APIBuffer<T>` of buffer.h, absent
from the sources at hand) with the attributes the spec lists: base address,
byte offset, element stride, element count and the ownership flag (`shared` is
true for a view that aliases caller memory). -/
structure APIBuffer where
  ptr : Nat
  ofs : Nat
  stride : Nat
  num : Nat
  shared : Bool
  deriving DecidableEq, Repr

/-- Modelled from the spec: the default-constructed, empty typed buffer. -/
def APIBuffer.empty : APIBuffer := ⟨0, 0, 0, 0, false⟩

instance : Inhabited APIBuffer := ⟨APIBuffer.empty⟩

/-- What the surroundings answer during one call: the address the allocator
hands out for a byte count, and whether the caller's memory behind a view has
the 16 bytes of padding that vector loads need.  Both are outside the sources
at hand and are parameters of the model. -/
structure Env where
  alignedMalloc : Nat → Nat
  padded16 : APIBuffer → Bool

/-- The cap of 16 GiB, `16ll*1024ll*1024ll*1024ll`. -/
def GB16 : Nat := 16 * 1024 * 1024 * 1024

/-- Modelled from the spec: `size()` of a typed buffer, its element count. -/
def APIBuffer.size (b : APIBuffer) : Nat := b.num

/-- Modelled from the spec: `getStride()` of a typed buffer. -/
def APIBuffer.getStride (b : APIBuffer) : Nat := b.stride

/-- Modelled from the spec: `getPtr()` of a typed buffer, the address of its
first element: base address plus byte offset. -/
def APIBuffer.getPtr (b : APIBuffer) : Nat := b.ptr + b.ofs

/-- Modelled from the spec: `get()` of a typed buffer "returns the raw view". -/
def APIBuffer.get (b : APIBuffer) : BufferView := ⟨b.getPtr, b.stride, b.num⟩

/-- Modelled from the spec: TypedBuffer `allocate(elementCount, stride)`
(`newBuffer(device, num, stride)` of the absent buffer.h).  Fails with
InvalidOperation if the stride is not a multiple of 4 or if
`stride * elementCount` exceeds 16 GiB; otherwise the buffer owns fresh storage. -/
def APIBuffer.newBuffer (env : Env) (num stride : Nat) : Except RTCError APIBuffer :=
  if stride % 4 ≠ 0 then .error .RTC_INVALID_OPERATION
  else if stride * num > GB16 then .error .RTC_INVALID_OPERATION
  else .ok ⟨env.alignedMalloc (stride * num), 0, stride, num, false⟩

/-- Modelled from the spec: the constructor `APIBuffer<char>(device, num, stride)`
without allocation: a buffer that records count and stride and has no storage. -/
def APIBuffer.init (num stride : Nat) : APIBuffer := ⟨0, 0, stride, num, false⟩

/-- Modelled from the spec: TypedBuffer `alias(pointer, byteOffset, stride,
elementCount)` (`set` of the absent buffer.h), without the padding
verification, which the mesh calls separately.  The same alignment and size
checks as `allocate`, applied to `pointer + byteOffset`; stores a non-owning
view. -/
def APIBuffer.set (ptr ofs stride num : Nat) : Except RTCError APIBuffer :=
  if (ptr + ofs) % 4 ≠ 0 ∨ stride % 4 ≠ 0 then .error .RTC_INVALID_OPERATION
  else if stride * num > GB16 then .error .RTC_INVALID_OPERATION
  else .ok ⟨ptr, ofs, stride, num, true⟩

/-- Modelled from the spec: `checkPadding16()` of the absent buffer.h: verifies
that the view satisfies the vector-load padding requirement and fails with
InvalidOperation if not. -/
def APIBuffer.checkPadding16 (env : Env) (b : APIBuffer) : Except RTCError Unit :=
  if env.padded16 b then .ok () else .error .RTC_INVALID_OPERATION

/-- Modelled from the spec: indexed element access through a raw view: element
`i` of the view is what memory holds at `addr + i * stride`. -/
def BufferView.read {α : Type} (mem : Nat → α) (v : BufferView) (i : Nat) : α :=
  mem (v.addr + i * v.stride)

/-- The `resize(n)` of `std::vector`: truncates, or appends default elements. -/
def vresize (l : List APIBuffer) (n : Nat) : List APIBuffer :=
  l.take n ++ List.replicate (n - l.length) APIBuffer.empty

/-! ## scene_triangle_mesh.cpp: scene and mesh state -/

/-- Modelled from the spec: a world aggregate counter object (`scene->world`,
`scene->worldMB`), a `size_t` counter of triangles. -/
structure World where
  numTriangles : Nat
  deriving DecidableEq, Repr

/-- Modelled from the spec: the part of the scene (scene.h is absent) that the
mesh reads and writes: the two world aggregates, the two retention flags and
the geometry-id-indexed table of vertex pointers. -/
structure Scene where
  world : World
  worldMB : World
  needTriangleIndices : Bool
  needTriangleVertices : Bool
  vertices : List Nat
  deriving DecidableEq, Repr

/-- The state of a `TriangleMesh`: the members the code of
scene_triangle_mesh.cpp reads and writes.  `scene` is the scene pointer (none
for a mesh that is not attached), `numPrimitives` the cached primitive count
of the `Geometry` base class, `vertices0` the cached time-step-0 view. -/
structure TriangleMesh where
  numTimeSteps : Nat
  scene : Option Scene
  geomID : Nat
  numPrimitives : Nat
  triangles : APIBuffer
  vertices0 : BufferView
  vertices : List APIBuffer
  userbuffers : List APIBuffer
  deriving DecidableEq, Repr

/-- The constructor `TriangleMesh(device, flags, numTimeSteps)`: no scene, no
primitives, `vertices.resize(numTimeSteps)`. -/
def TriangleMesh.new (numTimeSteps : Nat) : TriangleMesh :=
  { numTimeSteps := numTimeSteps
    scene := none
    geomID := 0
    numPrimitives := 0
    triangles := APIBuffer.empty
    vertices0 := APIBuffer.empty.get
    vertices := vresize [] numTimeSteps
    userbuffers := [] }

/-- The `size_t` addition `a += b`. -/
def addSizeT (a b : Nat) : Nat := (a + b) % 2 ^ 64

/-- The `size_t` subtraction `a -= b`. -/
def subSizeT (a b : Nat) : Nat := (a + (2 ^ 64 - b % 2 ^ 64)) % 2 ^ 64

/-- The method `TriangleMesh::enabling()`.  The source dereferences `scene`; its
callers here test the pointer first, and a mesh without scene is left as is. -/
def TriangleMesh.enabling (m : TriangleMesh) : TriangleMesh :=
  match m.scene with
  | none => m
  | some s =>
    if m.numTimeSteps = 1 then
      { m with scene := some { s with world := ⟨addSizeT s.world.numTriangles m.triangles.size⟩ } }
    else
      { m with scene := some { s with worldMB := ⟨addSizeT s.worldMB.numTriangles m.triangles.size⟩ } }

/-- The method `TriangleMesh::disabling()`. -/
def TriangleMesh.disabling (m : TriangleMesh) : TriangleMesh :=
  match m.scene with
  | none => m
  | some s =>
    if m.numTimeSteps = 1 then
      { m with scene := some { s with world := ⟨subSizeT s.world.numTriangles m.triangles.size⟩ } }
    else
      { m with scene := some { s with worldMB := ⟨subSizeT s.worldMB.numTriangles m.triangles.size⟩ } }

/-- Modelled from the spec: `Geometry::setNumPrimitives` (geometry.h is absent)
"updates the cached primitive count". -/
def TriangleMesh.setNumPrimitives (m : TriangleMesh) (n : Nat) : TriangleMesh :=
  { m with numPrimitives := n }

/-- The value `(unsigned)-1`, the count that stands for "unchanged". -/
def UNSIGNED_MINUS_ONE : Nat := 2 ^ 32 - 1

/-- The range test `type >= RTC_VERTEX_BUFFER0 && type <
RTCBufferType(RTC_VERTEX_BUFFER0 + numTimeSteps)`; the sum is unsigned 32-bit. -/
def isVertexBufferType (c : RTCConsts) (numTimeSteps type : Nat) : Bool :=
  decide (c.RTC_VERTEX_BUFFER0 ≤ type) &&
    decide (type < (c.RTC_VERTEX_BUFFER0 + numTimeSteps) % 2 ^ 32)

/-- The range test `type >= RTC_USER_VERTEX_BUFFER0 && type <
RTC_USER_VERTEX_BUFFER0+RTC_MAX_USER_VERTEX_BUFFERS`. -/
def isUserBufferType (c : RTCConsts) (type : Nat) : Bool :=
  decide (c.RTC_USER_VERTEX_BUFFER0 ≤ type) &&
    decide (type < c.RTC_USER_VERTEX_BUFFER0 + c.RTC_MAX_USER_VERTEX_BUFFERS)

/-- The size test of the vertex branch, `stride*size > 16ll*1024ll*1024ll*1024ll`,
a product of `size_t` values. -/
def exceeds16GB (stride size : Nat) : Bool :=
  decide ((stride * size) % 2 ^ 64 > GB16)

/-- The method `TriangleMesh::newBuffer(type, stride, size)`.  The result is the
thrown error or the returned view, together with the mesh as the call leaves
it. -/
def TriangleMesh.newBuffer (c : RTCConsts) (env : Env) (m : TriangleMesh)
    (type stride size : Nat) : Except RTCError BufferView × TriangleMesh :=
  if stride &&& 0x3 ≠ 0 then (.error .RTC_INVALID_OPERATION, m)
  else
    let bid := type &&& 0xFFFF
    if isVertexBufferType c m.numTimeSteps type then
      let t := type - c.RTC_VERTEX_BUFFER0
      if exceeds16GB stride size then (.error .RTC_INVALID_OPERATION, m)
      else
        match APIBuffer.newBuffer env size stride with
        | .error e => (.error e, m)
        | .ok b =>
          let m := { m with vertices := m.vertices.set t b }
          let m := { m with vertices0 := (m.vertices.getD 0 APIBuffer.empty).get }
          (.ok (m.vertices.getD t APIBuffer.empty).get, m)
    else if isUserBufferType c type then
      let m := if bid ≥ m.userbuffers.length then
        { m with userbuffers := vresize m.userbuffers (bid + 1) } else m
      match APIBuffer.newBuffer env size stride with
      | .error e => (.error e, m)
      | .ok b =>
        let m := { m with userbuffers := m.userbuffers.set bid b }
        (.ok (m.userbuffers.getD bid APIBuffer.empty).get, m)
    else if type = c.RTC_INDEX_BUFFER then
      let m := if m.scene.isSome ∧ size ≠ UNSIGNED_MINUS_ONE then m.disabling else m
      match APIBuffer.newBuffer env size stride with
      | .error e => (.error e, m)
      | .ok b =>
        let m := { m with triangles := b }
        let m := m.setNumPrimitives size
        let m := if m.scene.isSome ∧ size ≠ UNSIGNED_MINUS_ONE then m.enabling else m
        (.ok m.triangles.get, m)
    else (.error .RTC_INVALID_ARGUMENT, m)

/-- The method `TriangleMesh::setBuffer(type, ptr, offset, stride, size)`. -/
def TriangleMesh.setBuffer (c : RTCConsts) (env : Env) (m : TriangleMesh)
    (type ptr offset stride size : Nat) : Except RTCError Unit × TriangleMesh :=
  if ((ptr + offset) % 2 ^ 64) &&& 0x3 ≠ 0 ∨ stride &&& 0x3 ≠ 0 then
    (.error .RTC_INVALID_OPERATION, m)
  else
    let bid := type &&& 0xFFFF
    if isVertexBufferType c m.numTimeSteps type then
      let t := type - c.RTC_VERTEX_BUFFER0
      let size := if size = UNSIGNED_MINUS_ONE then
        (m.vertices.getD t APIBuffer.empty).size % 2 ^ 32 else size
      if exceeds16GB stride size then (.error .RTC_INVALID_OPERATION, m)
      else
        match APIBuffer.set ptr offset stride size with
        | .error e => (.error e, m)
        | .ok b =>
          let m := { m with vertices := m.vertices.set t b }
          match (m.vertices.getD t APIBuffer.empty).checkPadding16 env with
          | .error e => (.error e, m)
          | .ok _ =>
            let m := { m with vertices0 := (m.vertices.getD 0 APIBuffer.empty).get }
            (.ok (), m)
    else if isUserBufferType c type then
      let m := if bid ≥ m.userbuffers.length then
        { m with userbuffers := vresize m.userbuffers (bid + 1) } else m
      let m := { m with userbuffers := m.userbuffers.set bid (APIBuffer.init size stride) }
      match APIBuffer.set ptr offset stride size with
      | .error e => (.error e, m)
      | .ok b =>
        let m := { m with userbuffers := m.userbuffers.set bid b }
        match (m.userbuffers.getD bid APIBuffer.empty).checkPadding16 env with
        | .error e => (.error e, m)
        | .ok _ => (.ok (), m)
    else if type = c.RTC_INDEX_BUFFER then
      let m := if m.scene.isSome ∧ size ≠ UNSIGNED_MINUS_ONE then m.disabling else m
      match APIBuffer.set ptr offset stride size with
      | .error e => (.error e, m)
      | .ok b =>
        let m := { m with triangles := b }
        let m := m.setNumPrimitives size
        let m := if m.scene.isSome ∧ size ≠ UNSIGNED_MINUS_ONE then m.enabling else m
        (.ok (), m)
    else (.error .RTC_INVALID_ARGUMENT, m)

/-- The method `TriangleMesh::getBuffer(type)`; it changes no state. -/
def TriangleMesh.getBuffer (c : RTCConsts) (m : TriangleMesh) (type : Nat) :
    Except RTCError BufferView :=
  if type = c.RTC_INDEX_BUFFER then .ok m.triangles.get
  else if isVertexBufferType c m.numTimeSteps type then
    .ok (m.vertices.getD (type - c.RTC_VERTEX_BUFFER0) APIBuffer.empty).get
  else .error .RTC_INVALID_ARGUMENT

/-- Modelled from the spec: `numVertices()` of the absent header
scene_triangle_mesh.h, the expected vertex count: the element count of the
time-step-0 vertex buffer. -/
def TriangleMesh.numVertices (m : TriangleMesh) : Nat :=
  (m.vertices.getD 0 APIBuffer.empty).size

/-- The component `triangles[i].v[k]`: the unsigned 32-bit word that memory
holds `4*k` bytes into element `i` of the index buffer. -/
def TriangleMesh.triangleV (words : Nat → Nat) (m : TriangleMesh) (i k : Nat) : Nat :=
  words (m.triangles.getPtr + i * m.triangles.stride + 4 * k)

/-- The element `buffer[i]` of a vertex buffer: the three floats that memory
holds at the start of element `i`. -/
def APIBuffer.vertexAt {F : Type} (floats : Nat → F) (b : APIBuffer) (i : Nat) : Vec3 F :=
  ⟨floats (b.getPtr + i * b.stride), floats (b.getPtr + i * b.stride + 4),
    floats (b.getPtr + i * b.stride + 8)⟩

/-- The method `TriangleMesh::verify()`.  `isvalid` (of the absent math
headers) is a parameter; `words` and `floats` are what memory holds; each
loop with an early `return false` is a search for a failing element. -/
def TriangleMesh.verify {F : Type} (isvalid : Vec3 F → Bool) (words : Nat → Nat)
    (floats : Nat → F) (m : TriangleMesh) : Bool :=
  if m.vertices.length = 0 then false
  else if m.vertices.any (fun buffer => decide (buffer.size ≠ m.numVertices)) then false
  else if m.userbuffers.any (fun buffer => decide (buffer.size ≠ m.numVertices)) then false
  else if (List.range m.triangles.size).any (fun i =>
      decide (m.triangleV words i 0 ≥ m.numVertices) ||
      decide (m.triangleV words i 1 ≥ m.numVertices) ||
      decide (m.triangleV words i 2 ≥ m.numVertices)) then false
  else if m.vertices.any (fun buffer =>
      (List.range buffer.size).any (fun i => !isvalid (buffer.vertexAt floats i))) then false
  else true

/-! ## scene_triangle_mesh.cpp: interpolate -/

/-- The float arithmetic that `interpolate` uses (`vfloatx` of the absent SIMD
headers): zero, one, sum, difference and product are parameters of the model,
so that what is proved holds for every arithmetic. -/
structure FloatOps (F : Type) where
  zero : F
  one : F
  add : F → F → F
  sub : F → F → F
  mul : F → F → F

/-- Modelled from the spec: `madd(a, b, c)` of the absent math headers, the
multiply-add `a*b + c` of the interpolation `w*v0 + u*v1 + v*v2`. -/
def FloatOps.madd {F : Type} (ops : FloatOps F) (a b c : F) : F := ops.add (ops.mul a b) c

/-- The float memory that `interpolate` reads and writes.  `val a` is the float
whose four bytes lie at the byte addresses `a` to `a + 3`; `loads` and
`stores` are the logs of the addresses loaded from and stored to, in order.
Floats at addresses less than four apart share bytes: `overlay d old new` is
what the float at `a` reads, having read `old` before, once `new` has been
stored at `a + d` (`d` from -3 to 3 and not 0); it stands for the byte
encoding of the floats, which the sources do not fix.  Null is address 0. -/
structure FMem (F : Type) where
  val : Nat → F
  loads : List Nat
  stores : List Nat
  overlay : Int → F → F → F

/-- A store of the float `x` at the address `p`: the float at `p` becomes `x`,
the floats that share bytes with it change as `overlay` says, every other
float keeps its value, and the address is logged. -/
def FMem.write {F : Type} (fm : FMem F) (p : Nat) (x : F) : FMem F :=
  { fm with
    val := fun a =>
      if a = p then x
      else if a + 4 ≤ p ∨ p + 4 ≤ a then fm.val a
      else fm.overlay ((p : Int) - (a : Int)) (fm.val a) x
    stores := fm.stores ++ [p] }

/-- The two build switches that `interpolate` depends on: with `DEBUG` the test
of `RTC_INTERPOLATE` is compiled in, with `NDEBUG` the assertions are
compiled out. -/
structure Build where
  DEBUG : Bool
  NDEBUG : Bool
  deriving DecidableEq

/-- The ways in which a call of `interpolate` ends without returning: an error
is thrown, an assertion fails, or (the assertions being compiled out) a store
goes through a null pointer. -/
inductive Stop where
  | thrown (e : RTCError)
  | assertFailed
  | nullStore
  deriving DecidableEq

/-- The value of the low 32 bits of `x` as a signed 32-bit integer: the casts
`(int)i` and `int(numFloats)`. -/
def toInt32 (x : Nat) : Int :=
  if x % 2 ^ 32 < 2 ^ 31 then ((x % 2 ^ 32 : Nat) : Int) else ((x % 2 ^ 32 : Nat) : Int) - 2 ^ 32

/-- Lane `l` of the mask `vintx((int)i)+vintx(step) < vintx(int(numFloats))`: a
comparison of signed 32-bit integers, the sum wrapping at 32 bits. -/
def validLane (i numFloats l : Nat) : Bool :=
  decide (toInt32 (i + l) < toInt32 numFloats)

/-- Modelled from the spec: the masked load `vfloatx::loadu(valid, ptr)` of the
absent SIMD headers: "only channels within range are loaded".  Lane `l` of the
result is the float at `ptr + 4*l` when the lane is valid and zero otherwise;
the valid lanes are logged as loaded. -/
def vfloatx.loadu {F : Type} (ops : FloatOps F) (VSIZEX : Nat) (valid : Nat → Bool) (ptr : Nat)
    (fm : FMem F) : (Nat → F) × FMem F :=
  (fun l => if l < VSIZEX ∧ valid l = true then fm.val (ptr + 4 * l) else ops.zero,
    { fm with loads := fm.loads ++ ((List.range VSIZEX).filter valid).map (fun l => ptr + 4 * l) })

/-- Modelled from the spec: the masked store `vfloatx::storeu(valid, ptr, v)` of
the absent SIMD headers: lane by lane, a valid lane writes its value to
`ptr + 4*l` (and is logged as stored), other lanes write nothing. -/
def vfloatx.storeu {F : Type} (VSIZEX : Nat) (valid : Nat → Bool) (ptr : Nat) (v : Nat → F)
    (fm : FMem F) : FMem F :=
  (List.range VSIZEX).foldl (fun fm l =>
    if valid l = true then fm.write (ptr + 4 * l) (v l) else fm) fm

/-- The pair `assert(p); vfloatx::storeu(valid, p+i, v)` of the loop body.  On a
null `p` the assertion fails where assertions are compiled in; where they
are compiled out the store goes through the null pointer, which ends the
call when a lane is valid (a masked store without valid lanes touches no
memory). -/
def assertStoreu {F : Type} (b : Build) (VSIZEX : Nat) (valid : Nat → Bool) (p i : Nat)
    (v : Nat → F) (fm : FMem F) : Except Stop (FMem F) :=
  if p = 0 ∧ b.NDEBUG = false then .error .assertFailed
  else if p = 0 ∧ (List.range VSIZEX).any valid = true then .error .nullStore
  else .ok (vfloatx.storeu VSIZEX valid (p + 4 * i) v fm)

/-- The body of the loop of `TriangleMesh::interpolate` at chunk start `i`, for
the base pointer `src` and the stride of the selected buffer and the vertex
indices `tri 0`, `tri 1`, `tri 2` of the triangle.  The byte offset
`tri.v[k]*stride+ofs` is a `size_t`; `P + i` is the address `P + 4*i`.  The
result is the memory after the chunk, or the way the call ends in it. -/
def interpolateBody {F : Type} (ops : FloatOps F) (b : Build) (VSIZEX : Nat) (u v : F)
    (src stride : Nat) (tri : Nat → Nat) (P dPdu dPdv ddPdudu ddPdvdv ddPdudv numFloats : Nat)
    (i : Nat) (fm : FMem F) : Except Stop (FMem F) :=
  let ofs := i * 4
  let w := ops.sub (ops.sub ops.one u) v
  let valid := validLane i numFloats
  let l0 := vfloatx.loadu ops VSIZEX valid (src + (tri 0 * stride + ofs) % 2 ^ 64) fm
  let l1 := vfloatx.loadu ops VSIZEX valid (src + (tri 1 * stride + ofs) % 2 ^ 64) l0.2
  let l2 := vfloatx.loadu ops VSIZEX valid (src + (tri 2 * stride + ofs) % 2 ^ 64) l1.2
  let p0 := l0.1
  let p1 := l1.1
  let p2 := l2.1
  let fm := l2.2
  let fm := if P ≠ 0 then
      vfloatx.storeu VSIZEX valid (P + 4 * i)
        (fun l => ops.madd w (p0 l) (ops.madd u (p1 l) (ops.mul v (p2 l)))) fm
    else fm
  do
    let fm ← if dPdu ≠ 0 then do
        let fm ← assertStoreu b VSIZEX valid dPdu i (fun l => ops.sub (p1 l) (p0 l)) fm
        assertStoreu b VSIZEX valid dPdv i (fun l => ops.sub (p2 l) (p0 l)) fm
      else pure fm
    if ddPdudu ≠ 0 then do
      let fm ← assertStoreu b VSIZEX valid ddPdudu i (fun _ => ops.zero) fm
      let fm ← assertStoreu b VSIZEX valid ddPdvdv i (fun _ => ops.zero) fm
      assertStoreu b VSIZEX valid ddPdudv i (fun _ => ops.zero) fm
    else pure fm

/-- The loop `for (unsigned int i=0; i<numFloats; i+=VSIZEX)` from the counter
value `i`: the counter wraps at 32 bits, each test of the loop condition uses
one unit of fuel, and the result is none when the fuel runs out; a chunk in
which the call ends ends the loop. -/
def interpolateLoop {F : Type} (body : Nat → FMem F → Except Stop (FMem F))
    (numFloats VSIZEX : Nat) : Nat → Nat → FMem F → Option (Except Stop (FMem F))
  | 0, _, _ => none
  | fuel + 1, i, fm =>
    if i < numFloats then
      match body i fm with
      | .error e => some (.error e)
      | .ok fm1 => interpolateLoop body numFloats VSIZEX fuel ((i + VSIZEX) % 2 ^ 32) fm1
    else some (.ok fm)

/-- The block "calculate base pointer and stride" of `TriangleMesh::interpolate`:
the pointer and the stride of the user buffer or of the vertex buffer that
`buffer & 0xFFFF` selects. -/
def TriangleMesh.interpolateSource (c : RTCConsts) (m : TriangleMesh) (buffer : Nat) :
    Nat × Nat :=
  if buffer ≥ c.RTC_USER_VERTEX_BUFFER0 then
    ((m.userbuffers.getD (buffer &&& 0xFFFF) APIBuffer.empty).getPtr,
      (m.userbuffers.getD (buffer &&& 0xFFFF) APIBuffer.empty).getStride)
  else
    ((m.vertices.getD (buffer &&& 0xFFFF) APIBuffer.empty).getPtr,
      (m.vertices.getD (buffer &&& 0xFFFF) APIBuffer.empty).getStride)

/-- The method `TriangleMesh::interpolate`.  `b` is the build,
`interpolateEnabled` the value of `(scene->aflags & RTC_INTERPOLATE) != 0`
(the flags of the scene are in the absent scene.h), `VSIZEX` the chunk width
of the build, `words` the memory of the index buffer, `P` to `ddPdudv` the six
output pointers, `fuel` bounds the number of loop tests.  The result is none
when the fuel runs out, and otherwise the memory at the return or the way
the call ends. -/
def TriangleMesh.interpolate {F : Type} (c : RTCConsts) (ops : FloatOps F) (b : Build)
    (VSIZEX : Nat) (interpolateEnabled : Bool)
    (m : TriangleMesh) (words : Nat → Nat) (primID : Nat) (u v : F)
    (buffer P dPdu dPdv ddPdudu ddPdvdv ddPdudv numFloats : Nat) (fuel : Nat)
    (fm : FMem F) : Option (Except Stop (FMem F)) :=
  if b.DEBUG = true ∧ interpolateEnabled = false then
    some (.error (.thrown .RTC_INVALID_OPERATION))
  else if b.NDEBUG = false ∧
      ¬ (isVertexBufferType c m.numTimeSteps buffer = true ∨
        (buffer ≥ c.RTC_USER_VERTEX_BUFFER0 ∧ buffer ≤ c.RTC_USER_VERTEX_BUFFER1)) then
    some (.error .assertFailed)
  else
    let src := (m.interpolateSource c buffer).1
    let stride := (m.interpolateSource c buffer).2
    interpolateLoop
      (interpolateBody ops b VSIZEX u v src stride (m.triangleV words primID)
        P dPdu dPdv ddPdudu ddPdvdv ddPdudv numFloats)
      numFloats VSIZEX fuel 0 fm

/-! ## Notions used to state and prove the properties of interpolate -/

/-- The checks of a call of `interpolate` pass: interpolation is enabled where
it is tested, the buffer kind is one that the first assertion admits where
assertions are compiled in, and `dPdv` is supplied with `dPdu`, `ddPdvdv` and
`ddPdudv` with `ddPdudu`. -/
def checksPass (c : RTCConsts) (b : Build) (interpolateEnabled : Bool) (m : TriangleMesh)
    (buffer dPdu dPdv ddPdudu ddPdvdv ddPdudv : Nat) : Prop :=
  (b.DEBUG = true → interpolateEnabled = true) ∧
  (b.NDEBUG = false → isVertexBufferType c m.numTimeSteps buffer = true ∨
    (buffer ≥ c.RTC_USER_VERTEX_BUFFER0 ∧ buffer ≤ c.RTC_USER_VERTEX_BUFFER1)) ∧
  (dPdu ≠ 0 → dPdv ≠ 0) ∧ (ddPdudu ≠ 0 → ddPdvdv ≠ 0 ∧ ddPdudv ≠ 0)

/-- The loads and stores of `interpolateBody` at chunk start `i`, which are what
the body does when none of the outputs it stores through is null. -/
def chunkBody {F : Type} (ops : FloatOps F) (VSIZEX : Nat) (u v : F) (src stride : Nat)
    (tri : Nat → Nat) (P dPdu dPdv ddPdudu ddPdvdv ddPdudv numFloats : Nat) (i : Nat)
    (fm : FMem F) : FMem F :=
  let ofs := i * 4
  let w := ops.sub (ops.sub ops.one u) v
  let valid := validLane i numFloats
  let l0 := vfloatx.loadu ops VSIZEX valid (src + (tri 0 * stride + ofs) % 2 ^ 64) fm
  let l1 := vfloatx.loadu ops VSIZEX valid (src + (tri 1 * stride + ofs) % 2 ^ 64) l0.2
  let l2 := vfloatx.loadu ops VSIZEX valid (src + (tri 2 * stride + ofs) % 2 ^ 64) l1.2
  let p0 := l0.1
  let p1 := l1.1
  let p2 := l2.1
  let fm := l2.2
  let fm := if P ≠ 0 then
      vfloatx.storeu VSIZEX valid (P + 4 * i)
        (fun l => ops.madd w (p0 l) (ops.madd u (p1 l) (ops.mul v (p2 l)))) fm
    else fm
  let fm := if dPdu ≠ 0 then
      let fm := vfloatx.storeu VSIZEX valid (dPdu + 4 * i) (fun l => ops.sub (p1 l) (p0 l)) fm
      vfloatx.storeu VSIZEX valid (dPdv + 4 * i) (fun l => ops.sub (p2 l) (p0 l)) fm
    else fm
  let fm := if ddPdudu ≠ 0 then
      let fm := vfloatx.storeu VSIZEX valid (ddPdudu + 4 * i) (fun _ => ops.zero) fm
      let fm := vfloatx.storeu VSIZEX valid (ddPdvdv + 4 * i) (fun _ => ops.zero) fm
      vfloatx.storeu VSIZEX valid (ddPdudv + 4 * i) (fun _ => ops.zero) fm
    else fm
  fm


/-- The output pointers that a call stores through: `P` when it is not null,
`dPdu` and `dPdv` when `dPdu` is not null, the three second derivatives when
`ddPdudu` is not null. -/
def outputPointers (P dPdu dPdv ddPdudu ddPdvdv ddPdudv : Nat) : List Nat :=
  (if P ≠ 0 then [P] else []) ++
  (if dPdu ≠ 0 then [dPdu, dPdv] else []) ++
  (if ddPdudu ≠ 0 then [ddPdudu, ddPdvdv, ddPdudv] else [])

/-- The outputs that a call stores to, each with the value it stores as a function of the three
loaded vertex values. -/
def outputFormulas {F : Type} (ops : FloatOps F) (u v : F)
    (P dPdu dPdv ddPdudu ddPdvdv ddPdudv : Nat) : List (Nat × (F → F → F → F)) :=
  (if P ≠ 0 then
    [(P, fun p0 p1 p2 =>
      ops.madd (ops.sub (ops.sub ops.one u) v) p0 (ops.madd u p1 (ops.mul v p2)))]
    else []) ++
  (if dPdu ≠ 0 then
    [(dPdu, fun p0 p1 _ => ops.sub p1 p0), (dPdv, fun p0 _ p2 => ops.sub p2 p0)]
    else []) ++
  (if ddPdudu ≠ 0 then
    [(ddPdudu, fun _ _ _ => ops.zero), (ddPdvdv, fun _ _ _ => ops.zero),
      (ddPdudv, fun _ _ _ => ops.zero)]
    else [])

/-- The stores of one chunk as a fold over the list of outputs: each output
pointer receives, at the valid lanes, its formula of the three loaded rows. -/
def storeAll {F : Type} (V : Nat) (valid : Nat → Bool) (i : Nat) (p0 p1 p2 : Nat → F)
    (L : List (Nat × (F → F → F → F))) (fm : FMem F) : FMem F :=
  L.foldl (fun fm e =>
    vfloatx.storeu V valid (e.1 + 4 * i) (fun l => e.2 (p0 l) (p1 l) (p2 l)) fm) fm

/-- The lanes of row `k` that the body loads at chunk start `i`. -/
def rowLanes {F : Type} (ops : FloatOps F) (V : Nat) (src stride : Nat) (tri : Nat → Nat)
    (n i : Nat) (fm : FMem F) (k : Nat) : Nat → F :=
  fun l => if l < V ∧ validLane i n l = true then
    fm.val (src + (tri k * stride + i * 4) % 2 ^ 64 + 4 * l) else ops.zero

/-- The addresses of row `k` that the body loads at chunk start `i`. -/
def rowLoads (V : Nat) (src stride : Nat) (tri : Nat → Nat) (n i : Nat) (k : Nat) : List Nat :=
  ((List.range V).filter (validLane i n)).map
    (fun l => src + (tri k * stride + i * 4) % 2 ^ 64 + 4 * l)

/-- The loop of `interpolate` unrolled `k` times from chunk start `i`. -/
def runChunks {F : Type} (body : Nat → FMem F → FMem F) (V : Nat) :
    Nat → Nat → FMem F → FMem F
  | 0, _, fm => fm
  | k + 1, i, fm => runChunks body V k (i + V) (body i fm)

/-- The address at which the loop reads channel `j` of the row of vertex `t`: the chunk offset is
a `size_t` product, the lane is added to the pointer. -/
def channelAddr (V src stride t j : Nat) : Nat :=
  src + (t * stride + (j - j % V) * 4) % 2 ^ 64 + 4 * (j % V)

/-- The number of chunks of a loop over `n` channels. -/
def numChunks (n V : Nat) : Nat := (n + V - 1) / V

/-- What the loop has done to the logs and to memory when it reaches chunk `q`: it has stored
to the channels below `q * V` (and below `n`) of each output, loaded those channels of the
three rows, and left every float that shares no byte with a channel below `n` of an output as
it was. -/
def LoopLogInv {F : Type} (V src stride : Nat) (tri : Nat → Nat) (n : Nat)
    (L : List (Nat × (F → F → F → F))) (fm0 : FMem F) (q : Nat) (fm : FMem F) : Prop :=
  (∀ a, a ∈ fm.stores ↔
    a ∈ fm0.stores ∨ ∃ e ∈ L, ∃ j, j < q * V ∧ j < n ∧ a = e.1 + 4 * j) ∧
  (∀ a, a ∈ fm.loads ↔
    a ∈ fm0.loads ∨ ∃ k, k < 3 ∧ ∃ j, j < q * V ∧ j < n ∧
      a = channelAddr V src stride (tri k) j) ∧
  (∀ a, (∀ e ∈ L, ∀ j, j < n → a + 4 ≤ e.1 + 4 * j ∨ e.1 + 4 * j + 4 ≤ a) →
    fm.val a = fm0.val a)

/-- The outputs of a call do not overlap on their first `n` channels: no two
entries of different outputs share a byte. -/
def NoOverlap {F : Type} (n : Nat) (L : List (Nat × (F → F → F → F))) : Prop :=
  L.Pairwise (fun e e' => ∀ j1 j2, j1 < n → j2 < n →
    e.1 + 4 * j1 + 4 ≤ e'.1 + 4 * j2 ∨ e'.1 + 4 * j2 + 4 ≤ e.1 + 4 * j1)

/-- What the loop has written when it reaches chunk `q`, for outputs that overlap neither one
another nor the rows read: every channel below `q * V` (and below `n`) of each output holds the
value of its formula at that channel of the three rows as memory held them before the call. -/
def LoopValInv {F : Type} (V src stride : Nat) (tri : Nat → Nat) (n : Nat)
    (L : List (Nat × (F → F → F → F))) (fm0 : FMem F) (q : Nat) (fm : FMem F) : Prop :=
  (∀ a, (∀ e ∈ L, ∀ j, j < n → a + 4 ≤ e.1 + 4 * j ∨ e.1 + 4 * j + 4 ≤ a) →
    fm.val a = fm0.val a) ∧
  (∀ e ∈ L, ∀ j, j < q * V → j < n →
    fm.val (e.1 + 4 * j) = e.2 (fm0.val (channelAddr V src stride (tri 0) j))
      (fm0.val (channelAddr V src stride (tri 1) j))
      (fm0.val (channelAddr V src stride (tri 2) j)))


/-! ## scene_triangle_mesh.cpp: commit and release -/

/-- Modelled from the spec: `getPtr()` of the cached view, the address of its
first element. -/
def BufferView.getPtr (v : BufferView) : Nat := v.addr

/-- Modelled from the spec: `release()` of a typed buffer (`free()` of the absent
buffer.h) "drops ownership/reference": the buffer refers to no storage any
more; count and stride stay as they were. -/
def APIBuffer.free (b : APIBuffer) : APIBuffer := { b with ptr := 0, ofs := 0 }

/-- The method `TriangleMesh::preCommit()`: the loop over the time steps throws at
the first vertex buffer whose stride differs from that of time step 0. -/
def TriangleMesh.preCommit (m : TriangleMesh) : Except RTCError Unit × TriangleMesh :=
  if (List.range m.numTimeSteps).any (fun t =>
      decide ((m.vertices.getD t APIBuffer.empty).getStride
        ≠ (m.vertices.getD 0 APIBuffer.empty).getStride)) then
    (.error .RTC_INVALID_OPERATION, m)
  else (.ok (), m)

/-- The method `TriangleMesh::postCommit()`: the assignment
`scene->vertices[geomID] = (int*) vertices0.getPtr()`.  The call of
`Geometry::postCommit()` that follows works on members of the base class,
which are no part of this state.  The source dereferences `scene`; a mesh
without scene is left as is. -/
def TriangleMesh.postCommit (m : TriangleMesh) : TriangleMesh :=
  match m.scene with
  | none => m
  | some s =>
    { m with scene := some { s with vertices := s.vertices.set m.geomID m.vertices0.getPtr } }

/-- The method `TriangleMesh::immutable()`.  The source dereferences `scene`; a
mesh without scene is left as is. -/
def TriangleMesh.immutable (m : TriangleMesh) : TriangleMesh :=
  match m.scene with
  | none => m
  | some s =>
    let freeTriangles := !s.needTriangleIndices
    let freeVertices := !s.needTriangleVertices
    let m := if freeTriangles then { m with triangles := m.triangles.free } else m
    if freeVertices then { m with vertices := m.vertices.map APIBuffer.free } else m

/-! ## Notions used to state the properties of the two files -/

/-- Lane `i` of a K-wide ray record, as a scalar ray record. -/
def RayK.lane {K : Nat} {F : Type} (ray : RayK K F) (i : Fin K) : Ray F :=
  { org := ⟨ray.org.x i, ray.org.y i, ray.org.z i⟩
    dir := ⟨ray.dir.x i, ray.dir.y i, ray.dir.z i⟩
    tnear := ray._tnear i
    tfar := ray._tfar i
    time := ray.time i
    mask := ray.mask i
    Ng := ⟨ray.Ng.x i, ray.Ng.y i, ray.Ng.z i⟩
    u := ray.u i
    v := ray.v i
    geomID := ray.geomID i
    primID := ray.primID i
    instID := ray.instID i }

/-- Lane `i` of a K-wide hit, as a scalar hit. -/
def HitK.lane {K : Nat} {F : Type} (hit : HitK K F) (i : Fin K) : Hit F :=
  { Ng := ⟨hit.Ng.x i, hit.Ng.y i, hit.Ng.z i⟩
    t := hit.t i
    u := hit.u i
    v := hit.v i
    primID := hit.primID i
    geomID := hit.geomID i
    instID := hit.instID i }

/-- What replacing an index buffer of P triangles by one of Q triangles leaves in
the mesh `m'`, the mesh before the call being `m`: on a mesh attached to a
scene and for Q other than `(unsigned)-1`, the cached primitive count is Q,
the aggregate that the number of time steps selects is its previous value
minus P plus Q in `size_t` arithmetic, and the rest of the scene is
unchanged; on a mesh without scene, or for Q equal to `(unsigned)-1`, the
scene is unchanged. -/
def indexReplaced (m : TriangleMesh) (P Q : Nat) (m' : TriangleMesh) : Prop :=
  (∀ s, m.scene = some s → Q ≠ UNSIGNED_MINUS_ONE →
    m'.numPrimitives = Q ∧
    (m.numTimeSteps = 1 → m'.scene = some { s with
      world := ⟨addSizeT (subSizeT s.world.numTriangles P) Q⟩ }) ∧
    (m.numTimeSteps ≠ 1 → m'.scene = some { s with
      worldMB := ⟨addSizeT (subSizeT s.worldMB.numTriangles P) Q⟩ })) ∧
  ((m.scene = none ∨ Q = UNSIGNED_MINUS_ONE) → m'.scene = m.scene)

/-- The user-slot array after `userbuffers.resize(bid+1)` (when `bid` is not
below its size) and the assignment of `b` to slot `bid`. -/
def growSet (l : List APIBuffer) (bid : Nat) (b : APIBuffer) : List APIBuffer :=
  (if bid ≥ l.length then vresize l (bid + 1) else l).set bid b

/-- What storing the buffer `b` in user slot `s` leaves in the mesh `m'`, the
mesh before the call being `m`: the slot array has length
`max (previous length) (s+1)`, slot `s` holds `b`, every other slot that
existed before holds the buffer it held, and index buffer, vertex buffers,
cached view, cached count and scene are unchanged. -/
def userStored (m : TriangleMesh) (s : Nat) (b : APIBuffer) (m' : TriangleMesh) : Prop :=
  m'.userbuffers.length = max m.userbuffers.length (s + 1) ∧
  m'.userbuffers[s]? = some b ∧
  (∀ j, j < m.userbuffers.length → j ≠ s → m'.userbuffers[j]? = m.userbuffers[j]?) ∧
  m'.triangles = m.triangles ∧ m'.vertices = m.vertices ∧ m'.vertices0 = m.vertices0 ∧
  m'.numPrimitives = m.numPrimitives ∧ m'.scene = m.scene ∧
  m'.numTimeSteps = m.numTimeSteps ∧ m'.geomID = m.geomID

/-- The cached time-step-0 view is the view of the current time-step-0 vertex
buffer. -/
def cachedViewCurrent (m : TriangleMesh) : Prop :=
  m.vertices0 = (m.vertices.getD 0 APIBuffer.empty).get

/-- A call of one of the two buffer operations, with the surroundings it runs
in. -/
inductive BufferCall where
  | newBuffer (env : Env) (type stride size : Nat)
  | setBuffer (env : Env) (type ptr offset stride size : Nat)

/-- A sequence of buffer operations, each of which succeeds: the mesh after the
last call, or none when one of the calls throws. -/
def TriangleMesh.runCalls (c : RTCConsts) : List BufferCall → TriangleMesh → Option TriangleMesh
  | [], m => some m
  | .newBuffer env type stride size :: calls, m =>
    match m.newBuffer c env type stride size with
    | (.ok _, m') => TriangleMesh.runCalls c calls m'
    | (.error _, _) => none
  | .setBuffer env type ptr offset stride size :: calls, m =>
    match m.setBuffer c env type ptr offset stride size with
    | (.ok _, m') => TriangleMesh.runCalls c calls m'
    | (.error _, _) => none

/-! ## Concrete inputs used by the closed statements below -/

deriving instance DecidableEq for Except

/-- The values that Embree's public header gives the buffer kinds:
`RTC_INDEX_BUFFER = 0x01000000`, `RTC_VERTEX_BUFFER0 = 0x02000000`,
`RTC_USER_VERTEX_BUFFER0 = 0x02100000`, two user slots. -/
def embreeConsts : RTCConsts := ⟨0x01000000, 0x02000000, 0x02100000, 2, 0x02100001⟩

/-- Surroundings in which the allocator answers 4096 and every view is padded. -/
def envPadded : Env := ⟨fun _ => 4096, fun _ => true⟩

/-- Surroundings in which no view has the 16 bytes of padding. -/
def envUnpadded : Env := ⟨fun _ => 4096, fun _ => false⟩

/-- A freshly constructed mesh with one time step. -/
def mesh1 : TriangleMesh := TriangleMesh.new 1

/-- A mesh with one time step, three vertices and one triangle whose index
buffer lies at address 64. -/
def meshTri : TriangleMesh :=
  { numTimeSteps := 1
    scene := none
    geomID := 0
    numPrimitives := 1
    triangles := ⟨64, 0, 12, 1, true⟩
    vertices0 := ⟨1024, 16, 3⟩
    vertices := [⟨1024, 0, 16, 3, true⟩]
    userbuffers := [] }

/-- Index memory holding the triple (0, 1, 3) at address 64: the third
component equals the vertex count of `meshTri`. -/
def wordsBad : Nat → Nat := fun a => if a = 64 then 0 else if a = 68 then 1 else 3

/-- Exact integer arithmetic, standing in for the float arithmetic in the closed
statements. -/
def intOps : FloatOps Int := ⟨0, 1, fun a b => a + b, fun a b => a - b, fun a b => a * b⟩

/-- An arithmetic with a not-a-number value that every operation propagates
(`none`), over the integers: the behaviour of IEEE floats at NaN operands. -/
def nanOps : FloatOps (Option Int) :=
  ⟨some 0, some 1,
    fun a b => match a, b with
      | some x, some y => some (x + y)
      | _, _ => none,
    fun a b => match a, b with
      | some x, some y => some (x - y)
      | _, _ => none,
    fun a b => match a, b with
      | some x, some y => some (x * y)
      | _, _ => none⟩

/-- Float memory for `nanOps`, with empty logs: 5 at address 1024 (channel 0 of
vertex 0), not-a-number at address 1040 (channel 0 of vertex 1), 0 elsewhere;
a float some of whose bytes a store overwrites reads not-a-number afterwards. -/
def fmemNan : FMem (Option Int) :=
  ⟨fun a => if a = 1024 then some 5 else if a = 1040 then none else some 0, [], [],
    fun _ _ _ => none⟩

/-- Index memory holding the triple (0, 1, 2) at address 64. -/
def wordsTri : Nat → Nat := fun a => if a = 64 then 0 else if a = 68 then 1 else 2

/-- Float memory with empty logs: the float at an address below 2048 is the
address itself, the float at 4096 is 7, every other float is 0; a float
some of whose bytes a store overwrites reads -1 afterwards. -/
def fmemEx : FMem Int :=
  ⟨fun a => if a = 4096 then 7 else if a < 2048 then (a : Int) else 0, [], [],
    fun _ _ _ => -1⟩

/-- A scene with 10 triangles in the static aggregate, 20 in the motion-blur
aggregate, both retention flags set and a vertex table of two null entries. -/
def sceneEx : Scene := ⟨⟨10⟩, ⟨20⟩, true, true, [0, 0]⟩

/-- The mesh `meshTri` (one time step, one triangle) attached to `sceneEx`. -/
def meshAttached : TriangleMesh := { meshTri with scene := some sceneEx }

/-- Two buffer operations: the vertex buffer of time step 0 is set to the
address 2048 + 16, then a user buffer is allocated in slot 1. -/
def callsEx : List BufferCall :=
  [.setBuffer envPadded 0x02000000 2048 16 16 3, .newBuffer envPadded 0x02100001 8 3]

/-- The mesh `meshAttached` after the calls of `callsEx`. -/
def meshAfterCalls : TriangleMesh :=
  { numTimeSteps := 1
    scene := some sceneEx
    geomID := 0
    numPrimitives := 1
    triangles := ⟨64, 0, 12, 1, true⟩
    vertices0 := ⟨2064, 16, 3⟩
    vertices := [⟨2048, 16, 16, 3, true⟩]
    userbuffers := [APIBuffer.empty, ⟨4096, 0, 8, 3, false⟩] }

/-! ## Theorems -/

/-- C1: after the masked `copyHitToRay`, each of the nine hit fields of the ray
(Ng.x, Ng.y, Ng.z, primID, geomID, instID, u, v, _tfar) holds at lane `i` the
hit's value when the mask bit of lane `i` is set and the ray's previous value
when it is clear. -/
theorem copyHitToRayK_lane (K : Nat) (F : Type) (mask : Fin K → Bool) (ray : RayK K F)
    (hit : HitK K F) (i : Fin K) :
    (copyHitToRayK mask ray hit).Ng.x i = (if mask i then hit.Ng.x i else ray.Ng.x i) ∧
    (copyHitToRayK mask ray hit).Ng.y i = (if mask i then hit.Ng.y i else ray.Ng.y i) ∧
    (copyHitToRayK mask ray hit).Ng.z i = (if mask i then hit.Ng.z i else ray.Ng.z i) ∧
    (copyHitToRayK mask ray hit).primID i = (if mask i then hit.primID i else ray.primID i) ∧
    (copyHitToRayK mask ray hit).geomID i = (if mask i then hit.geomID i else ray.geomID i) ∧
    (copyHitToRayK mask ray hit).instID i = (if mask i then hit.instID i else ray.instID i) ∧
    (copyHitToRayK mask ray hit).u i = (if mask i then hit.u i else ray.u i) ∧
    (copyHitToRayK mask ray hit).v i = (if mask i then hit.v i else ray.v i) ∧
    (copyHitToRayK mask ray hit)._tfar i = (if mask i then hit.t i else ray._tfar i) := by
  simp [copyHitToRayK, vfloat.storeu, vint.storeu]

/-- C2: after the scalar `copyHitToRay` the ray's Ng, primID, geomID, instID, u
and v are the hit's, its far distance is the hit's t, and origin, direction,
near distance, time and mask are unchanged. -/
theorem copyHitToRay_fields (F : Type) (ray : Ray F) (hit : Hit F) :
    (copyHitToRay ray hit).Ng = hit.Ng ∧
    (copyHitToRay ray hit).primID = hit.primID ∧
    (copyHitToRay ray hit).geomID = hit.geomID ∧
    (copyHitToRay ray hit).instID = hit.instID ∧
    (copyHitToRay ray hit).u = hit.u ∧
    (copyHitToRay ray hit).v = hit.v ∧
    (copyHitToRay ray hit).tfar = hit.t ∧
    (copyHitToRay ray hit).org = ray.org ∧
    (copyHitToRay ray hit).dir = ray.dir ∧
    (copyHitToRay ray hit).tnear = ray.tnear ∧
    (copyHitToRay ray hit).time = ray.time ∧
    (copyHitToRay ray hit).mask = ray.mask := by
  simp [copyHitToRay]

/-! ### verify -/

/-- C5: `verify()` returns false whenever a component of an index triple of the
index buffer is greater than or equal to the vertex count (in particular equal
to it); so `verify()` returning true makes every component of every triple
strictly less than the vertex count. -/
theorem verify_index_bound {F : Type} (isvalid : Vec3 F → Bool) (words : Nat → Nat)
    (floats : Nat → F) (m : TriangleMesh) :
    ((∃ i k, i < m.triangles.size ∧ k < 3 ∧ m.numVertices ≤ m.triangleV words i k) →
      m.verify isvalid words floats = false) ∧
    (m.verify isvalid words floats = true →
      ∀ i k, i < m.triangles.size → k < 3 → m.triangleV words i k < m.numVertices) := by
  have key : m.verify isvalid words floats = true →
      ∀ i k, i < m.triangles.size → k < 3 → m.triangleV words i k < m.numVertices := by
    intro hv i k hi hk
    unfold TriangleMesh.verify at hv
    split at hv
    · exact absurd hv (by simp)
    split at hv
    · exact absurd hv (by simp)
    split at hv
    · exact absurd hv (by simp)
    split at hv
    · exact absurd hv (by simp)
    rename_i _ _ _ htri
    simp only [List.any_eq_true, not_exists, not_and, List.mem_range, Bool.or_eq_true,
      decide_eq_true_eq, not_or, not_le, ge_iff_le] at htri
    have h3 := htri i hi
    interval_cases k
    · exact h3.1.1
    · exact h3.1.2
    · exact h3.2
  refine ⟨?_, key⟩
  rintro ⟨i, k, hi, hk, hge⟩
  cases hv : m.verify isvalid words floats
  · rfl
  · exact absurd (key hv i k hi hk) (by omega)

/-- Witness of C5: a triangle (0, 1, 3) on a mesh with three vertices. -/
theorem verify_index_bound_witness :
    meshTri.verify (fun _ : Vec3 Int => true) wordsBad (fun _ => 0) = false :=
  (verify_index_bound (fun _ : Vec3 Int => true) wordsBad (fun _ => 0) meshTri).1
    ⟨0, 2, by decide, by decide, by decide⟩

/-! ### newBuffer, setBuffer, getBuffer: helper lemmas -/

theorem land3_eq_mod4 (x : Nat) : x &&& 0x3 = x % 4 :=
  Nat.and_pow_two_sub_one_eq_mod x 2

theorem mod64_land3 (x : Nat) : (x % 2 ^ 64) &&& 0x3 = x % 4 := by
  rw [land3_eq_mod4]
  exact Nat.mod_mod_of_dvd x (by decide)

/-- A kind that passes the vertex range test names a time step below the
number of time steps. -/
theorem isVertexBufferType_lt (c : RTCConsts) (T type : Nat)
    (h : isVertexBufferType c T type = true) :
    c.RTC_VERTEX_BUFFER0 ≤ type ∧ type - c.RTC_VERTEX_BUFFER0 < T := by
  simp only [isVertexBufferType, Bool.and_eq_true, decide_eq_true_eq] at h
  have := Nat.mod_le (c.RTC_VERTEX_BUFFER0 + T) (2 ^ 32)
  omega

/-- Without wrap-around of the 32-bit sum, the vertex range test accepts exactly
the kinds `RTC_VERTEX_BUFFER0 + t` with `t` below the number of time steps. -/
theorem isVertexBufferType_add (c : RTCConsts) (T t : Nat)
    (hT : c.RTC_VERTEX_BUFFER0 + T < 2 ^ 32) (ht : t < T) :
    isVertexBufferType c T (c.RTC_VERTEX_BUFFER0 + t) = true := by
  simp only [isVertexBufferType, Bool.and_eq_true, decide_eq_true_eq]
  rw [Nat.mod_eq_of_lt hT]
  omega

/-- A kind that is no `RTC_VERTEX_BUFFER0 + t` with `t` below the number of
time steps fails the vertex range test. -/
theorem isVertexBufferType_false (c : RTCConsts) (T type : Nat)
    (h : ∀ t, t < T → type ≠ c.RTC_VERTEX_BUFFER0 + t) :
    isVertexBufferType c T type = false := by
  cases hv : isVertexBufferType c T type
  · rfl
  · have := isVertexBufferType_lt c T type hv
    exact absurd (by omega) (h (type - c.RTC_VERTEX_BUFFER0) this.2)

/-- A kind that is no `RTC_USER_VERTEX_BUFFER0 + s` with `s` below the slot
limit fails the user range test. -/
theorem isUserBufferType_false (c : RTCConsts) (type : Nat)
    (h : ∀ s, s < c.RTC_MAX_USER_VERTEX_BUFFERS → type ≠ c.RTC_USER_VERTEX_BUFFER0 + s) :
    isUserBufferType c type = false := by
  cases hu : isUserBufferType c type
  · rfl
  · simp only [isUserBufferType, Bool.and_eq_true, decide_eq_true_eq] at hu
    exact absurd (by omega) (h (type - c.RTC_USER_VERTEX_BUFFER0) (by omega))

theorem getD_set_self (l : List APIBuffer) (t : Nat) (b d : APIBuffer) (h : t < l.length) :
    (l.set t b).getD t d = b := by
  simp [List.getD_eq_getElem?_getD, List.getElem?_set, h]

theorem setBuffer_misaligned (c : RTCConsts) (env : Env) (m : TriangleMesh)
    (type ptr offset stride size : Nat) (h : (ptr + offset) % 4 ≠ 0 ∨ stride % 4 ≠ 0) :
    m.setBuffer c env type ptr offset stride size = (.error .RTC_INVALID_OPERATION, m) := by
  unfold TriangleMesh.setBuffer
  rw [mod64_land3, land3_eq_mod4, if_pos h]

theorem newBuffer_misaligned (c : RTCConsts) (env : Env) (m : TriangleMesh)
    (type stride size : Nat) (h : stride % 4 ≠ 0) :
    m.newBuffer c env type stride size = (.error .RTC_INVALID_OPERATION, m) := by
  unfold TriangleMesh.newBuffer
  rw [land3_eq_mod4, if_pos h]

/-! ### newBuffer, setBuffer: alignment -/

/-- C6: for every buffer kind, pointer, offset, stride and count, `setBuffer`
fails with InvalidOperation when `pointer + offset` or the stride is not a
multiple of 4, `newBuffer` fails with InvalidOperation when the stride is not
a multiple of 4, and in both cases the mesh state is the one before the
call. -/
theorem misaligned_fails (c : RTCConsts) (env : Env) (m : TriangleMesh)
    (type ptr offset stride size : Nat) :
    ((ptr + offset) % 4 ≠ 0 ∨ stride % 4 ≠ 0 →
      m.setBuffer c env type ptr offset stride size = (.error .RTC_INVALID_OPERATION, m)) ∧
    (stride % 4 ≠ 0 →
      m.newBuffer c env type stride size = (.error .RTC_INVALID_OPERATION, m)) := by
  exact ⟨setBuffer_misaligned c env m type ptr offset stride size,
    newBuffer_misaligned c env m type stride size⟩

/-- Witness of C6: a stride of 6 on an index-buffer kind. -/
theorem misaligned_fails_witness :
    mesh1.setBuffer embreeConsts envPadded 0x01000000 4096 0 6 1
        = (.error .RTC_INVALID_OPERATION, mesh1) ∧
    mesh1.newBuffer embreeConsts envPadded 0x01000000 6 1
        = (.error .RTC_INVALID_OPERATION, mesh1) :=
  ⟨(misaligned_fails embreeConsts envPadded mesh1 0x01000000 4096 0 6 1).1
      (Or.inr (by decide)),
    (misaligned_fails embreeConsts envPadded mesh1 0x01000000 4096 0 6 1).2 (by decide)⟩

/-! ### newBuffer, setBuffer: failures and the mesh state -/

/-- Counterexample to C7: on a fresh mesh, `setBuffer` of the time-step-0 vertex
buffer in surroundings without padding fails with InvalidOperation in the
padding check, after the view was stored: the vertex buffer of the mesh is no
longer the one before the call. -/
theorem failed_setBuffer_changes_state :
    (mesh1.setBuffer embreeConsts envUnpadded 0x02000000 4096 0 16 3).1
        = .error .RTC_INVALID_OPERATION ∧
    mesh1.vertices = [APIBuffer.empty] ∧
    (mesh1.setBuffer embreeConsts envUnpadded 0x02000000 4096 0 16 3).2.vertices
        = [⟨4096, 0, 16, 3, true⟩] ∧
    (mesh1.setBuffer embreeConsts envUnpadded 0x02000000 4096 0 16 3).2 ≠ mesh1 := by
  decide

/-- C7, amended: a `newBuffer` or `setBuffer` call that fails because of
misaligned data, because the size test of the vertex branch rejects the buffer,
or because the kind is unknown, leaves the mesh state as it was before the
call. -/
theorem early_failure_keeps_state (c : RTCConsts) (env : Env) (m : TriangleMesh)
    (type ptr offset stride size : Nat) :
    (stride % 4 ≠ 0 →
      m.newBuffer c env type stride size = (.error .RTC_INVALID_OPERATION, m)) ∧
    ((ptr + offset) % 4 ≠ 0 ∨ stride % 4 ≠ 0 →
      m.setBuffer c env type ptr offset stride size = (.error .RTC_INVALID_OPERATION, m)) ∧
    (stride % 4 = 0 → isVertexBufferType c m.numTimeSteps type = true →
      exceeds16GB stride size = true →
      m.newBuffer c env type stride size = (.error .RTC_INVALID_OPERATION, m)) ∧
    ((ptr + offset) % 4 = 0 → stride % 4 = 0 →
      isVertexBufferType c m.numTimeSteps type = true →
      exceeds16GB stride (if size = UNSIGNED_MINUS_ONE then
        (m.vertices.getD (type - c.RTC_VERTEX_BUFFER0) APIBuffer.empty).size % 2 ^ 32
        else size) = true →
      m.setBuffer c env type ptr offset stride size = (.error .RTC_INVALID_OPERATION, m)) ∧
    (stride % 4 = 0 → isVertexBufferType c m.numTimeSteps type = false →
      isUserBufferType c type = false → type ≠ c.RTC_INDEX_BUFFER →
      m.newBuffer c env type stride size = (.error .RTC_INVALID_ARGUMENT, m)) ∧
    ((ptr + offset) % 4 = 0 → stride % 4 = 0 →
      isVertexBufferType c m.numTimeSteps type = false →
      isUserBufferType c type = false → type ≠ c.RTC_INDEX_BUFFER →
      m.setBuffer c env type ptr offset stride size = (.error .RTC_INVALID_ARGUMENT, m)) := by
  refine ⟨newBuffer_misaligned c env m type stride size,
    setBuffer_misaligned c env m type ptr offset stride size, ?_, ?_, ?_, ?_⟩
  · intro hs hv hx
    unfold TriangleMesh.newBuffer
    rw [land3_eq_mod4]
    simp [hs, hv, hx]
  · intro hp hs hv hx
    unfold TriangleMesh.setBuffer
    rw [mod64_land3, land3_eq_mod4, if_neg (by omega)]
    dsimp only
    rw [if_pos hv, if_pos hx]
  · intro hs hv hu hi
    unfold TriangleMesh.newBuffer
    rw [land3_eq_mod4]
    simp [hs, hv, hu, hi]
  · intro hp hs hv hu hi
    unfold TriangleMesh.setBuffer
    rw [mod64_land3, land3_eq_mod4]
    simp [hp, hs, hv, hu, hi]

/-- Witness of C7, amended: an oversized time-step-0 vertex buffer (stride 16,
2^31 elements) and an unknown kind 0. -/
theorem early_failure_keeps_state_witness :
    mesh1.newBuffer embreeConsts envPadded 0x02000000 16 (2 ^ 31)
        = (.error .RTC_INVALID_OPERATION, mesh1) ∧
    mesh1.setBuffer embreeConsts envPadded 0 4096 0 16 3
        = (.error .RTC_INVALID_ARGUMENT, mesh1) :=
  ⟨(early_failure_keeps_state embreeConsts envPadded mesh1 0x02000000 4096 0 16
      (2 ^ 31)).2.2.1 (by decide) (by decide) (by decide),
    (early_failure_keeps_state embreeConsts envPadded mesh1 0 4096 0 16 3).2.2.2.2.2
      (by decide) (by decide) (by decide) (by decide) (by decide)⟩

/-! ### newBuffer, setBuffer, getBuffer: unknown kinds -/

/-- Counterexample to C8: kind 0 is no vertex-buffer kind, no user-slot kind and
not the index-buffer kind, yet `newBuffer` and `setBuffer` with a stride of 6
fail with InvalidOperation, not with InvalidArgument: the alignment test comes
first. -/
theorem unknown_kind_misaligned :
    isVertexBufferType embreeConsts mesh1.numTimeSteps 0 = false ∧
    isUserBufferType embreeConsts 0 = false ∧
    0 ≠ embreeConsts.RTC_INDEX_BUFFER ∧
    (mesh1.newBuffer embreeConsts envPadded 0 6 1).1 = .error .RTC_INVALID_OPERATION ∧
    (mesh1.setBuffer embreeConsts envPadded 0 4096 0 6 1).1
        = .error .RTC_INVALID_OPERATION := by
  decide

/-- C8, amended: for a kind that is neither the index-buffer kind nor a
vertex-buffer kind with time step below T, `getBuffer` fails with
InvalidArgument; if the kind is no user-slot kind either, `newBuffer` fails
with InvalidArgument for every count and every stride that is a multiple of 4,
and `setBuffer` fails with InvalidArgument for every count whenever
`pointer + offset` and the stride are multiples of 4. -/
theorem unknown_kind_fails (c : RTCConsts) (env : Env) (m : TriangleMesh)
    (type ptr offset stride size : Nat)
    (hv : ∀ t, t < m.numTimeSteps → type ≠ c.RTC_VERTEX_BUFFER0 + t)
    (hi : type ≠ c.RTC_INDEX_BUFFER) :
    m.getBuffer c type = .error .RTC_INVALID_ARGUMENT ∧
    ((∀ s, s < c.RTC_MAX_USER_VERTEX_BUFFERS → type ≠ c.RTC_USER_VERTEX_BUFFER0 + s) →
      (stride % 4 = 0 →
        m.newBuffer c env type stride size = (.error .RTC_INVALID_ARGUMENT, m)) ∧
      ((ptr + offset) % 4 = 0 → stride % 4 = 0 →
        m.setBuffer c env type ptr offset stride size
          = (.error .RTC_INVALID_ARGUMENT, m))) := by
  have hv2 := isVertexBufferType_false c m.numTimeSteps type hv
  refine ⟨?_, ?_⟩
  · unfold TriangleMesh.getBuffer
    rw [if_neg hi, hv2]
    rfl
  · intro hu
    have hu2 := isUserBufferType_false c type hu
    refine ⟨?_, ?_⟩
    · intro hs
      unfold TriangleMesh.newBuffer
      rw [land3_eq_mod4, if_neg (by omega)]
      dsimp only
      rw [hv2, hu2, if_neg hi]
      rfl
    · intro hp hs
      unfold TriangleMesh.setBuffer
      rw [mod64_land3, land3_eq_mod4, if_neg (by omega)]
      dsimp only
      rw [hv2, hu2, if_neg hi]
      rfl

/-- Witness of C8, amended: the vertex-buffer kind of time step 1 on a mesh with
one time step. -/
theorem unknown_kind_fails_witness :
    mesh1.getBuffer embreeConsts 0x02000001 = .error .RTC_INVALID_ARGUMENT ∧
    mesh1.newBuffer embreeConsts envPadded 0x02000001 16 3
        = (.error .RTC_INVALID_ARGUMENT, mesh1) ∧
    mesh1.setBuffer embreeConsts envPadded 0x02000001 4096 0 16 3
        = (.error .RTC_INVALID_ARGUMENT, mesh1) :=
  have h := unknown_kind_fails embreeConsts envPadded mesh1 0x02000001 4096 0 16 3
    (by intro t ht; have : t = 0 := by
          have : mesh1.numTimeSteps = 1 := rfl
          omega
        subst this; decide)
    (by decide)
  have h2 := h.2 (by
    intro s hs
    have : embreeConsts.RTC_USER_VERTEX_BUFFER0 = 0x02100000 := rfl
    omega)
  ⟨h.1, h2.1 (by decide), h2.2 (by decide) (by decide)⟩

/-! ### newBuffer, setBuffer: the 16 GiB cap of vertex buffers -/

theorem exceeds16GB_iff (stride size : Nat) (h : stride * size < 2 ^ 64) :
    exceeds16GB stride size = true ↔ GB16 < stride * size := by
  unfold exceeds16GB
  rw [Nat.mod_eq_of_lt h, decide_eq_true_eq]

/-- The size test of the vertex branch computes the product modulo 2^64: a
stride of 2^62 with 4 elements passes it. -/
theorem exceeds16GB_wraps : exceeds16GB (2 ^ 62) 4 = false := by
  decide

/-- Counterexample to C9: with the count `(unsigned)-1` and a stride of 8 the
product exceeds 16 GiB, yet `setBuffer` of the time-step-0 vertex buffer
succeeds: that count stands for the current element count of the buffer. -/
theorem setBuffer_sentinel_count_accepted :
    8 % 4 = 0 ∧ GB16 < 8 * UNSIGNED_MINUS_ONE ∧ UNSIGNED_MINUS_ONE < 2 ^ 32 ∧
    (mesh1.setBuffer embreeConsts envPadded 0x02000000 4096 0 8 UNSIGNED_MINUS_ONE).1
        = .ok () := by
  decide

/-- C9, amended: for the vertex-buffer kind of a time step `t` below T, a stride
that is a multiple of 4 and a count with `stride * count` below 2^64:
`newBuffer` fails with InvalidOperation when `stride * count` exceeds 16 GiB
and succeeds otherwise; `setBuffer` with a count other than `(unsigned)-1`
fails with InvalidOperation when `stride * count` exceeds 16 GiB; and the size
test accepts whenever `stride * count` is at most 16 GiB, the value 2^34
included. -/
theorem vertex_buffer_cap (c : RTCConsts) (env : Env) (m : TriangleMesh)
    (t ptr offset stride size : Nat)
    (ht : t < m.numTimeSteps) (hT : c.RTC_VERTEX_BUFFER0 + m.numTimeSteps < 2 ^ 32)
    (hs : stride % 4 = 0) (hno : stride * size < 2 ^ 64) :
    (GB16 < stride * size →
      m.newBuffer c env (c.RTC_VERTEX_BUFFER0 + t) stride size
        = (.error .RTC_INVALID_OPERATION, m)) ∧
    (GB16 < stride * size → size ≠ UNSIGNED_MINUS_ONE →
      m.setBuffer c env (c.RTC_VERTEX_BUFFER0 + t) ptr offset stride size
        = (.error .RTC_INVALID_OPERATION, m)) ∧
    (stride * size ≤ GB16 →
      exceeds16GB stride size = false ∧
      ∃ v m', m.newBuffer c env (c.RTC_VERTEX_BUFFER0 + t) stride size = (.ok v, m')) ∧
    exceeds16GB 16 (2 ^ 30) = false ∧ 16 * 2 ^ 30 = 2 ^ 34 ∧ GB16 = 2 ^ 34 := by
  have hv := isVertexBufferType_add c m.numTimeSteps t hT ht
  refine ⟨?_, ?_, ?_, by decide, by decide, by decide⟩
  · intro hbig
    have hx := (exceeds16GB_iff stride size hno).2 hbig
    unfold TriangleMesh.newBuffer
    rw [land3_eq_mod4, if_neg (by omega)]
    dsimp only
    rw [if_pos hv, if_pos hx]
  · intro hbig hne
    by_cases hp : (ptr + offset) % 4 = 0
    · have hx := (exceeds16GB_iff stride size hno).2 hbig
      unfold TriangleMesh.setBuffer
      rw [mod64_land3, land3_eq_mod4, if_neg (by omega)]
      dsimp only
      rw [if_pos hv, if_neg hne, if_pos hx]
    · exact setBuffer_misaligned c env m _ ptr offset stride size (Or.inl hp)
  · intro hsmall
    have hx : exceeds16GB stride size = false := by
      cases h : exceeds16GB stride size
      · rfl
      · exact absurd ((exceeds16GB_iff stride size hno).1 h) (by omega)
    refine ⟨hx, ?_⟩
    unfold TriangleMesh.newBuffer
    rw [land3_eq_mod4, if_neg (by omega)]
    dsimp only
    rw [if_pos hv, hx]
    simp only [Bool.false_eq_true, if_false]
    unfold APIBuffer.newBuffer
    rw [if_neg (by omega), if_neg (by omega)]
    exact ⟨_, _, rfl⟩

/-- Witness of C9, amended: stride 16 with 2^31 elements (32 GiB) on the
time-step-0 vertex buffer of a fresh mesh. -/
theorem vertex_buffer_cap_witness :
    mesh1.newBuffer embreeConsts envPadded (embreeConsts.RTC_VERTEX_BUFFER0 + 0) 16 (2 ^ 31)
        = (.error .RTC_INVALID_OPERATION, mesh1) :=
  (vertex_buffer_cap embreeConsts envPadded mesh1 0 4096 0 16 (2 ^ 31)
    (by decide) (by decide) (by decide) (by decide)).1 (by decide)

/-! ### newBuffer / setBuffer followed by getBuffer -/

theorem enabling_triangles (m : TriangleMesh) : m.enabling.triangles = m.triangles := by
  unfold TriangleMesh.enabling
  cases m.scene with
  | none => rfl
  | some s => dsimp only; split <;> rfl

theorem disabling_triangles (m : TriangleMesh) : m.disabling.triangles = m.triangles := by
  unfold TriangleMesh.disabling
  cases m.scene with
  | none => rfl
  | some s => dsimp only; split <;> rfl

theorem enabling_numTimeSteps (m : TriangleMesh) :
    m.enabling.numTimeSteps = m.numTimeSteps := by
  unfold TriangleMesh.enabling
  cases m.scene with
  | none => rfl
  | some s => dsimp only; split <;> rfl

theorem disabling_numTimeSteps (m : TriangleMesh) :
    m.disabling.numTimeSteps = m.numTimeSteps := by
  unfold TriangleMesh.disabling
  cases m.scene with
  | none => rfl
  | some s => dsimp only; split <;> rfl

theorem ite_enabling_triangles (p : Prop) [Decidable p] (m : TriangleMesh) :
    (if p then m.enabling else m).triangles = m.triangles := by
  split
  · exact enabling_triangles m
  · rfl

theorem ite_disabling_triangles (p : Prop) [Decidable p] (m : TriangleMesh) :
    (if p then m.disabling else m).triangles = m.triangles := by
  split
  · exact disabling_triangles m
  · rfl

/-- A successful `set` stores exactly the given view, marked as shared. -/
theorem APIBuffer.set_ok (ptr ofs stride num : Nat) (b : APIBuffer)
    (h : APIBuffer.set ptr ofs stride num = .ok b) : b = ⟨ptr, ofs, stride, num, true⟩ := by
  unfold APIBuffer.set at h
  split at h
  · exact absurd h (by simp)
  split at h
  · exact absurd h (by simp)
  · exact (Except.ok.inj h).symm

/-- The call `getBuffer` of the index-buffer kind reads the index buffer. -/
theorem getBuffer_index (c : RTCConsts) (m : TriangleMesh) :
    m.getBuffer c c.RTC_INDEX_BUFFER = .ok m.triangles.get := by
  unfold TriangleMesh.getBuffer
  rw [if_pos rfl]

/-- The call `getBuffer` of a vertex-buffer kind other than the index-buffer kind reads
the vertex buffer of its time step. -/
theorem getBuffer_vertex (c : RTCConsts) (m : TriangleMesh) (type : Nat)
    (hi : type ≠ c.RTC_INDEX_BUFFER) (hv : isVertexBufferType c m.numTimeSteps type = true) :
    m.getBuffer c type
      = .ok (m.vertices.getD (type - c.RTC_VERTEX_BUFFER0) APIBuffer.empty).get := by
  unfold TriangleMesh.getBuffer
  rw [if_neg hi, if_pos hv]

/-- Counterexample to C10: `newBuffer` accepts the kind of user slot 0 and
returns a view of one element of stride 4, but `getBuffer` of that kind on the
resulting mesh fails with InvalidArgument. -/
theorem user_buffer_not_retrievable :
    (mesh1.newBuffer embreeConsts envPadded 0x02100000 4 1).1 = .ok ⟨4096, 4, 1⟩ ∧
    (mesh1.newBuffer embreeConsts envPadded 0x02100000 4 1).2.getBuffer embreeConsts
        0x02100000 = .error .RTC_INVALID_ARGUMENT := by
  decide

/-- C10, amended: for the index-buffer kind and for every kind that passes the
vertex range test (time step below T), on a mesh with one vertex buffer per
time step: a `newBuffer` call with a stride that is a multiple of 4 and
`stride * count` at most 16 GiB succeeds, and `getBuffer` of the same kind then
returns the view that `newBuffer` returned, of size `count` and stride
`stride`; after a successful `setBuffer`, `getBuffer` returns a view at
`pointer + offset` with the given stride, and reading element `i` through it
reads the caller's memory at `pointer + offset + i * stride`. -/
theorem buffer_roundtrip (c : RTCConsts) (env : Env) (m : TriangleMesh)
    (type ptr offset stride size : Nat)
    (hwf : m.vertices.length = m.numTimeSteps)
    (hsep : isVertexBufferType c m.numTimeSteps c.RTC_INDEX_BUFFER = false ∧
      isUserBufferType c c.RTC_INDEX_BUFFER = false)
    (hk : type = c.RTC_INDEX_BUFFER ∨ isVertexBufferType c m.numTimeSteps type = true) :
    (stride % 4 = 0 → stride * size ≤ GB16 →
      ∃ v m', m.newBuffer c env type stride size = (.ok v, m') ∧
        m'.getBuffer c type = .ok v ∧ v.size = size ∧ v.stride = stride) ∧
    (∀ m', m.setBuffer c env type ptr offset stride size = (.ok (), m') →
      ∃ v, m'.getBuffer c type = .ok v ∧ v.addr = ptr + offset ∧ v.stride = stride ∧
        ∀ (α : Type) (mem : Nat → α) (i : Nat),
          v.read mem i = mem (ptr + offset + i * stride)) := by
  have hGB : GB16 < 2 ^ 64 := by decide
  rcases hk with hk | hk
  · -- the index-buffer kind
    subst hk
    refine ⟨?_, ?_⟩
    · intro hs hsmall
      have hnb : APIBuffer.newBuffer env size stride
          = .ok ⟨env.alignedMalloc (stride * size), 0, stride, size, false⟩ := by
        unfold APIBuffer.newBuffer
        rw [if_neg (by omega), if_neg (by omega)]
      unfold TriangleMesh.newBuffer
      rw [land3_eq_mod4, if_neg (by omega)]
      dsimp only
      rw [hsep.1, hsep.2, hnb]
      simp only [Bool.false_eq_true, if_false, if_true]
      refine ⟨_, _, rfl, ?_, ?_, ?_⟩
      · rw [getBuffer_index]
      · rw [ite_enabling_triangles]; rfl
      · rw [ite_enabling_triangles]; rfl
    · intro m' hset
      unfold TriangleMesh.setBuffer at hset
      by_cases hal : ((ptr + offset) % 2 ^ 64) &&& 0x3 ≠ 0 ∨ stride &&& 0x3 ≠ 0
      · rw [if_pos hal] at hset
        exact absurd (congrArg Prod.fst hset) (by simp)
      rw [if_neg hal] at hset
      dsimp only at hset
      rw [hsep.1, hsep.2] at hset
      simp only [Bool.false_eq_true, if_false, if_true] at hset
      cases hb : APIBuffer.set ptr offset stride size with
      | error e =>
        rw [hb] at hset
        exact absurd (congrArg Prod.fst hset) (by simp)
      | ok b =>
        rw [hb] at hset
        have hb2 := APIBuffer.set_ok ptr offset stride size b hb
        subst hb2
        have hm := congrArg Prod.snd hset
        dsimp only at hm
        subst hm
        refine ⟨_, getBuffer_index c _, ?_, ?_, ?_⟩
        · rw [ite_enabling_triangles]; rfl
        · rw [ite_enabling_triangles]; rfl
        · intro α mem i
          unfold BufferView.read
          rw [ite_enabling_triangles]; rfl
  · -- a vertex-buffer kind
    have hi : type ≠ c.RTC_INDEX_BUFFER := by
      intro h
      rw [h, hsep.1] at hk
      exact absurd hk (by simp)
    have hlt := (isVertexBufferType_lt c m.numTimeSteps type hk).2
    rw [← hwf] at hlt
    refine ⟨?_, ?_⟩
    · intro hs hsmall
      have hnb : APIBuffer.newBuffer env size stride
          = .ok ⟨env.alignedMalloc (stride * size), 0, stride, size, false⟩ := by
        unfold APIBuffer.newBuffer
        rw [if_neg (by omega), if_neg (by omega)]
      have hx : exceeds16GB stride size = false := by
        cases h : exceeds16GB stride size
        · rfl
        · exact absurd ((exceeds16GB_iff stride size (by omega)).1 h) (by omega)
      unfold TriangleMesh.newBuffer
      rw [land3_eq_mod4, if_neg (by omega)]
      dsimp only
      rw [if_pos hk, hx, hnb]
      simp only [Bool.false_eq_true, if_false]
      refine ⟨_, _, rfl, ?_, ?_, ?_⟩
      · unfold TriangleMesh.getBuffer
        rw [if_neg hi]
        dsimp only
        rw [if_pos hk]
      · rw [getD_set_self _ _ _ _ hlt]; rfl
      · rw [getD_set_self _ _ _ _ hlt]; rfl
    · intro m' hset
      unfold TriangleMesh.setBuffer at hset
      by_cases hal : ((ptr + offset) % 2 ^ 64) &&& 0x3 ≠ 0 ∨ stride &&& 0x3 ≠ 0
      · rw [if_pos hal] at hset
        exact absurd (congrArg Prod.fst hset) (by simp)
      rw [if_neg hal] at hset
      dsimp only at hset
      rw [if_pos hk] at hset
      generalize hsz : (if size = UNSIGNED_MINUS_ONE then
        (m.vertices.getD (type - c.RTC_VERTEX_BUFFER0) APIBuffer.empty).size % 2 ^ 32
        else size) = size' at hset
      by_cases hx : exceeds16GB stride size' = true
      · rw [if_pos hx] at hset
        exact absurd (congrArg Prod.fst hset) (by simp)
      rw [if_neg hx] at hset
      cases hb : APIBuffer.set ptr offset stride size' with
      | error e =>
        rw [hb] at hset
        exact absurd (congrArg Prod.fst hset) (by simp)
      | ok b =>
        rw [hb] at hset
        have hb2 := APIBuffer.set_ok ptr offset stride size' b hb
        subst hb2
        dsimp only at hset
        rw [getD_set_self _ _ _ _ hlt] at hset
        cases hpad : APIBuffer.checkPadding16 env ⟨ptr, offset, stride, size', true⟩ with
        | error e =>
          rw [hpad] at hset
          exact absurd (congrArg Prod.fst hset) (by simp)
        | ok u =>
          rw [hpad] at hset
          have hm := congrArg Prod.snd hset
          dsimp only at hm
          subst hm
          refine ⟨(⟨ptr, offset, stride, size', true⟩ : APIBuffer).get, ?_, rfl, rfl, ?_⟩
          · unfold TriangleMesh.getBuffer
            rw [if_neg hi]
            dsimp only
            rw [if_pos hk, getD_set_self _ _ _ _ hlt]
          · intro α mem i
            rfl

/-- Witness of C10, amended: the time-step-0 vertex buffer of a fresh mesh with
three elements of stride 16. -/
theorem buffer_roundtrip_witness :
    (∃ v m', mesh1.newBuffer embreeConsts envPadded 0x02000000 16 3 = (.ok v, m') ∧
      m'.getBuffer embreeConsts 0x02000000 = .ok v ∧ v.size = 3 ∧ v.stride = 16) ∧
    (∃ v, (mesh1.setBuffer embreeConsts envPadded 0x02000000 4096 32 16 3).2.getBuffer
        embreeConsts 0x02000000 = .ok v ∧ v.addr = 4096 + 32 ∧ v.stride = 16 ∧
      ∀ (α : Type) (mem : Nat → α) (i : Nat), v.read mem i = mem (4096 + 32 + i * 16)) :=
  ⟨(buffer_roundtrip embreeConsts envPadded mesh1 0x02000000 4096 32 16 3
      (by decide) (by decide) (Or.inr (by decide))).1 (by decide) (by decide),
    (buffer_roundtrip embreeConsts envPadded mesh1 0x02000000 4096 32 16 3
      (by decide) (by decide) (Or.inr (by decide))).2 _ (by decide)⟩

/-! ### interpolate: masked loads and stores, the loop -/

theorem storeu_succ {F : Type} (V : Nat) (valid : Nat → Bool) (ptr : Nat) (v : Nat → F) (fm : FMem F) :
    vfloatx.storeu (V + 1) valid ptr v fm =
      if valid V = true then (vfloatx.storeu V valid ptr v fm).write (ptr + 4 * V) (v V)
      else vfloatx.storeu V valid ptr v fm := by
  unfold vfloatx.storeu
  rw [List.range_succ, List.foldl_append]
  rfl

theorem storeu_loads {F : Type} (V : Nat) (valid : Nat → Bool) (ptr : Nat) (v : Nat → F) (fm : FMem F) :
    (vfloatx.storeu V valid ptr v fm).loads = fm.loads := by
  induction V with
  | zero => rfl
  | succ V ih =>
    rw [storeu_succ]
    split
    · exact ih
    · exact ih

theorem storeu_stores {F : Type} (V : Nat) (valid : Nat → Bool) (ptr : Nat) (v : Nat → F) (fm : FMem F) :
    (vfloatx.storeu V valid ptr v fm).stores
      = fm.stores ++ ((List.range V).filter valid).map (fun l => ptr + 4 * l) := by
  induction V with
  | zero => simp [vfloatx.storeu]
  | succ V ih =>
    rw [storeu_succ, List.range_succ, List.filter_append]
    by_cases h : valid V = true
    · simp [h, ih, FMem.write]
    · simp [h, ih]

/-- A store leaves every float that shares no byte with the float stored as it is. -/
theorem write_val_far {F : Type} (fm : FMem F) (p a : Nat) (x : F)
    (h : a + 4 ≤ p ∨ p + 4 ≤ a) : (fm.write p x).val a = fm.val a := by
  unfold FMem.write
  dsimp only
  rw [if_neg (by omega), if_pos h]

theorem write_val_self {F : Type} (fm : FMem F) (p : Nat) (x : F) :
    (fm.write p x).val p = x := by
  unfold FMem.write
  dsimp only
  rw [if_pos rfl]

/-- A masked store leaves every float that shares no byte with a valid lane as it is. -/
theorem storeu_val_far {F : Type} (V : Nat) (valid : Nat → Bool) (ptr : Nat) (v : Nat → F)
    (fm : FMem F) (a : Nat)
    (h : ∀ l, l < V → valid l = true → a + 4 ≤ ptr + 4 * l ∨ ptr + 4 * l + 4 ≤ a) :
    (vfloatx.storeu V valid ptr v fm).val a = fm.val a := by
  induction V with
  | zero => rfl
  | succ V ih =>
    rw [storeu_succ]
    by_cases hv : valid V = true
    · rw [if_pos hv, write_val_far _ _ _ _ (h V (by omega) hv)]
      exact ih (fun l hl => h l (by omega))
    · rw [if_neg hv]
      exact ih (fun l hl => h l (by omega))

/-- A masked store leaves at each valid lane the value of that lane. -/
theorem storeu_val_hit {F : Type} (V : Nat) (valid : Nat → Bool) (ptr : Nat) (v : Nat → F)
    (fm : FMem F) (l : Nat) (hl : l < V) (hv : valid l = true) :
    (vfloatx.storeu V valid ptr v fm).val (ptr + 4 * l) = v l := by
  induction V with
  | zero => omega
  | succ V ih =>
    rw [storeu_succ]
    by_cases hV : valid V = true
    · rw [if_pos hV]
      by_cases hlV : l = V
      · subst hlV
        exact write_val_self _ _ _
      · rw [write_val_far _ _ _ _ (Or.inl (by omega))]
        exact ih (by omega)
    · rw [if_neg hV]
      have hne : l ≠ V := by
        rintro rfl
        exact hV hv
      exact ih (by omega)

theorem chunkBody_eq {F : Type} (ops : FloatOps F) (V : Nat) (u v : F) (src stride : Nat)
    (tri : Nat → Nat) (P dPdu dPdv ddPdudu ddPdvdv ddPdudv n : Nat) (i : Nat) (fm : FMem F) :
    chunkBody ops V u v src stride tri P dPdu dPdv ddPdudu ddPdvdv ddPdudv n i fm =
      storeAll V (validLane i n) i
        (rowLanes ops V src stride tri n i fm 0)
        (rowLanes ops V src stride tri n i fm 1)
        (rowLanes ops V src stride tri n i fm 2)
        (outputFormulas ops u v P dPdu dPdv ddPdudu ddPdvdv ddPdudv)
        { val := fm.val
          loads := ((fm.loads ++ rowLoads V src stride tri n i 0)
            ++ rowLoads V src stride tri n i 1) ++ rowLoads V src stride tri n i 2
          stores := fm.stores
          overlay := fm.overlay } := by
  unfold chunkBody storeAll outputFormulas
  by_cases h1 : P ≠ 0 <;> by_cases h2 : dPdu ≠ 0 <;> by_cases h3 : ddPdudu ≠ 0 <;>
    simp only [h1, h2, h3, if_true, if_false, not_true_eq_false, not_false_eq_true,
      List.foldl_cons, List.foldl_nil, List.cons_append, List.nil_append, List.append_nil,
      ne_eq] <;> rfl

theorem storeAll_nil {F : Type} (V : Nat) (valid : Nat → Bool) (i : Nat) (p0 p1 p2 : Nat → F)
    (fm : FMem F) : storeAll V valid i p0 p1 p2 [] fm = fm := rfl

theorem storeAll_cons {F : Type} (V : Nat) (valid : Nat → Bool) (i : Nat) (p0 p1 p2 : Nat → F)
    (e : Nat × (F → F → F → F)) (L : List (Nat × (F → F → F → F))) (fm : FMem F) :
    storeAll V valid i p0 p1 p2 (e :: L) fm =
      storeAll V valid i p0 p1 p2 L
        (vfloatx.storeu V valid (e.1 + 4 * i) (fun l => e.2 (p0 l) (p1 l) (p2 l)) fm) := rfl

theorem storeAll_loads {F : Type} (V : Nat) (valid : Nat → Bool) (i : Nat) (p0 p1 p2 : Nat → F)
    (L : List (Nat × (F → F → F → F))) (fm : FMem F) :
    (storeAll V valid i p0 p1 p2 L fm).loads = fm.loads := by
  induction L generalizing fm with
  | nil => rfl
  | cons e L ih => rw [storeAll_cons, ih, storeu_loads]

/-- An address is in the store log after the stores of a chunk iff it was there before or is the
address of a valid lane of one of the outputs. -/
theorem storeAll_mem_stores {F : Type} (V : Nat) (valid : Nat → Bool) (i : Nat)
    (p0 p1 p2 : Nat → F) (L : List (Nat × (F → F → F → F))) (fm : FMem F) (a : Nat) :
    a ∈ (storeAll V valid i p0 p1 p2 L fm).stores ↔
      a ∈ fm.stores ∨ ∃ e ∈ L, ∃ l, l < V ∧ valid l = true ∧ a = e.1 + 4 * i + 4 * l := by
  induction L generalizing fm with
  | nil => simp [storeAll_nil]
  | cons e L ih =>
    rw [storeAll_cons, ih, storeu_stores]
    simp only [List.mem_append, List.mem_map, List.mem_filter, List.mem_range, List.mem_cons,
      exists_eq_or_imp]
    constructor
    · rintro ((h | ⟨l, ⟨hl, hv⟩, rfl⟩) | h)
      · exact Or.inl h
      · exact Or.inr (Or.inl ⟨l, hl, hv, rfl⟩)
      · exact Or.inr (Or.inr h)
    · rintro (h | ⟨l, hl, hv, rfl⟩ | h)
      · exact Or.inl (Or.inl h)
      · exact Or.inl (Or.inr ⟨l, ⟨hl, hv⟩, rfl⟩)
      · exact Or.inr h

/-- The stores of a chunk leave every float that shares no byte with a valid lane of an output
as it is. -/
theorem storeAll_val_frame {F : Type} (V : Nat) (valid : Nat → Bool) (i : Nat)
    (p0 p1 p2 : Nat → F) (L : List (Nat × (F → F → F → F))) (fm : FMem F) (a : Nat)
    (h : ∀ e ∈ L, ∀ l, l < V → valid l = true →
      a + 4 ≤ e.1 + 4 * i + 4 * l ∨ e.1 + 4 * i + 4 * l + 4 ≤ a) :
    (storeAll V valid i p0 p1 p2 L fm).val a = fm.val a := by
  induction L generalizing fm with
  | nil => rfl
  | cons e L ih =>
    rw [storeAll_cons, ih _ (fun e' he' => h e' (List.mem_cons_of_mem _ he')), storeu_val_far]
    intro l hl hv
    exact h e (List.mem_cons_self _ _) l hl hv

/-- With outputs that do not overlap, the stores of a chunk leave at each valid lane of an
output the value of its formula. -/
theorem storeAll_val_hit {F : Type} (V : Nat) (valid : Nat → Bool) (i : Nat)
    (p0 p1 p2 : Nat → F) (L : List (Nat × (F → F → F → F))) (fm : FMem F)
    (hpw : L.Pairwise (fun e e' => ∀ l l', l < V → l' < V → valid l = true → valid l' = true →
      e.1 + 4 * i + 4 * l + 4 ≤ e'.1 + 4 * i + 4 * l' ∨
        e'.1 + 4 * i + 4 * l' + 4 ≤ e.1 + 4 * i + 4 * l))
    (e : Nat × (F → F → F → F)) (he : e ∈ L) (l : Nat) (hl : l < V) (hv : valid l = true) :
    (storeAll V valid i p0 p1 p2 L fm).val (e.1 + 4 * i + 4 * l) = e.2 (p0 l) (p1 l) (p2 l) := by
  induction L generalizing fm with
  | nil => exact absurd he (List.not_mem_nil _)
  | cons e0 L ih =>
    rw [List.pairwise_cons] at hpw
    rw [storeAll_cons]
    by_cases hin : e ∈ L
    · exact ih _ hpw.2 hin
    · have he0 : e = e0 := by
        rcases List.mem_cons.1 he with h | h
        · exact h
        · exact absurd h hin
      subst he0
      rw [storeAll_val_frame, storeu_val_hit _ _ _ _ _ l hl hv]
      intro e' he' l' hl' hv'
      exact hpw.1 e' he' l l' hl hl' hv hv'

theorem channelAddr_eq (V src stride t j : Nat) (h : t * stride + 4 * j < 2 ^ 64) :
    channelAddr V src stride t j = src + t * stride + 4 * j := by
  unfold channelAddr
  have h1 := Nat.mod_le j V
  rw [Nat.mod_eq_of_lt (by omega)]
  omega

theorem channelAddr_lane (V src stride t q l : Nat) (hl : l < V) :
    channelAddr V src stride t (q * V + l) = src + (t * stride + q * V * 4) % 2 ^ 64 + 4 * l := by
  unfold channelAddr
  have h1 : (q * V + l) % V = l := by
    rw [Nat.add_comm, Nat.add_mul_mod_self_right, Nat.mod_eq_of_lt hl]
  rw [h1, Nat.add_sub_cancel]

theorem toInt32_of_lt (x : Nat) (h : x < 2 ^ 31) : toInt32 x = (x : Int) := by
  unfold toInt32
  rw [Nat.mod_eq_of_lt (by omega), if_pos h]

theorem validLane_eq (i n l : Nat) (h1 : i + l < 2 ^ 31) (h2 : n < 2 ^ 31) :
    validLane i n l = decide (i + l < n) := by
  unfold validLane
  rw [toInt32_of_lt _ h1, toInt32_of_lt _ h2]
  exact decide_eq_decide.2 Int.ofNat_lt

/-- When `dPdv` is supplied with `dPdu`, and `ddPdvdv` and `ddPdudv` with `ddPdudu`, no
assertion of the body fails and no store goes through a null pointer: the body does the loads
and stores of `chunkBody`. -/
theorem interpolateBody_ok {F : Type} (ops : FloatOps F) (b : Build) (V : Nat) (u v : F)
    (src stride : Nat) (tri : Nat → Nat) (P dPdu dPdv ddPdudu ddPdvdv ddPdudv n : Nat)
    (h1 : dPdu ≠ 0 → dPdv ≠ 0) (h2 : ddPdudu ≠ 0 → ddPdvdv ≠ 0 ∧ ddPdudv ≠ 0)
    (i : Nat) (fm : FMem F) :
    interpolateBody ops b V u v src stride tri P dPdu dPdv ddPdudu ddPdvdv ddPdudv n i fm
      = .ok (chunkBody ops V u v src stride tri P dPdu dPdv ddPdudu ddPdvdv ddPdudv n i fm) := by
  unfold interpolateBody chunkBody
  by_cases hu : dPdu = 0
  · by_cases hd : ddPdudu = 0
    · simp [hu, hd, bind, Except.bind, pure, Except.pure]
    · have h3 := h2 hd
      simp [hu, hd, h3.1, h3.2, assertStoreu, bind, Except.bind, pure, Except.pure]
  · have h4 := h1 hu
    by_cases hd : ddPdudu = 0
    · simp [hu, hd, h4, assertStoreu, bind, Except.bind, pure, Except.pure]
    · have h3 := h2 hd
      simp [hu, hd, h4, h3.1, h3.2, assertStoreu, bind, Except.bind, pure, Except.pure]

theorem interpolateLoop_eq_run {F : Type} (body : Nat → FMem F → Except Stop (FMem F))
    (g : Nat → FMem F → FMem F) (hbg : ∀ i fm, body i fm = .ok (g i fm)) (n V : Nat) :
    ∀ (k i : Nat) (fm : FMem F) (fuel : Nat), k < fuel → (∀ q, q < k → i + q * V < n) →
      n ≤ i + k * V → i + k * V < 2 ^ 32 →
      interpolateLoop body n V fuel i fm = some (.ok (runChunks g V k i fm)) := by
  intro k
  induction k with
  | zero =>
    intro i fm fuel hf _ hn _
    obtain ⟨f, rfl⟩ : ∃ f, fuel = f + 1 := ⟨fuel - 1, by omega⟩
    unfold interpolateLoop
    rw [if_neg (by omega)]
    rfl
  | succ k ih =>
    intro i fm fuel hf hlt hn hw
    obtain ⟨f, rfl⟩ : ∃ f, fuel = f + 1 := ⟨fuel - 1, by omega⟩
    have h0 := hlt 0 (by omega)
    have hk : (k + 1) * V = k * V + V := Nat.succ_mul k V
    unfold interpolateLoop
    rw [if_pos (by omega), hbg, Nat.mod_eq_of_lt (by omega)]
    dsimp only
    rw [ih (i + V) (g i fm) f (by omega) ?_ (by omega) (by omega)]
    · rfl
    · intro q hq
      have := hlt (q + 1) (by omega)
      have hq1 : (q + 1) * V = q * V + V := Nat.succ_mul q V
      omega

theorem runChunks_inv {F : Type} (body : Nat → FMem F → FMem F) (V : Nat)
    (Inv : Nat → FMem F → Prop) (K : Nat)
    (hstep : ∀ q fm, q < K → Inv q fm → Inv (q + 1) (body (q * V) fm)) :
    ∀ (k q : Nat) (fm : FMem F), q + k = K → Inv q fm →
      Inv K (runChunks body V k (q * V) fm) := by
  intro k
  induction k with
  | zero =>
    intro q fm hq h
    have : q = K := by omega
    subst this
    exact h
  | succ k ih =>
    intro q fm hq h
    unfold runChunks
    have hq1 : q * V + V = (q + 1) * V := (Nat.succ_mul q V).symm
    rw [hq1]
    exact ih (q + 1) _ (by omega) (hstep q fm (by omega) h)

theorem numChunks_spec (n V : Nat) (hV : 0 < V) :
    (∀ q, q < numChunks n V → q * V < n) ∧ n ≤ numChunks n V * V := by
  unfold numChunks
  have hdm := Nat.div_add_mod (n + V - 1) V
  have hr := Nat.mod_lt (n + V - 1) hV
  have hc : V * ((n + V - 1) / V) = (n + V - 1) / V * V := Nat.mul_comm _ _
  constructor
  · intro q hq
    have h1 : (q + 1) * V ≤ (n + V - 1) / V * V := Nat.mul_le_mul_right V hq
    have h2 : (q + 1) * V = q * V + V := Nat.succ_mul q V
    omega
  · omega

/-- When the count is below 2^31 and the chunk width divides 2^31, or the count and the
chunk width together do not exceed 2^31, no chunk reaches past 2^31. -/
theorem numChunks_le (n V : Nat) (hV : 0 < V) (hdiv : V ∣ 2 ^ 31 ∨ n + V ≤ 2 ^ 31) (hn : n < 2 ^ 31) :
    numChunks n V * V ≤ 2 ^ 31 := by
  rcases hdiv with ⟨d, hd⟩ | hsmall
  · have hK : numChunks n V ≤ d := by
      unfold numChunks
      apply Nat.le_of_lt_succ
      rw [Nat.div_lt_iff_lt_mul hV]
      show n + V - 1 < (d + 1) * V
      have : (d + 1) * V = V * d + V := by rw [Nat.succ_mul, Nat.mul_comm]
      omega
    calc numChunks n V * V ≤ d * V := Nat.mul_le_mul_right V hK
      _ = 2 ^ 31 := by rw [hd, Nat.mul_comm]
  · unfold numChunks
    have hdm := Nat.div_add_mod (n + V - 1) V
    have hc : V * ((n + V - 1) / V) = (n + V - 1) / V * V := Nat.mul_comm _ _
    omega

theorem mem_rowLoads (V src stride : Nat) (tri : Nat → Nat) (n i k a : Nat) :
    a ∈ rowLoads V src stride tri n i k ↔
      ∃ l, l < V ∧ validLane i n l = true ∧
        a = src + (tri k * stride + i * 4) % 2 ^ 64 + 4 * l := by
  unfold rowLoads
  simp only [List.mem_map, List.mem_filter, List.mem_range]
  constructor
  · rintro ⟨l, ⟨hl, hv⟩, rfl⟩
    exact ⟨l, hl, hv, rfl⟩
  · rintro ⟨l, hl, hv, rfl⟩
    exact ⟨l, ⟨hl, hv⟩, rfl⟩

theorem LoopLogInv_step {F : Type} (ops : FloatOps F) (V : Nat) (u v : F) (src stride : Nat)
    (tri : Nat → Nat) (P dPdu dPdv ddPdudu ddPdvdv ddPdudv n : Nat) (fm0 : FMem F)
    (hn : n < 2 ^ 31) (q : Nat) (fm : FMem F) (hq : q * V + V ≤ 2 ^ 31)
    (h : LoopLogInv V src stride tri n
      (outputFormulas ops u v P dPdu dPdv ddPdudu ddPdvdv ddPdudv) fm0 q fm) :
    LoopLogInv V src stride tri n
      (outputFormulas ops u v P dPdu dPdv ddPdudu ddPdvdv ddPdudv) fm0 (q + 1)
      (chunkBody ops V u v src stride tri P dPdu dPdv ddPdudu ddPdvdv ddPdudv n
        (q * V) fm) := by
  obtain ⟨hS, hL, hF⟩ := h
  have hq1 : (q + 1) * V = q * V + V := Nat.succ_mul q V
  have hval : ∀ l, l < V → (validLane (q * V) n l = true ↔ q * V + l < n) := by
    intro l hl
    rw [validLane_eq _ _ _ (by omega) hn, decide_eq_true_eq]
  rw [chunkBody_eq]
  refine ⟨?_, ?_, ?_⟩
  · intro a
    rw [storeAll_mem_stores]
    dsimp only
    rw [hS a, hq1]
    constructor
    · rintro ((h1 | ⟨e, he, j, hj, hjn, rfl⟩) | ⟨e, he, l, hl, hv, rfl⟩)
      · exact Or.inl h1
      · exact Or.inr ⟨e, he, j, by omega, hjn, rfl⟩
      · exact Or.inr ⟨e, he, q * V + l, by omega, (hval l hl).1 hv, by omega⟩
    · rintro (h1 | ⟨e, he, j, hj, hjn, rfl⟩)
      · exact Or.inl (Or.inl h1)
      · by_cases hlt : j < q * V
        · exact Or.inl (Or.inr ⟨e, he, j, hlt, hjn, rfl⟩)
        · refine Or.inr ⟨e, he, j - q * V, by omega, ?_, by omega⟩
          exact (hval _ (by omega)).2 (by omega)
  · intro a
    rw [storeAll_loads]
    dsimp only
    simp only [List.mem_append, mem_rowLoads]
    rw [hL a, hq1]
    constructor
    · rintro (((h1 | h1) | h1) | h1)
      · rcases h1 with h1 | ⟨k, hk, j, hj, hjn, rfl⟩
        · exact Or.inl h1
        · exact Or.inr ⟨k, hk, j, by omega, hjn, rfl⟩
      · obtain ⟨l, hl, hv, rfl⟩ := h1
        exact Or.inr ⟨0, by omega, q * V + l, by omega, (hval l hl).1 hv,
          (channelAddr_lane V src stride _ q l hl).symm⟩
      · obtain ⟨l, hl, hv, rfl⟩ := h1
        exact Or.inr ⟨1, by omega, q * V + l, by omega, (hval l hl).1 hv,
          (channelAddr_lane V src stride _ q l hl).symm⟩
      · obtain ⟨l, hl, hv, rfl⟩ := h1
        exact Or.inr ⟨2, by omega, q * V + l, by omega, (hval l hl).1 hv,
          (channelAddr_lane V src stride _ q l hl).symm⟩
    · rintro (h1 | ⟨k, hk, j, hj, hjn, rfl⟩)
      · exact Or.inl (Or.inl (Or.inl (Or.inl h1)))
      · by_cases hlt : j < q * V
        · exact Or.inl (Or.inl (Or.inl (Or.inr ⟨k, hk, j, hlt, hjn, rfl⟩)))
        · have hj2 : j = q * V + (j - q * V) := by omega
          have hlane : j - q * V < V := by omega
          have hv := (hval _ hlane).2 (by omega)
          have hca : channelAddr V src stride (tri k) j
              = src + (tri k * stride + q * V * 4) % 2 ^ 64 + 4 * (j - q * V) := by
            conv_lhs => rw [hj2]
            exact channelAddr_lane V src stride _ q _ hlane
          interval_cases k
          · exact Or.inl (Or.inl (Or.inr ⟨_, hlane, hv, hca⟩))
          · exact Or.inl (Or.inr ⟨_, hlane, hv, hca⟩)
          · exact Or.inr ⟨_, hlane, hv, hca⟩
  · intro a ha
    rw [storeAll_val_frame]
    · exact hF a ha
    · intro e he l hl hv
      have := ha e he (q * V + l) ((hval l hl).1 hv)
      omega

theorem LoopValInv_step {F : Type} (ops : FloatOps F) (V : Nat) (u v : F) (src stride : Nat)
    (tri : Nat → Nat) (P dPdu dPdv ddPdudu ddPdvdv ddPdudv n : Nat) (fm0 : FMem F)
    (hn : n < 2 ^ 31)
    (hpw : NoOverlap n (outputFormulas ops u v P dPdu dPdv ddPdudu ddPdvdv ddPdudv))
    (hsrc : ∀ e ∈ outputFormulas ops u v P dPdu dPdv ddPdudu ddPdvdv ddPdudv,
      ∀ j1, j1 < n → ∀ k, k < 3 → ∀ j2, j2 < n →
        e.1 + 4 * j1 + 4 ≤ channelAddr V src stride (tri k) j2 ∨
          channelAddr V src stride (tri k) j2 + 4 ≤ e.1 + 4 * j1)
    (q : Nat) (fm : FMem F) (hq : q * V + V ≤ 2 ^ 31)
    (h : LoopValInv V src stride tri n
      (outputFormulas ops u v P dPdu dPdv ddPdudu ddPdvdv ddPdudv) fm0 q fm) :
    LoopValInv V src stride tri n
      (outputFormulas ops u v P dPdu dPdv ddPdudu ddPdvdv ddPdudv) fm0 (q + 1)
      (chunkBody ops V u v src stride tri P dPdu dPdv ddPdudu ddPdvdv ddPdudv n
        (q * V) fm) := by
  obtain ⟨hF, hVal⟩ := h
  have hq1 : (q + 1) * V = q * V + V := Nat.succ_mul q V
  have hval : ∀ l, l < V → (validLane (q * V) n l = true ↔ q * V + l < n) := by
    intro l hl
    rw [validLane_eq _ _ _ (by omega) hn, decide_eq_true_eq]
  have hsymm : Symmetric (fun (e e' : Nat × (F → F → F → F)) =>
      ∀ j1 j2, j1 < n → j2 < n →
        e.1 + 4 * j1 + 4 ≤ e'.1 + 4 * j2 ∨ e'.1 + 4 * j2 + 4 ≤ e.1 + 4 * j1) := by
    intro e e' hee j1 j2 h1 h2
    exact (hee j2 j1 h2 h1).symm
  rw [chunkBody_eq]
  refine ⟨?_, ?_⟩
  · intro a ha
    rw [storeAll_val_frame]
    · exact hF a ha
    · intro e he l hl hv
      have := ha e he (q * V + l) ((hval l hl).1 hv)
      omega
  · intro e he j hj hjn
    by_cases hlt : j < q * V
    · rw [storeAll_val_frame]
      · exact hVal e he j hlt hjn
      · intro e' he' l hl hv
        have hl2 := (hval l hl).1 hv
        by_cases hee : e = e'
        · subst hee
          omega
        · have := List.Pairwise.forall hsymm hpw he he' hee j (q * V + l) hjn hl2
          omega
    · have hlane : j - q * V < V := by omega
      have hv := (hval _ hlane).2 (by omega)
      have haddr : e.1 + 4 * j = e.1 + 4 * (q * V) + 4 * (j - q * V) := by omega
      have hj2 : j = q * V + (j - q * V) := by omega
      have hrow : ∀ k, k < 3 →
          rowLanes ops V src stride tri n (q * V) fm k (j - q * V)
            = fm0.val (channelAddr V src stride (tri k) j) := by
        intro k hk
        have hca : channelAddr V src stride (tri k) j
            = src + (tri k * stride + q * V * 4) % 2 ^ 64 + 4 * (j - q * V) := by
          conv_lhs => rw [hj2]
          exact channelAddr_lane V src stride _ q _ hlane
        unfold rowLanes
        rw [if_pos ⟨hlane, hv⟩, ← hca]
        apply hF
        intro e' he' j1 hj1
        exact (hsrc e' he' j1 hj1 k hk j hjn).symm
      rw [haddr, storeAll_val_hit _ _ _ _ _ _ _ _ ?_ e he _ hlane hv,
        hrow 0 (by omega), hrow 1 (by omega), hrow 2 (by omega)]
      refine List.Pairwise.imp ?_ hpw
      intro e1 e2 hR l l' hl hl' hv1 hv2
      have := hR (q * V + l) (q * V + l') ((hval l hl).1 hv1) ((hval l' hl').1 hv2)
      omega

theorem numChunks_le_self (n V : Nat) (hV : 0 < V) : numChunks n V ≤ n := by
  unfold numChunks
  apply Nat.le_of_lt_succ
  rw [Nat.div_lt_iff_lt_mul hV]
  show n + V - 1 < (n + 1) * V
  have h1 : (n + 1) * V = n * V + V := Nat.succ_mul n V
  have h2 : n * 1 ≤ n * V := Nat.mul_le_mul_left n hV
  omega

/-- For a count below 2^31 whose chunks do not reach past 2^31 the loop returns, with enough
fuel, what its chunks produce one after the other, when no chunk ends the call. -/
theorem interpolateLoop_returns {F : Type} (body : Nat → FMem F → Except Stop (FMem F))
    (g : Nat → FMem F → FMem F) (hbg : ∀ i fm, body i fm = .ok (g i fm)) (n V fuel : Nat)
    (fm : FMem F) (hV : 0 < V) (hdiv : V ∣ 2 ^ 31 ∨ n + V ≤ 2 ^ 31) (hn : n < 2 ^ 31) (hfuel : n < fuel) :
    interpolateLoop body n V fuel 0 fm = some (.ok (runChunks g V (numChunks n V) 0 fm)) := by
  have h1 := numChunks_spec n V hV
  have h2 := numChunks_le n V hV hdiv hn
  have h3 := numChunks_le_self n V hV
  apply interpolateLoop_eq_run body g hbg
  · omega
  · intro q hq
    have := h1.1 q hq
    omega
  · omega
  · omega

theorem chunk_in_range (n V q : Nat) (hV : 0 < V) (hdiv : V ∣ 2 ^ 31 ∨ n + V ≤ 2 ^ 31) (hn : n < 2 ^ 31)
    (hq : q < numChunks n V) : q * V + V ≤ 2 ^ 31 := by
  have h2 := numChunks_le n V hV hdiv hn
  have h3 : (q + 1) * V ≤ numChunks n V * V := Nat.mul_le_mul_right V hq
  have h4 : (q + 1) * V = q * V + V := Nat.succ_mul q V
  omega

/-- The logs and the frame of the loop of `interpolate`. -/
theorem interpolateLoop_log {F : Type} (ops : FloatOps F) (V : Nat) (u v : F)
    (src stride : Nat) (tri : Nat → Nat) (P dPdu dPdv ddPdudu ddPdvdv ddPdudv n fuel : Nat)
    (fm : FMem F) (b : Build) (hV : 0 < V) (hdiv : V ∣ 2 ^ 31 ∨ n + V ≤ 2 ^ 31) (hn : n < 2 ^ 31)
    (hfuel : n < fuel)
    (hnull1 : dPdu ≠ 0 → dPdv ≠ 0) (hnull2 : ddPdudu ≠ 0 → ddPdvdv ≠ 0 ∧ ddPdudv ≠ 0) :
    ∃ fm', interpolateLoop
        (interpolateBody ops b V u v src stride tri P dPdu dPdv ddPdudu ddPdvdv ddPdudv n)
        n V fuel 0 fm = some (.ok fm') ∧
      (∀ a, a ∈ fm'.stores ↔ a ∈ fm.stores ∨
        ∃ e ∈ outputFormulas ops u v P dPdu dPdv ddPdudu ddPdvdv ddPdudv,
          ∃ j, j < n ∧ a = e.1 + 4 * j) ∧
      (∀ a, a ∈ fm'.loads ↔ a ∈ fm.loads ∨
        ∃ k, k < 3 ∧ ∃ j, j < n ∧ a = channelAddr V src stride (tri k) j) ∧
      (∀ a, (∀ e ∈ outputFormulas ops u v P dPdu dPdv ddPdudu ddPdvdv ddPdudv,
          ∀ j, j < n → a + 4 ≤ e.1 + 4 * j ∨ e.1 + 4 * j + 4 ≤ a) → fm'.val a = fm.val a) := by
  refine ⟨_, interpolateLoop_returns _ _
    (interpolateBody_ok ops b V u v src stride tri P dPdu dPdv ddPdudu ddPdvdv ddPdudv n
      hnull1 hnull2) n V fuel fm hV hdiv hn hfuel, ?_⟩
  have hK := (numChunks_spec n V hV).2
  have hinv := runChunks_inv
    (chunkBody ops V u v src stride tri P dPdu dPdv ddPdudu ddPdvdv ddPdudv n) V
    (LoopLogInv V src stride tri n
      (outputFormulas ops u v P dPdu dPdv ddPdudu ddPdvdv ddPdudv) fm)
    (numChunks n V)
    (fun q fm1 hq h => LoopLogInv_step ops V u v src stride tri P dPdu dPdv ddPdudu ddPdvdv
      ddPdudv n fm hn q fm1 (chunk_in_range n V q hV hdiv hn hq) h)
    (numChunks n V) 0 fm (by omega) ?_
  · rw [Nat.zero_mul] at hinv
    obtain ⟨hS, hL, hF⟩ := hinv
    refine ⟨?_, ?_, hF⟩
    · intro a
      rw [hS a]
      constructor
      · rintro (h | ⟨e, he, j, _, hj, rfl⟩)
        · exact Or.inl h
        · exact Or.inr ⟨e, he, j, hj, rfl⟩
      · rintro (h | ⟨e, he, j, hj, rfl⟩)
        · exact Or.inl h
        · exact Or.inr ⟨e, he, j, by omega, hj, rfl⟩
    · intro a
      rw [hL a]
      constructor
      · rintro (h | ⟨k, hk, j, _, hj, rfl⟩)
        · exact Or.inl h
        · exact Or.inr ⟨k, hk, j, hj, rfl⟩
      · rintro (h | ⟨k, hk, j, hj, rfl⟩)
        · exact Or.inl h
        · exact Or.inr ⟨k, hk, j, by omega, hj, rfl⟩
  · refine ⟨?_, ?_, ?_⟩
    · intro a
      constructor
      · exact Or.inl
      · rintro (h | ⟨_, _, j, hj, _⟩)
        · exact h
        · omega
    · intro a
      constructor
      · exact Or.inl
      · rintro (h | ⟨_, _, j, hj, _⟩)
        · exact h
        · omega
    · intro a _
      rfl

/-- The values that the loop of `interpolate` leaves in outputs that overlap neither one
another nor the rows read. -/
theorem interpolateLoop_val {F : Type} (ops : FloatOps F) (V : Nat) (u v : F)
    (src stride : Nat) (tri : Nat → Nat) (P dPdu dPdv ddPdudu ddPdvdv ddPdudv n fuel : Nat)
    (fm : FMem F) (hV : 0 < V) (hdiv : V ∣ 2 ^ 31 ∨ n + V ≤ 2 ^ 31) (hn : n < 2 ^ 31) (hfuel : n < fuel)
    (hpw : NoOverlap n (outputFormulas ops u v P dPdu dPdv ddPdudu ddPdvdv ddPdudv))
    (hsrc : ∀ e ∈ outputFormulas ops u v P dPdu dPdv ddPdudu ddPdvdv ddPdudv,
      ∀ j1, j1 < n → ∀ k, k < 3 → ∀ j2, j2 < n →
        e.1 + 4 * j1 + 4 ≤ channelAddr V src stride (tri k) j2 ∨
          channelAddr V src stride (tri k) j2 + 4 ≤ e.1 + 4 * j1)
    (b : Build)
    (hnull1 : dPdu ≠ 0 → dPdv ≠ 0) (hnull2 : ddPdudu ≠ 0 → ddPdvdv ≠ 0 ∧ ddPdudv ≠ 0) :
    ∃ fm', interpolateLoop
        (interpolateBody ops b V u v src stride tri P dPdu dPdv ddPdudu ddPdvdv ddPdudv n)
        n V fuel 0 fm = some (.ok fm') ∧
      ∀ e ∈ outputFormulas ops u v P dPdu dPdv ddPdudu ddPdvdv ddPdudv, ∀ j, j < n →
        fm'.val (e.1 + 4 * j) = e.2 (fm.val (channelAddr V src stride (tri 0) j))
          (fm.val (channelAddr V src stride (tri 1) j))
          (fm.val (channelAddr V src stride (tri 2) j)) := by
  refine ⟨_, interpolateLoop_returns _ _
    (interpolateBody_ok ops b V u v src stride tri P dPdu dPdv ddPdudu ddPdvdv ddPdudv n
      hnull1 hnull2) n V fuel fm hV hdiv hn hfuel, ?_⟩
  have hK := (numChunks_spec n V hV).2
  have hinv := runChunks_inv
    (chunkBody ops V u v src stride tri P dPdu dPdv ddPdudu ddPdvdv ddPdudv n) V
    (LoopValInv V src stride tri n
      (outputFormulas ops u v P dPdu dPdv ddPdudu ddPdvdv ddPdudv) fm)
    (numChunks n V)
    (fun q fm1 hq h => LoopValInv_step ops V u v src stride tri P dPdu dPdv ddPdudu ddPdvdv
      ddPdudv n fm hn hpw hsrc q fm1 (chunk_in_range n V q hV hdiv hn hq) h)
    (numChunks n V) 0 fm (by omega) ?_
  · rw [Nat.zero_mul] at hinv
    intro e he j hj
    exact hinv.2 e he j (by omega) hj
  · refine ⟨fun a _ => rfl, ?_⟩
    intro e _ j hj
    omega

theorem storeu_noop {F : Type} (V : Nat) (valid : Nat → Bool) (ptr : Nat) (v : Nat → F)
    (fm : FMem F) (h : ∀ l, l < V → valid l = false) : vfloatx.storeu V valid ptr v fm = fm := by
  induction V with
  | zero => rfl
  | succ V ih =>
    rw [storeu_succ, if_neg (by rw [h V (by omega)]; simp)]
    exact ih (fun l hl => h l (by omega))

theorem storeAll_noop {F : Type} (V : Nat) (valid : Nat → Bool) (i : Nat) (p0 p1 p2 : Nat → F)
    (L : List (Nat × (F → F → F → F))) (fm : FMem F) (h : ∀ l, l < V → valid l = false) :
    storeAll V valid i p0 p1 p2 L fm = fm := by
  induction L generalizing fm with
  | nil => rfl
  | cons e L ih => rw [storeAll_cons, storeu_noop _ _ _ _ _ h, ih]

theorem rowLoads_noop (V src stride : Nat) (tri : Nat → Nat) (n i k : Nat)
    (h : ∀ l, l < V → validLane i n l = false) : rowLoads V src stride tri n i k = [] := by
  unfold rowLoads
  rw [List.map_eq_nil_iff, List.filter_eq_nil_iff]
  intro l hl
  rw [h l (List.mem_range.1 hl)]
  simp

/-- A chunk none of whose lanes is valid loads nothing and stores nothing. -/
theorem chunkBody_noop {F : Type} (ops : FloatOps F) (V : Nat) (u v : F)
    (src stride : Nat) (tri : Nat → Nat) (P dPdu dPdv ddPdudu ddPdvdv ddPdudv n : Nat) (i : Nat)
    (fm : FMem F) (h : ∀ l, l < V → validLane i n l = false) :
    chunkBody ops V u v src stride tri P dPdu dPdv ddPdudu ddPdvdv ddPdudv n i fm
      = fm := by
  rw [chunkBody_eq, storeAll_noop _ _ _ _ _ _ _ _ h, rowLoads_noop _ _ _ _ _ _ _ h,
    rowLoads_noop _ _ _ _ _ _ _ h, rowLoads_noop _ _ _ _ _ _ _ h]
  simp

theorem toInt32_neg (n : Nat) (h1 : 2 ^ 31 ≤ n) (h2 : n < 2 ^ 32) : toInt32 n < 0 := by
  unfold toInt32
  rw [Nat.mod_eq_of_lt h2, if_neg (by omega)]
  omega

/-- For a count of 2^31 and more the comparison of the lane index with `int(numFloats)` fails
at every lane index below 2^31. -/
theorem validLane_huge (i n l : Nat) (h1 : 2 ^ 31 ≤ n) (h2 : n < 2 ^ 32)
    (h : i + l < 2 ^ 31) : validLane i n l = false := by
  unfold validLane
  rw [toInt32_of_lt _ h, decide_eq_false_iff_not]
  have := toInt32_neg n h1 h2
  omega

/-- With a count of exactly 2^31 the loop returns after 2^31 / V chunks and has loaded and
stored nothing. -/
theorem interpolateLoop_huge {F : Type} (ops : FloatOps F) (V : Nat) (u v : F)
    (src stride : Nat) (tri : Nat → Nat) (P dPdu dPdv ddPdudu ddPdvdv ddPdudv d fuel : Nat)
    (fm : FMem F) (b : Build) (hd : d * V = 2 ^ 31) (hfuel : d < fuel)
    (hnull1 : dPdu ≠ 0 → dPdv ≠ 0) (hnull2 : ddPdudu ≠ 0 → ddPdvdv ≠ 0 ∧ ddPdudv ≠ 0) :
    interpolateLoop
      (interpolateBody ops b V u v src stride tri P dPdu dPdv ddPdudu ddPdvdv ddPdudv (2 ^ 31))
      (2 ^ 31) V fuel 0 fm = some (.ok fm) := by
  have hV : 0 < V := by
    rcases Nat.eq_zero_or_pos V with h | h
    · subst h; simp at hd
    · exact h
  have hq : ∀ q, q < d → q * V + V ≤ 2 ^ 31 := by
    intro q hq
    have h3 : (q + 1) * V ≤ d * V := Nat.mul_le_mul_right V hq
    have h4 : (q + 1) * V = q * V + V := Nat.succ_mul q V
    omega
  rw [interpolateLoop_eq_run _ _
    (interpolateBody_ok ops b V u v src stride tri P dPdu dPdv ddPdudu ddPdvdv ddPdudv (2 ^ 31)
      hnull1 hnull2) _ _ d 0 fm fuel hfuel]
  · have hinv := runChunks_inv
      (chunkBody ops V u v src stride tri P dPdu dPdv ddPdudu ddPdvdv ddPdudv (2 ^ 31)) V
      (fun _ fm1 => fm1 = fm) d
      (fun q fm1 hq1 h => by
        subst h
        apply chunkBody_noop
        intro l hl
        have := hq q hq1
        exact validLane_huge _ _ _ (by omega) (by omega) (by omega))
      d 0 fm (by omega) rfl
    rw [Nat.zero_mul] at hinv
    rw [hinv]
  · intro q hq1
    have := hq q hq1
    omega
  · omega
  · omega

/-! ### interpolate: the call -/

theorem land_FFFF_add (b t : Nat) (hb : b % 2 ^ 16 = 0) (ht : t < 2 ^ 16) :
    (b + t) &&& 0xFFFF = t := by
  have h : (b + t) &&& 0xFFFF = (b + t) % 2 ^ 16 := Nat.and_pow_two_sub_one_eq_mod (b + t) 16
  have h2 : (b + t) % 2 ^ 16 = t := by omega
  rw [h, h2]

/-- For the kind of time step `t`, when the low 16 bits of `RTC_VERTEX_BUFFER0`
are clear and the kind lies below the user kinds, `interpolate` reads the
vertex buffer of time step `t`. -/
theorem interpolateSource_vertex (c : RTCConsts) (m : TriangleMesh) (t : Nat)
    (hb : c.RTC_VERTEX_BUFFER0 % 2 ^ 16 = 0) (ht : t < 2 ^ 16)
    (hlt : c.RTC_VERTEX_BUFFER0 + t < c.RTC_USER_VERTEX_BUFFER0) :
    m.interpolateSource c (c.RTC_VERTEX_BUFFER0 + t) =
      ((m.vertices.getD t APIBuffer.empty).getPtr,
        (m.vertices.getD t APIBuffer.empty).getStride) := by
  unfold TriangleMesh.interpolateSource
  rw [if_neg (by omega), land_FFFF_add _ _ hb ht]

/-- For the kind of user slot `s`, when the low 16 bits of
`RTC_USER_VERTEX_BUFFER0` are clear, `interpolate` reads the user buffer of
slot `s`. -/
theorem interpolateSource_user (c : RTCConsts) (m : TriangleMesh) (s : Nat)
    (hb : c.RTC_USER_VERTEX_BUFFER0 % 2 ^ 16 = 0) (hs : s < 2 ^ 16) :
    m.interpolateSource c (c.RTC_USER_VERTEX_BUFFER0 + s) =
      ((m.userbuffers.getD s APIBuffer.empty).getPtr,
        (m.userbuffers.getD s APIBuffer.empty).getStride) := by
  unfold TriangleMesh.interpolateSource
  rw [if_pos (by omega), land_FFFF_add _ _ hb hs]

theorem outputFormulas_map_fst {F : Type} (ops : FloatOps F) (u v : F)
    (P dPdu dPdv ddPdudu ddPdvdv ddPdudv : Nat) :
    (outputFormulas ops u v P dPdu dPdv ddPdudu ddPdvdv ddPdudv).map Prod.fst
      = outputPointers P dPdu dPdv ddPdudu ddPdvdv ddPdudv := by
  unfold outputFormulas outputPointers
  by_cases h1 : P ≠ 0 <;> by_cases h2 : dPdu ≠ 0 <;> by_cases h3 : ddPdudu ≠ 0 <;>
    simp [h1, h2, h3]

theorem mem_outputPointers_iff {F : Type} (ops : FloatOps F) (u v : F)
    (P dPdu dPdv ddPdudu ddPdvdv ddPdudv X : Nat) :
    X ∈ outputPointers P dPdu dPdv ddPdudu ddPdvdv ddPdudv ↔
      ∃ e ∈ outputFormulas ops u v P dPdu dPdv ddPdudu ddPdvdv ddPdudv, e.1 = X := by
  rw [← outputFormulas_map_fst ops u v, List.mem_map]

/-- When the checks before the loop pass, the call is its loop. -/
theorem interpolate_eq_loop {F : Type} (c : RTCConsts) (ops : FloatOps F) (b : Build) (V : Nat)
    (en : Bool) (m : TriangleMesh) (words : Nat → Nat) (primID : Nat) (u v : F)
    (buffer P dPdu dPdv ddPdudu ddPdvdv ddPdudv n fuel : Nat) (fm : FMem F)
    (h1 : b.DEBUG = true → en = true)
    (h2 : b.NDEBUG = false → isVertexBufferType c m.numTimeSteps buffer = true ∨
      (buffer ≥ c.RTC_USER_VERTEX_BUFFER0 ∧ buffer ≤ c.RTC_USER_VERTEX_BUFFER1)) :
    m.interpolate c ops b V en words primID u v buffer P dPdu dPdv ddPdudu ddPdvdv ddPdudv
        n fuel fm =
      interpolateLoop
        (interpolateBody ops b V u v (m.interpolateSource c buffer).1
          (m.interpolateSource c buffer).2 (m.triangleV words primID)
          P dPdu dPdv ddPdudu ddPdvdv ddPdudv n)
        n V fuel 0 fm := by
  unfold TriangleMesh.interpolate
  rw [if_neg, if_neg]
  · rintro ⟨hb, hno⟩
    exact hno (h2 hb)
  · rintro ⟨hb, hen⟩
    rw [h1 hb] at hen
    cases hen

/-- In a build with `DEBUG` the call throws InvalidOperation when interpolation is not
enabled for the scene. -/
theorem interpolate_not_enabled {F : Type} (c : RTCConsts) (ops : FloatOps F) (b : Build)
    (V : Nat) (m : TriangleMesh) (words : Nat → Nat) (primID : Nat) (u v : F)
    (buffer P dPdu dPdv ddPdudu ddPdvdv ddPdudv n fuel : Nat) (fm : FMem F)
    (hb : b.DEBUG = true) :
    m.interpolate c ops b V false words primID u v buffer P dPdu dPdv ddPdudu ddPdvdv ddPdudv
        n fuel fm = some (.error (.thrown .RTC_INVALID_OPERATION)) := by
  unfold TriangleMesh.interpolate
  rw [if_pos ⟨hb, rfl⟩]

/-- Lane 0 of the first chunk is valid for a count between 1 and 2^31 - 1. -/
theorem any_valid_first_chunk (V n : Nat) (hV : 0 < V) (hn0 : 0 < n) (hn : n < 2 ^ 31) :
    (List.range V).any (validLane 0 n) = true := by
  rw [List.any_eq_true]
  refine ⟨0, List.mem_range.2 hV, ?_⟩
  rw [validLane_eq 0 n 0 (by norm_num) hn, decide_eq_true_eq]
  exact hn0

/-- With `dPdu` supplied and `dPdv` null the first chunk ends the call: the assertion
`assert(dPdv)` fails, or, the assertions being compiled out, the store goes through the null
pointer. -/
theorem interpolate_null_dPdv {F : Type} (c : RTCConsts) (ops : FloatOps F) (b : Build) (V : Nat)
    (en : Bool) (m : TriangleMesh) (words : Nat → Nat) (primID : Nat) (u v : F)
    (buffer P dPdu ddPdudu ddPdvdv ddPdudv n fuel : Nat) (fm : FMem F)
    (h1 : b.DEBUG = true → en = true)
    (h2 : b.NDEBUG = false → isVertexBufferType c m.numTimeSteps buffer = true ∨
      (buffer ≥ c.RTC_USER_VERTEX_BUFFER0 ∧ buffer ≤ c.RTC_USER_VERTEX_BUFFER1))
    (hV : 0 < V) (hn0 : 0 < n) (hn : n < 2 ^ 31) (hfuel : 0 < fuel) (hdPdu : dPdu ≠ 0) :
    m.interpolate c ops b V en words primID u v buffer P dPdu 0 ddPdudu ddPdvdv ddPdudv
        n fuel fm =
      some (.error (if b.NDEBUG = false then Stop.assertFailed else Stop.nullStore)) := by
  rw [interpolate_eq_loop c ops b V en m words primID u v buffer P dPdu 0 ddPdudu ddPdvdv
    ddPdudv n fuel fm h1 h2]
  obtain ⟨f, rfl⟩ : ∃ f, fuel = f + 1 := ⟨fuel - 1, by omega⟩
  have hany := any_valid_first_chunk V n hV hn0 hn
  unfold interpolateLoop
  rw [if_pos hn0]
  unfold interpolateBody
  by_cases hb : b.NDEBUG = false
  · simp [hdPdu, hb, assertStoreu, bind, Except.bind]
  · simp [hdPdu, hb, hany, assertStoreu, bind, Except.bind]

/-- C4: with a count of 2^31 (an unsigned 32-bit value), a chunk width of 4 and
`P` supplied, the call returns in every build, after 2^29 chunks, and has
stored nothing: the store log is empty, so no entry of `P` below the count is
written, where the unsigned loop visits every chunk below the count. -/
theorem interpolate_huge_count_stores_nothing :
    (∀ b : Build, ∃ fm', meshTri.interpolate embreeConsts intOps b 4 true wordsTri 0 0 0
        0x02000000 4096 0 0 0 0 0 (2 ^ 31) (2 ^ 29 + 1) fmemEx = some (.ok fm') ∧
      fm'.stores = []) ∧ (4096 : Nat) ≠ 0 ∧ 0 < 2 ^ 31 := by
  refine ⟨fun b => ⟨fmemEx, ?_, rfl⟩, by decide, by norm_num⟩
  rw [interpolate_eq_loop _ _ _ _ _ _ _ _ _ _ _ _ _ _ _ _ _ _ _ _ (fun _ => rfl)
    (fun _ => Or.inl (by decide))]
  exact interpolateLoop_huge intOps 4 0 0 _ _ _ 4096 0 0 0 0 0 (2 ^ 29) (2 ^ 29 + 1)
    fmemEx b (by norm_num) (by omega) (fun h => absurd rfl h) (fun h => absurd rfl h)

/-- Below 2^31 the footprint of a call whose checks pass: for a count `n` below
2^31 and a chunk width `V` that divides 2^31 (4, 8 and 16 do) or has `n + V` at
most 2^31, whether or not it divides `n`, the call returns and, through each
output pointer that it stores through, has stored to exactly the indices
below `n`; every float that shares no byte with such an entry keeps its
value, in particular every entry at an index `n` or more of an output with
which the other outputs' first `n` entries share no byte; and the loads are
exactly the channels below `n` of the rows of the three vertices. -/
theorem interpolate_footprint {F : Type} (c : RTCConsts) (ops : FloatOps F) (b : Build)
    (V : Nat) (en : Bool)
    (m : TriangleMesh) (words : Nat → Nat) (primID : Nat) (u v : F)
    (buffer P dPdu dPdv ddPdudu ddPdvdv ddPdudv n fuel : Nat) (fm : FMem F)
    (hV : 0 < V) (hdiv : V ∣ 2 ^ 31 ∨ n + V ≤ 2 ^ 31) (hn : n < 2 ^ 31) (hfuel : n < fuel)
    (hchk : checksPass c b en m buffer dPdu dPdv ddPdudu ddPdvdv ddPdudv) :
    ∃ fm', m.interpolate c ops b V en words primID u v buffer P dPdu dPdv ddPdudu ddPdvdv
        ddPdudv n fuel fm = some (.ok fm') ∧
      (∀ a, a ∈ fm'.stores ↔ a ∈ fm.stores ∨
        ∃ X ∈ outputPointers P dPdu dPdv ddPdudu ddPdvdv ddPdudv,
          ∃ j, j < n ∧ a = X + 4 * j) ∧
      (∀ a, (∀ X ∈ outputPointers P dPdu dPdv ddPdudu ddPdvdv ddPdudv,
          ∀ j, j < n → a + 4 ≤ X + 4 * j ∨ X + 4 * j + 4 ≤ a) → fm'.val a = fm.val a) ∧
      (∀ X ∈ outputPointers P dPdu dPdv ddPdudu ddPdvdv ddPdudv, ∀ j', n ≤ j' →
        (∀ Y ∈ outputPointers P dPdu dPdv ddPdudu ddPdvdv ddPdudv, Y ≠ X →
          ∀ j, j < n → X + 4 * j' + 4 ≤ Y + 4 * j ∨ Y + 4 * j + 4 ≤ X + 4 * j') →
        fm'.val (X + 4 * j') = fm.val (X + 4 * j')) ∧
      (∀ a, a ∈ fm'.loads ↔ a ∈ fm.loads ∨
        ∃ k, k < 3 ∧ ∃ j, j < n ∧
          a = channelAddr V (m.interpolateSource c buffer).1 (m.interpolateSource c buffer).2
            (m.triangleV words primID k) j) := by
  obtain ⟨hc1, hc2, hc3, hc4⟩ := hchk
  obtain ⟨fm', hrun, hS, hL, hF⟩ := interpolateLoop_log ops V u v
    (m.interpolateSource c buffer).1 (m.interpolateSource c buffer).2
    (m.triangleV words primID) P dPdu dPdv ddPdudu ddPdvdv ddPdudv n fuel fm b hV hdiv hn hfuel
    hc3 hc4
  have hframe : ∀ a, (∀ X ∈ outputPointers P dPdu dPdv ddPdudu ddPdvdv ddPdudv,
      ∀ j, j < n → a + 4 ≤ X + 4 * j ∨ X + 4 * j + 4 ≤ a) → fm'.val a = fm.val a := by
    intro a ha
    apply hF
    intro e he j hj
    exact ha e.1 ((mem_outputPointers_iff ops u v _ _ _ _ _ _ _).2 ⟨e, he, rfl⟩) j hj
  refine ⟨fm', ?_, ?_, hframe, ?_, hL⟩
  · rw [interpolate_eq_loop c ops b V en m words primID u v buffer P dPdu dPdv ddPdudu ddPdvdv
      ddPdudv n fuel fm hc1 hc2]
    exact hrun
  · intro a
    rw [hS a]
    constructor
    · rintro (h | ⟨e, he, j, hj, rfl⟩)
      · exact Or.inl h
      · exact Or.inr ⟨e.1, (mem_outputPointers_iff ops u v _ _ _ _ _ _ _).2 ⟨e, he, rfl⟩,
          j, hj, rfl⟩
    · rintro (h | ⟨X, hX, j, hj, rfl⟩)
      · exact Or.inl h
      · obtain ⟨e, he, rfl⟩ := (mem_outputPointers_iff ops u v _ _ _ _ _ _ _).1 hX
        exact Or.inr ⟨e, he, j, hj, rfl⟩
  · intro X _ j' hj' hother
    apply hframe
    intro Y hY j hj
    by_cases hXY : Y = X
    · subst hXY
      omega
    · exact hother Y hY hXY j hj

/-- An instance of `interpolate_footprint`: five channels with a chunk width of 4,
through `P`, `dPdu` and `dPdv`, in a build with assertions. -/
theorem interpolate_footprint_witness :
    ∃ fm', meshTri.interpolate embreeConsts intOps ⟨true, false⟩ 4 true wordsTri 0 2 3
        0x02000000 4096 8192 12288 0 0 0 5 6 fmemEx = some (.ok fm') ∧
      (∀ a, a ∈ fm'.stores ↔ a ∈ fmemEx.stores ∨
        ∃ X ∈ outputPointers 4096 8192 12288 0 0 0, ∃ j, j < 5 ∧ a = X + 4 * j) ∧
      (∀ a, (∀ X ∈ outputPointers 4096 8192 12288 0 0 0,
          ∀ j, j < 5 → a + 4 ≤ X + 4 * j ∨ X + 4 * j + 4 ≤ a) → fm'.val a = fmemEx.val a) ∧
      (∀ X ∈ outputPointers 4096 8192 12288 0 0 0, ∀ j', 5 ≤ j' →
        (∀ Y ∈ outputPointers 4096 8192 12288 0 0 0, Y ≠ X →
          ∀ j, j < 5 → X + 4 * j' + 4 ≤ Y + 4 * j ∨ Y + 4 * j + 4 ≤ X + 4 * j') →
        fm'.val (X + 4 * j') = fmemEx.val (X + 4 * j')) ∧
      (∀ a, a ∈ fm'.loads ↔ a ∈ fmemEx.loads ∨
        ∃ k, k < 3 ∧ ∃ j, j < 5 ∧
          a = channelAddr 4 (meshTri.interpolateSource embreeConsts 0x02000000).1
            (meshTri.interpolateSource embreeConsts 0x02000000).2
            (meshTri.triangleV wordsTri 0 k) j) :=
  interpolate_footprint embreeConsts intOps ⟨true, false⟩ 4 true meshTri wordsTri 0 2 3
    0x02000000 4096 8192 12288 0 0 0 5 6 fmemEx (by decide) (Or.inl ⟨2 ^ 29, by norm_num⟩)
    (by decide) (by decide)
    ⟨fun _ => rfl, fun _ => Or.inl (by decide), fun _ => by decide,
      fun h => absurd rfl h⟩

theorem mem_outputFormulas_P {F : Type} (ops : FloatOps F) (u v : F)
    (P dPdu dPdv ddPdudu ddPdvdv ddPdudv : Nat) (h : P ≠ 0) :
    (P, fun p0 p1 p2 =>
      ops.madd (ops.sub (ops.sub ops.one u) v) p0 (ops.madd u p1 (ops.mul v p2)))
      ∈ outputFormulas ops u v P dPdu dPdv ddPdudu ddPdvdv ddPdudv := by
  unfold outputFormulas
  rw [if_pos h]
  simp

theorem mem_outputFormulas_dP {F : Type} (ops : FloatOps F) (u v : F)
    (P dPdu dPdv ddPdudu ddPdvdv ddPdudv : Nat) (h : dPdu ≠ 0) :
    (dPdu, fun p0 p1 _ => ops.sub p1 p0)
        ∈ outputFormulas ops u v P dPdu dPdv ddPdudu ddPdvdv ddPdudv ∧
      (dPdv, fun p0 _ p2 => ops.sub p2 p0)
        ∈ outputFormulas ops u v P dPdu dPdv ddPdudu ddPdvdv ddPdudv := by
  unfold outputFormulas
  rw [if_pos h]
  simp

theorem mem_outputFormulas_ddP {F : Type} (ops : FloatOps F) (u v : F)
    (P dPdu dPdv ddPdudu ddPdvdv ddPdudv : Nat) (h : ddPdudu ≠ 0) :
    (ddPdudu, fun _ _ _ => ops.zero)
        ∈ outputFormulas ops u v P dPdu dPdv ddPdudu ddPdvdv ddPdudv ∧
      (ddPdvdv, fun _ _ _ => ops.zero)
        ∈ outputFormulas ops u v P dPdu dPdv ddPdudu ddPdvdv ddPdudv ∧
      (ddPdudv, fun _ _ _ => ops.zero)
        ∈ outputFormulas ops u v P dPdu dPdv ddPdudu ddPdvdv ddPdudv := by
  unfold outputFormulas
  rw [if_pos h]
  simp

/-- C3: with a count of 2^31, a chunk width of 4, `u = v = 0` and `P` supplied,
the call returns in every build with the memory as it was: the float at
`P[0]` is still 7, while channel 0 of the row of vertex 0 holds 1024, which is
also what `(1-u-v)*a0 + (u*a1 + v*a2)` evaluates to. -/
theorem interpolate_huge_count_leaves_P :
    (∀ b : Build, meshTri.interpolate embreeConsts intOps b 4 true wordsTri 0 0 0 0x02000000
        4096 0 0 0 0 0 (2 ^ 31) (2 ^ 29 + 1) fmemEx = some (.ok fmemEx)) ∧
      fmemEx.val (4096 + 4 * 0) = 7 ∧
      (meshTri.interpolateSource embreeConsts 0x02000000).1
        + meshTri.triangleV wordsTri 0 0 * (meshTri.interpolateSource embreeConsts 0x02000000).2
        + 4 * 0 = 1024 ∧
      fmemEx.val 1024 = 1024 ∧
      intOps.add (intOps.mul (intOps.sub (intOps.sub intOps.one 0) 0) (fmemEx.val 1024))
        (intOps.add (intOps.mul 0 (fmemEx.val 1040)) (intOps.mul 0 (fmemEx.val 1056)))
        = 1024 := by
  refine ⟨fun b => ?_, by decide, by decide, by decide, by decide⟩
  rw [interpolate_eq_loop _ _ _ _ _ _ _ _ _ _ _ _ _ _ _ _ _ _ _ _ (fun _ => rfl)
    (fun _ => Or.inl (by decide))]
  exact interpolateLoop_huge intOps 4 0 0 _ _ _ 4096 0 0 0 0 0 (2 ^ 29) (2 ^ 29 + 1)
    fmemEx b (by norm_num) (by omega) (fun h => absurd rfl h) (fun h => absurd rfl h)

/-- In an arithmetic that propagates not-a-number, `P[0]` at `u = v = 0` is
not-a-number when channel 0 of vertex 1 is, whatever channel 0 of vertex 0
holds: the identity `P[j] = a0[j]` at `u = v = 0` needs `0*a1 = 0`. -/
theorem interpolate_nan_propagates :
    (meshTri.interpolate embreeConsts nanOps ⟨false, true⟩ 4 true wordsTri 0 (some 0) (some 0)
        0x02000000 4096 0 0 0 0 0 1 2 fmemNan).map (fun r => r.map (fun fm => fm.val 4096))
      = some (.ok none) ∧
    fmemNan.val 1024 = some 5 := by
  decide

/-- Below 2^31 the values that a call whose checks pass writes: for a count `n`
below 2^31, a chunk width `V` that divides 2^31 or has `n + V` at most 2^31,
row offsets `ik*stride + 4*n` that do not wrap at 2^64, and outputs whose
entries share no byte with one another nor with the three rows: the call
returns and, for every channel `j` below `n`, has written
`P[j] = (1-u-v)*a0 + (u*a1 + v*a2)`, `dPdu[j] = a1 - a0`, `dPdv[j] = a2 - a0`
and zero into `ddPdudu[j]`, `ddPdvdv[j]` and `ddPdudv[j]` (each group when it
is stored through), in the arithmetic of the parameter `ops`, where `ak` is
the float that memory held before the call at `src + ik*stride + 4*j`, channel
`j` of the row of vertex `ik` in the selected buffer; and at `u = v = 0` the
written `P[j]` is `a0` whenever that arithmetic gives `1-0-0 = 1`,
`1*a0 = a0`, `0*a1 = 0`, `0*a2 = 0`, `0+0 = 0` and `a0+0 = a0`. -/
theorem interpolate_values {F : Type} (c : RTCConsts) (ops : FloatOps F) (b : Build) (V : Nat)
    (en : Bool)
    (m : TriangleMesh) (words : Nat → Nat) (primID : Nat) (u v : F)
    (buffer P dPdu dPdv ddPdudu ddPdvdv ddPdudv n fuel : Nat) (fm : FMem F)
    (src stride i0 i1 i2 j : Nat) (a0 a1 a2 : F)
    (hV : 0 < V) (hdiv : V ∣ 2 ^ 31 ∨ n + V ≤ 2 ^ 31) (hn : n < 2 ^ 31) (hfuel : n < fuel) (hj : j < n)
    (hchk : checksPass c b en m buffer dPdu dPdv ddPdudu ddPdvdv ddPdudv)
    (hsel : m.interpolateSource c buffer = (src, stride))
    (h0 : m.triangleV words primID 0 = i0) (h1 : m.triangleV words primID 1 = i1)
    (h2 : m.triangleV words primID 2 = i2)
    (hw0 : i0 * stride + 4 * n ≤ 2 ^ 64) (hw1 : i1 * stride + 4 * n ≤ 2 ^ 64)
    (hw2 : i2 * stride + 4 * n ≤ 2 ^ 64)
    (ha0 : a0 = fm.val (src + i0 * stride + 4 * j))
    (ha1 : a1 = fm.val (src + i1 * stride + 4 * j))
    (ha2 : a2 = fm.val (src + i2 * stride + 4 * j))
    (hout : (outputPointers P dPdu dPdv ddPdudu ddPdvdv ddPdudv).Pairwise
      (fun X Y => ∀ j1 j2, j1 < n → j2 < n →
        X + 4 * j1 + 4 ≤ Y + 4 * j2 ∨ Y + 4 * j2 + 4 ≤ X + 4 * j1))
    (hsrc : ∀ X ∈ outputPointers P dPdu dPdv ddPdudu ddPdvdv ddPdudv,
      ∀ j1, j1 < n → ∀ j2, j2 < n →
        (X + 4 * j1 + 4 ≤ src + i0 * stride + 4 * j2 ∨
          src + i0 * stride + 4 * j2 + 4 ≤ X + 4 * j1) ∧
        (X + 4 * j1 + 4 ≤ src + i1 * stride + 4 * j2 ∨
          src + i1 * stride + 4 * j2 + 4 ≤ X + 4 * j1) ∧
        (X + 4 * j1 + 4 ≤ src + i2 * stride + 4 * j2 ∨
          src + i2 * stride + 4 * j2 + 4 ≤ X + 4 * j1)) :
    ∃ fm', m.interpolate c ops b V en words primID u v buffer P dPdu dPdv ddPdudu ddPdvdv
        ddPdudv n fuel fm = some (.ok fm') ∧
      (P ≠ 0 → fm'.val (P + 4 * j) =
        ops.add (ops.mul (ops.sub (ops.sub ops.one u) v) a0)
          (ops.add (ops.mul u a1) (ops.mul v a2))) ∧
      (dPdu ≠ 0 → fm'.val (dPdu + 4 * j) = ops.sub a1 a0 ∧
        fm'.val (dPdv + 4 * j) = ops.sub a2 a0) ∧
      (ddPdudu ≠ 0 → fm'.val (ddPdudu + 4 * j) = ops.zero ∧
        fm'.val (ddPdvdv + 4 * j) = ops.zero ∧ fm'.val (ddPdudv + 4 * j) = ops.zero) ∧
      (P ≠ 0 → u = ops.zero → v = ops.zero →
        ops.sub (ops.sub ops.one ops.zero) ops.zero = ops.one → ops.mul ops.one a0 = a0 →
        ops.mul ops.zero a1 = ops.zero → ops.mul ops.zero a2 = ops.zero →
        ops.add ops.zero ops.zero = ops.zero → ops.add a0 ops.zero = a0 →
        fm'.val (P + 4 * j) = a0) := by
  obtain ⟨hc1, hc2, hc3, hc4⟩ := hchk
  have hsrc1 : (m.interpolateSource c buffer).1 = src := by rw [hsel]
  have hsrc2 : (m.interpolateSource c buffer).2 = stride := by rw [hsel]
  have hca : ∀ k, k < 3 → ∀ j2, j2 < n →
      channelAddr V src stride (m.triangleV words primID k) j2
        = src + m.triangleV words primID k * stride + 4 * j2 := by
    intro k hk j2 hj2
    apply channelAddr_eq
    interval_cases k
    · rw [h0]; omega
    · rw [h1]; omega
    · rw [h2]; omega
  have hpw : NoOverlap n (outputFormulas ops u v P dPdu dPdv ddPdudu ddPdvdv ddPdudv) := by
    unfold NoOverlap
    rw [← outputFormulas_map_fst ops u v, List.pairwise_map] at hout
    exact hout
  have hsrc' : ∀ e ∈ outputFormulas ops u v P dPdu dPdv ddPdudu ddPdvdv ddPdudv,
      ∀ j1, j1 < n → ∀ k, k < 3 → ∀ j2, j2 < n →
        e.1 + 4 * j1 + 4 ≤ channelAddr V src stride (m.triangleV words primID k) j2 ∨
          channelAddr V src stride (m.triangleV words primID k) j2 + 4 ≤ e.1 + 4 * j1 := by
    intro e he j1 hj1 k hk j2 hj2
    rw [hca k hk j2 hj2]
    have h := hsrc e.1 ((mem_outputPointers_iff ops u v _ _ _ _ _ _ _).2 ⟨e, he, rfl⟩)
      j1 hj1 j2 hj2
    interval_cases k
    · rw [h0]; exact h.1
    · rw [h1]; exact h.2.1
    · rw [h2]; exact h.2.2
  obtain ⟨fm', hrun, hval⟩ := interpolateLoop_val ops V u v src stride
    (m.triangleV words primID) P dPdu dPdv ddPdudu ddPdvdv ddPdudv n fuel fm hV hdiv hn hfuel
    hpw hsrc' b hc3 hc4
  have hv : ∀ e ∈ outputFormulas ops u v P dPdu dPdv ddPdudu ddPdvdv ddPdudv,
      fm'.val (e.1 + 4 * j) = e.2 a0 a1 a2 := by
    intro e he
    rw [hval e he j hj, hca 0 (by omega) j hj, hca 1 (by omega) j hj, hca 2 (by omega) j hj,
      h0, h1, h2, ← ha0, ← ha1, ← ha2]
  have hP : P ≠ 0 → fm'.val (P + 4 * j) =
      ops.add (ops.mul (ops.sub (ops.sub ops.one u) v) a0)
        (ops.add (ops.mul u a1) (ops.mul v a2)) := by
    intro hp
    exact hv _ (mem_outputFormulas_P ops u v P dPdu dPdv ddPdudu ddPdvdv ddPdudv hp)
  refine ⟨fm', ?_, hP, ?_, ?_, ?_⟩
  · rw [interpolate_eq_loop c ops b V en m words primID u v buffer P dPdu dPdv ddPdudu ddPdvdv
      ddPdudv n fuel fm hc1 hc2, hsrc1, hsrc2]
    exact hrun
  · intro hp
    have hm := mem_outputFormulas_dP ops u v P dPdu dPdv ddPdudu ddPdvdv ddPdudv hp
    exact ⟨hv _ hm.1, hv _ hm.2⟩
  · intro hp
    have hm := mem_outputFormulas_ddP ops u v P dPdu dPdv ddPdudu ddPdvdv ddPdudv hp
    exact ⟨hv _ hm.1, hv _ hm.2.1, hv _ hm.2.2⟩
  · intro hp hu hv0 e1 e2 e3 e4 e5 e6
    rw [hP hp, hu, hv0, e1, e2, e3, e4, e5, e6]

/-- An instance of `interpolate_values`: channel 4 of five channels with a chunk
width of 4, at `u = 2`, `v = 3` in exact integer arithmetic, through `P`,
`dPdu` and `dPdv`, in a build without assertions. -/
theorem interpolate_values_witness :
    ∃ fm', meshTri.interpolate embreeConsts intOps ⟨false, true⟩ 4 true wordsTri 0 2 3
        0x02000000 4096 8192 12288 0 0 0 5 6 fmemEx = some (.ok fm') ∧
      fm'.val (4096 + 4 * 4) = (1 - 2 - 3) * 1040 + (2 * 1056 + 3 * 1072) ∧
      fm'.val (8192 + 4 * 4) = 1056 - 1040 ∧
      fm'.val (12288 + 4 * 4) = 1072 - 1040 := by
  have hptr : outputPointers 4096 8192 12288 0 0 0 = [4096, 8192, 12288] := by decide
  obtain ⟨fm', hrun, hP, hdP, _, _⟩ :=
    interpolate_values embreeConsts intOps ⟨false, true⟩ 4 true meshTri wordsTri 0 2 3
      0x02000000 4096 8192 12288 0 0 0 5 6 fmemEx 1024 16 0 1 2 4 1040 1056 1072
      (by decide) (Or.inl ⟨2 ^ 29, by norm_num⟩) (by decide) (by decide) (by decide)
      ⟨fun h => absurd h (by decide), fun h => absurd h (by decide), fun _ => by decide,
        fun h => absurd rfl h⟩
      (by decide) (by decide) (by decide) (by decide)
      (by decide) (by decide) (by decide)
      (by decide) (by decide) (by decide)
      (by
        rw [hptr]
        simp only [List.pairwise_cons, List.mem_cons, List.mem_singleton, List.not_mem_nil,
          List.Pairwise.nil, and_true]
        refine ⟨?_, ?_, ?_⟩
        · intro Y hY j1 j2 h1 h2
          rcases hY with rfl | rfl | hY
          · omega
          · omega
          · exact absurd hY (by simp)
        · intro Y hY j1 j2 h1 h2
          rcases hY with rfl | hY
          · omega
          · exact absurd hY (by simp)
        · intro Y hY
          exact absurd hY (by simp))
      (by
        rw [hptr]
        intro X hX j1 h1 j2 h2
        simp only [List.mem_cons, List.mem_singleton, List.not_mem_nil, or_false] at hX
        rcases hX with rfl | rfl | rfl <;> omega)
  exact ⟨fm', hrun, hP (by decide), hdP (by decide)⟩

/-! ### hit.h: the masked copy against the scalar copy -/

theorem vfloat_storeu_all {K : Nat} {F : Type} (dst src : Fin K → F) :
    vfloat.storeu (fun _ => true) dst src = src := by
  funext i
  simp [vfloat.storeu]

theorem vfloat_storeu_none {K : Nat} {F : Type} (dst src : Fin K → F) :
    vfloat.storeu (fun _ => false) dst src = dst := by
  funext i
  simp [vfloat.storeu]

theorem vint_storeu_all {K : Nat} (dst src : Fin K → Int) :
    vint.storeu (fun _ => true) dst src = src := by
  funext i
  simp [vint.storeu]

theorem vint_storeu_none {K : Nat} (dst src : Fin K → Int) :
    vint.storeu (fun _ => false) dst src = dst := by
  funext i
  simp [vint.storeu]

/-- C18: with all K mask bits set, lane `i` of the ray that the masked
`copyHitToRay` produces is the ray that the scalar `copyHitToRay` produces
from lane `i` of the ray and lane `i` of the hit; with no mask bit set the
masked `copyHitToRay` leaves the ray record unchanged. -/
theorem copyHitToRayK_refines (K : Nat) (F : Type) (ray : RayK K F) (hit : HitK K F) :
    (∀ i : Fin K, (copyHitToRayK (fun _ => true) ray hit).lane i
      = copyHitToRay (ray.lane i) (hit.lane i)) ∧
    copyHitToRayK (fun _ => false) ray hit = ray := by
  constructor
  · intro i
    simp only [copyHitToRayK, copyHitToRay, RayK.lane, HitK.lane, vfloat_storeu_all,
      vint_storeu_all]
  · simp only [copyHitToRayK, vfloat_storeu_none, vint_storeu_none]

/-! ### enabling, disabling -/

theorem addSizeT_exact (a b : Nat) (h : a + b < 2 ^ 64) : addSizeT a b = a + b := by
  unfold addSizeT
  omega

theorem subSizeT_exact (a b : Nat) (h : b ≤ a) (ha : a < 2 ^ 64) : subSizeT a b = a - b := by
  unfold subSizeT
  omega

theorem subSizeT_addSizeT (a b : Nat) (ha : a < 2 ^ 64) : subSizeT (addSizeT a b) b = a := by
  unfold subSizeT addSizeT
  omega

theorem addSizeT_subSizeT (a b : Nat) (ha : a < 2 ^ 64) : addSizeT (subSizeT a b) b = a := by
  unfold subSizeT addSizeT
  omega

/-- On a mesh with one time step that is attached to a scene, `enabling()` adds
the size of the index buffer to `world.numTriangles`. -/
theorem enabling_static (m : TriangleMesh) (s : Scene) (hs : m.scene = some s)
    (hT : m.numTimeSteps = 1) :
    m.enabling = { m with scene := some { s with
      world := ⟨addSizeT s.world.numTriangles m.triangles.size⟩ } } := by
  unfold TriangleMesh.enabling
  rw [hs]
  dsimp only
  rw [if_pos hT]

/-- On an attached mesh with another number of time steps, `enabling()` adds
the size of the index buffer to `worldMB.numTriangles`. -/
theorem enabling_motion (m : TriangleMesh) (s : Scene) (hs : m.scene = some s)
    (hT : m.numTimeSteps ≠ 1) :
    m.enabling = { m with scene := some { s with
      worldMB := ⟨addSizeT s.worldMB.numTriangles m.triangles.size⟩ } } := by
  unfold TriangleMesh.enabling
  rw [hs]
  dsimp only
  rw [if_neg hT]

theorem disabling_static (m : TriangleMesh) (s : Scene) (hs : m.scene = some s)
    (hT : m.numTimeSteps = 1) :
    m.disabling = { m with scene := some { s with
      world := ⟨subSizeT s.world.numTriangles m.triangles.size⟩ } } := by
  unfold TriangleMesh.disabling
  rw [hs]
  dsimp only
  rw [if_pos hT]

theorem disabling_motion (m : TriangleMesh) (s : Scene) (hs : m.scene = some s)
    (hT : m.numTimeSteps ≠ 1) :
    m.disabling = { m with scene := some { s with
      worldMB := ⟨subSizeT s.worldMB.numTriangles m.triangles.size⟩ } } := by
  unfold TriangleMesh.disabling
  rw [hs]
  dsimp only
  rw [if_neg hT]

/-- C11: on a mesh attached to a scene whose index buffer holds P triangles,
`enabling()` adds P to one aggregate (`world.numTriangles` when the mesh has
exactly one time step, `worldMB.numTriangles` otherwise) and `disabling()`
subtracts P from that same aggregate, in `size_t` arithmetic, which is the
exact sum when it stays below 2^64 and the exact difference when P does not
exceed the counter; nothing else of the state changes; and `enabling()` followed
by `disabling()`, or `disabling()` followed by `enabling()`, gives back the state
before the pair for every value of the two counters. -/
theorem enabling_disabling_aggregates (m : TriangleMesh) (s : Scene) (P : Nat)
    (hs : m.scene = some s) (hP : m.triangles.size = P)
    (hw : s.world.numTriangles < 2 ^ 64) (hwMB : s.worldMB.numTriangles < 2 ^ 64) :
    (m.numTimeSteps = 1 →
      m.enabling = { m with scene := some { s with
        world := ⟨addSizeT s.world.numTriangles P⟩ } } ∧
      m.disabling = { m with scene := some { s with
        world := ⟨subSizeT s.world.numTriangles P⟩ } }) ∧
    (m.numTimeSteps ≠ 1 →
      m.enabling = { m with scene := some { s with
        worldMB := ⟨addSizeT s.worldMB.numTriangles P⟩ } } ∧
      m.disabling = { m with scene := some { s with
        worldMB := ⟨subSizeT s.worldMB.numTriangles P⟩ } }) ∧
    (∀ a, a + P < 2 ^ 64 → addSizeT a P = a + P) ∧
    (∀ a, P ≤ a → a < 2 ^ 64 → subSizeT a P = a - P) ∧
    m.enabling.disabling = m ∧ m.disabling.enabling = m := by
  subst hP
  refine ⟨fun hT => ⟨enabling_static m s hs hT, disabling_static m s hs hT⟩,
    fun hT => ⟨enabling_motion m s hs hT, disabling_motion m s hs hT⟩,
    fun a h => addSizeT_exact a _ h, fun a h ha => subSizeT_exact a _ h ha, ?_, ?_⟩
  · obtain ⟨T, sc, g, np, tri, v0, vs, us⟩ := m
    obtain ⟨⟨w⟩, ⟨wMB⟩, nI, nV, tab⟩ := s
    simp only at hs hw hwMB
    subst hs
    unfold TriangleMesh.enabling TriangleMesh.disabling
    by_cases hT : T = 1 <;> simp [hT, APIBuffer.size]
    · exact subSizeT_addSizeT _ _ hw
    · exact subSizeT_addSizeT _ _ hwMB
  · obtain ⟨T, sc, g, np, tri, v0, vs, us⟩ := m
    obtain ⟨⟨w⟩, ⟨wMB⟩, nI, nV, tab⟩ := s
    simp only at hs hw hwMB
    subst hs
    unfold TriangleMesh.enabling TriangleMesh.disabling
    by_cases hT : T = 1 <;> simp [hT, APIBuffer.size]
    · exact addSizeT_subSizeT _ _ hw
    · exact addSizeT_subSizeT _ _ hwMB

/-- Witness of C11: a mesh with one triangle and one time step in a scene that
counts 10 static triangles. -/
theorem enabling_disabling_aggregates_witness :
    meshAttached.enabling = { meshAttached with scene := some { sceneEx with
      world := ⟨addSizeT 10 1⟩ } } ∧
    addSizeT 10 1 = 10 + 1 ∧
    meshAttached.enabling.disabling = meshAttached :=
  have h := enabling_disabling_aggregates meshAttached sceneEx 1 rfl rfl
    (by decide) (by decide)
  ⟨(h.1 rfl).1, h.2.2.1 10 (by decide), h.2.2.2.2.1⟩

/-! ### preCommit -/

/-- C13: `preCommit()` fails with InvalidOperation if and only if two time steps
below T have vertex buffers of different strides, returns normally if and
only if all those strides are identical, and leaves the mesh state as it
was. -/
theorem preCommit_strides (m : TriangleMesh) :
    (m.preCommit.1 = .error .RTC_INVALID_OPERATION ↔
      ∃ s t, s < m.numTimeSteps ∧ t < m.numTimeSteps ∧
        (m.vertices.getD s APIBuffer.empty).getStride
          ≠ (m.vertices.getD t APIBuffer.empty).getStride) ∧
    (m.preCommit.1 = .ok () ↔
      ∀ s t, s < m.numTimeSteps → t < m.numTimeSteps →
        (m.vertices.getD s APIBuffer.empty).getStride
          = (m.vertices.getD t APIBuffer.empty).getStride) ∧
    m.preCommit.2 = m := by
  have hany : (List.range m.numTimeSteps).any (fun t =>
      decide ((m.vertices.getD t APIBuffer.empty).getStride
        ≠ (m.vertices.getD 0 APIBuffer.empty).getStride)) = true ↔
      ∃ s t, s < m.numTimeSteps ∧ t < m.numTimeSteps ∧
        (m.vertices.getD s APIBuffer.empty).getStride
          ≠ (m.vertices.getD t APIBuffer.empty).getStride := by
    rw [List.any_eq_true]
    constructor
    · rintro ⟨t, ht, hne⟩
      rw [List.mem_range] at ht
      rw [decide_eq_true_eq] at hne
      exact ⟨t, 0, ht, by omega, hne⟩
    · rintro ⟨s, t, hs, ht, hne⟩
      by_cases h0 : (m.vertices.getD s APIBuffer.empty).getStride
          = (m.vertices.getD 0 APIBuffer.empty).getStride
      · refine ⟨t, List.mem_range.2 ht, ?_⟩
        rw [decide_eq_true_eq]
        intro h
        exact hne (h0.trans h.symm)
      · exact ⟨s, List.mem_range.2 hs, by rw [decide_eq_true_eq]; exact h0⟩
  unfold TriangleMesh.preCommit
  by_cases h : (List.range m.numTimeSteps).any (fun t =>
      decide ((m.vertices.getD t APIBuffer.empty).getStride
        ≠ (m.vertices.getD 0 APIBuffer.empty).getStride)) = true
  · rw [if_pos h]
    have hex := hany.1 h
    refine ⟨⟨fun _ => hex, fun _ => rfl⟩, ⟨fun hok => absurd hok (by simp), ?_⟩, rfl⟩
    intro hall
    obtain ⟨s, t, hs, ht, hne⟩ := hex
    exact absurd (hall s t hs ht) hne
  · rw [if_neg h]
    have hnex := fun hex => h (hany.2 hex)
    refine ⟨⟨fun herr => absurd herr (by simp), fun hex => absurd hex hnex⟩,
      ⟨fun _ => ?_, fun _ => rfl⟩, rfl⟩
    intro s t hs ht
    by_contra hne
    exact hnex ⟨s, t, hs, ht, hne⟩

/-! ### immutable -/

/-- C14: on a mesh attached to a scene, `immutable()` releases the index buffer
exactly when the scene does not need triangle indices and releases every
time-step vertex buffer exactly when the scene does not need triangle
vertices; the buffers it does not release, the user-attribute buffers, the
scene with its world aggregates and the rest of the state are unchanged. -/
theorem immutable_releases (m : TriangleMesh) (s : Scene) (hs : m.scene = some s) :
    m.immutable = { m with
      triangles := if s.needTriangleIndices then m.triangles else m.triangles.free
      vertices := if s.needTriangleVertices then m.vertices
        else m.vertices.map APIBuffer.free } ∧
    m.immutable.userbuffers = m.userbuffers ∧
    m.immutable.scene = some s ∧
    (∀ t, t < m.vertices.length →
      m.immutable.vertices.getD t APIBuffer.empty =
        if s.needTriangleVertices then m.vertices.getD t APIBuffer.empty
        else (m.vertices.getD t APIBuffer.empty).free) := by
  have hmain : m.immutable = { m with
      triangles := if s.needTriangleIndices then m.triangles else m.triangles.free
      vertices := if s.needTriangleVertices then m.vertices
        else m.vertices.map APIBuffer.free } := by
    obtain ⟨T, sc, g, np, tri, v0, vs, us⟩ := m
    obtain ⟨w, wMB, nI, nV, tab⟩ := s
    simp only at hs
    subst hs
    unfold TriangleMesh.immutable
    cases nI <;> cases nV <;> rfl
  refine ⟨hmain, ?_, ?_, ?_⟩
  · rw [hmain]
  · rw [hmain]
    exact hs
  · intro t ht
    rw [hmain]
    dsimp only
    cases s.needTriangleVertices
    · simp only [Bool.false_eq_true, if_false]
      simp [List.getD_eq_getElem?_getD, List.getElem?_map, ht]
    · simp only [if_true]

/-- Witness of C14: a scene that needs the vertices but not the indices. -/
theorem immutable_releases_witness :
    ({ meshTri with scene := some ⟨⟨0⟩, ⟨0⟩, false, true, []⟩ } : TriangleMesh).immutable
      = { meshTri with
          scene := some ⟨⟨0⟩, ⟨0⟩, false, true, []⟩
          triangles := ⟨0, 0, 12, 1, true⟩ } :=
  (immutable_releases { meshTri with scene := some ⟨⟨0⟩, ⟨0⟩, false, true, []⟩ }
    ⟨⟨0⟩, ⟨0⟩, false, true, []⟩ rfl).1

/-! ### verify, in full -/

/-- C15: `verify()` is a total function to the booleans (it has no failing
result), and it returns true if and only if at least one vertex buffer exists,
every time-step vertex buffer and every slot of the user-buffer array has
the vertex count as its element count, every component of every index triple
is strictly less than the vertex count, and every stored vertex of every time
step is valid. -/
theorem verify_iff {F : Type} (isvalid : Vec3 F → Bool) (words : Nat → Nat)
    (floats : Nat → F) (m : TriangleMesh) :
    m.verify isvalid words floats = true ↔
      (m.vertices.length ≠ 0 ∧
        (∀ b ∈ m.vertices, b.size = m.numVertices) ∧
        (∀ b ∈ m.userbuffers, b.size = m.numVertices) ∧
        (∀ i k, i < m.triangles.size → k < 3 → m.triangleV words i k < m.numVertices) ∧
        (∀ b ∈ m.vertices, ∀ i, i < b.size → isvalid (b.vertexAt floats i) = true)) := by
  unfold TriangleMesh.verify
  constructor
  · intro hv
    split at hv
    · exact absurd hv (by simp)
    rename_i h1
    split at hv
    · exact absurd hv (by simp)
    rename_i h2
    split at hv
    · exact absurd hv (by simp)
    rename_i h3
    split at hv
    · exact absurd hv (by simp)
    rename_i h4
    split at hv
    · exact absurd hv (by simp)
    rename_i h5
    simp only [List.any_eq_true, not_exists, not_and, decide_eq_true_eq, ne_eq,
      Decidable.not_not] at h2 h3
    simp only [List.any_eq_true, not_exists, not_and, List.mem_range, Bool.or_eq_true,
      decide_eq_true_eq, not_or, not_le, ge_iff_le] at h4
    simp only [List.any_eq_true, not_exists, not_and, List.mem_range, Bool.not_eq_true',
      Bool.not_eq_false] at h5
    refine ⟨h1, h2, h3, ?_, ?_⟩
    · intro i k hi hk
      have h := h4 i hi
      interval_cases k
      · exact h.1.1
      · exact h.1.2
      · exact h.2
    · intro b hb i hi
      exact h5 b hb i hi
  · rintro ⟨h1, h2, h3, h4, h5⟩
    rw [if_neg h1, if_neg, if_neg, if_neg, if_neg]
    · simp only [List.any_eq_true, not_exists, not_and, List.mem_range, Bool.not_eq_true',
        Bool.not_eq_false]
      exact h5
    · simp only [List.any_eq_true, not_exists, not_and, List.mem_range, Bool.or_eq_true,
        decide_eq_true_eq, not_or, not_le, ge_iff_le]
      intro i hi
      exact ⟨⟨h4 i 0 hi (by omega), h4 i 1 hi (by omega)⟩, h4 i 2 hi (by omega)⟩
    · simp only [List.any_eq_true, not_exists, not_and, decide_eq_true_eq, ne_eq,
        Decidable.not_not]
      exact h3
    · simp only [List.any_eq_true, not_exists, not_and, decide_eq_true_eq, ne_eq,
        Decidable.not_not]
      exact h2

/-! ### newBuffer, setBuffer: the states that successful calls leave -/

/-- A successful `newBuffer` of a typed buffer yields an owned buffer with the
given stride and count. -/
theorem APIBuffer.newBuffer_ok (env : Env) (num stride : Nat) (b : APIBuffer)
    (h : APIBuffer.newBuffer env num stride = .ok b) :
    b = ⟨env.alignedMalloc (stride * num), 0, stride, num, false⟩ := by
  unfold APIBuffer.newBuffer at h
  split at h
  · exact absurd h (by simp)
  split at h
  · exact absurd h (by simp)
  · exact (Except.ok.inj h).symm

/-- The method `enabling()` changes nothing but the scene. -/
theorem enabling_eq (m : TriangleMesh) : m.enabling = { m with scene := m.enabling.scene } := by
  unfold TriangleMesh.enabling
  cases m.scene with
  | none => rfl
  | some s => dsimp only; split <;> rfl

/-- The method `disabling()` changes nothing but the scene. -/
theorem disabling_eq (m : TriangleMesh) :
    m.disabling = { m with scene := m.disabling.scene } := by
  unfold TriangleMesh.disabling
  cases m.scene with
  | none => rfl
  | some s => dsimp only; split <;> rfl

theorem disabling_scene_isSome (m : TriangleMesh) :
    m.disabling.scene.isSome = m.scene.isSome := by
  unfold TriangleMesh.disabling
  cases h : m.scene with
  | none => simp [h]
  | some s => dsimp only; split <;> rfl

/-- The state after a successful `newBuffer` of the index-buffer kind. -/
theorem newBuffer_index_state (c : RTCConsts) (env : Env) (m : TriangleMesh)
    (type stride size : Nat) (v : BufferView) (m' : TriangleMesh)
    (hi : type = c.RTC_INDEX_BUFFER)
    (hv : isVertexBufferType c m.numTimeSteps type = false)
    (hu : isUserBufferType c type = false)
    (h : m.newBuffer c env type stride size = (.ok v, m')) :
    m' = if m.scene.isSome ∧ size ≠ UNSIGNED_MINUS_ONE then
        TriangleMesh.enabling { m.disabling with
          triangles := ⟨env.alignedMalloc (stride * size), 0, stride, size, false⟩
          numPrimitives := size }
      else { m with
        triangles := ⟨env.alignedMalloc (stride * size), 0, stride, size, false⟩
        numPrimitives := size } := by
  unfold TriangleMesh.newBuffer at h
  by_cases hal : stride &&& 0x3 ≠ 0
  · rw [if_pos hal] at h
    exact absurd (congrArg Prod.fst h) (by simp)
  rw [if_neg hal] at h
  dsimp only at h
  rw [hv, hu, if_pos hi] at h
  simp only [Bool.false_eq_true, if_false] at h
  cases hb : APIBuffer.newBuffer env size stride with
  | error e =>
    rw [hb] at h
    exact absurd (congrArg Prod.fst h) (by simp)
  | ok b =>
    rw [hb] at h
    have hb2 := APIBuffer.newBuffer_ok env size stride b hb
    subst hb2
    have hm := congrArg Prod.snd h
    dsimp only at hm
    rw [← hm]
    by_cases hc : m.scene.isSome ∧ size ≠ UNSIGNED_MINUS_ONE
    · have hc2 : m.disabling.scene.isSome ∧ size ≠ UNSIGNED_MINUS_ONE := by
        rw [disabling_scene_isSome]
        exact hc
      simp only [hc, hc2, and_self, if_true, TriangleMesh.setNumPrimitives, ne_eq,
        not_false_eq_true]
    · simp only [hc, if_false, TriangleMesh.setNumPrimitives]

/-- The state after a successful `setBuffer` of the index-buffer kind. -/
theorem setBuffer_index_state (c : RTCConsts) (env : Env) (m : TriangleMesh)
    (type ptr offset stride size : Nat) (m' : TriangleMesh)
    (hi : type = c.RTC_INDEX_BUFFER)
    (hv : isVertexBufferType c m.numTimeSteps type = false)
    (hu : isUserBufferType c type = false)
    (h : m.setBuffer c env type ptr offset stride size = (.ok (), m')) :
    m' = if m.scene.isSome ∧ size ≠ UNSIGNED_MINUS_ONE then
        TriangleMesh.enabling { m.disabling with
          triangles := ⟨ptr, offset, stride, size, true⟩
          numPrimitives := size }
      else { m with
        triangles := ⟨ptr, offset, stride, size, true⟩
        numPrimitives := size } := by
  unfold TriangleMesh.setBuffer at h
  by_cases hal : ((ptr + offset) % 2 ^ 64) &&& 0x3 ≠ 0 ∨ stride &&& 0x3 ≠ 0
  · rw [if_pos hal] at h
    exact absurd (congrArg Prod.fst h) (by simp)
  rw [if_neg hal] at h
  dsimp only at h
  rw [hv, hu, if_pos hi] at h
  simp only [Bool.false_eq_true, if_false] at h
  cases hb : APIBuffer.set ptr offset stride size with
  | error e =>
    rw [hb] at h
    exact absurd (congrArg Prod.fst h) (by simp)
  | ok b =>
    rw [hb] at h
    have hb2 := APIBuffer.set_ok ptr offset stride size b hb
    subst hb2
    have hm := congrArg Prod.snd h
    dsimp only at hm
    rw [← hm]
    by_cases hc : m.scene.isSome ∧ size ≠ UNSIGNED_MINUS_ONE
    · have hc2 : m.disabling.scene.isSome ∧ size ≠ UNSIGNED_MINUS_ONE := by
        rw [disabling_scene_isSome]
        exact hc
      simp only [hc, hc2, and_self, if_true, TriangleMesh.setNumPrimitives, ne_eq,
        not_false_eq_true]
    · simp only [hc, if_false, TriangleMesh.setNumPrimitives]

/-- On an attached mesh, `disabling()`, the replacement of the index buffer and
of the cached count, and `enabling()` leave the selected aggregate at its
previous value minus the old size plus the new size. -/
theorem replace_index_attached (m : TriangleMesh) (s : Scene) (b : APIBuffer) (Q : Nat)
    (hs : m.scene = some s) :
    TriangleMesh.enabling { m.disabling with triangles := b, numPrimitives := Q } =
      { m with
        triangles := b
        numPrimitives := Q
        scene := some (if m.numTimeSteps = 1 then
          { s with world := ⟨addSizeT (subSizeT s.world.numTriangles m.triangles.size) b.size⟩ }
          else { s with
            worldMB := ⟨addSizeT (subSizeT s.worldMB.numTriangles m.triangles.size) b.size⟩ }) } := by
  obtain ⟨T, sc, g, np, tri, v0, vs, us⟩ := m
  obtain ⟨⟨w⟩, ⟨wMB⟩, nI, nV, tab⟩ := s
  simp only at hs
  subst hs
  unfold TriangleMesh.enabling TriangleMesh.disabling
  by_cases hT : T = 1 <;> simp [hT]

/-- The state that a replacement of the index buffer leaves satisfies
`indexReplaced`. -/
theorem indexReplaced_of_state (m : TriangleMesh) (b : APIBuffer) (P Q : Nat)
    (m' : TriangleMesh) (hP : m.triangles.size = P) (hb : b.size = Q)
    (h : m' = if m.scene.isSome ∧ Q ≠ UNSIGNED_MINUS_ONE then
        TriangleMesh.enabling { m.disabling with triangles := b, numPrimitives := Q }
      else { m with triangles := b, numPrimitives := Q }) :
    indexReplaced m P Q m' := by
  subst hP hb
  constructor
  · intro s hs hQ
    have hc : m.scene.isSome ∧ b.size ≠ UNSIGNED_MINUS_ONE := by
      rw [hs]
      exact ⟨rfl, hQ⟩
    rw [if_pos hc, replace_index_attached m s b b.size hs] at h
    subst h
    refine ⟨rfl, ?_, ?_⟩
    · intro hT
      dsimp only
      rw [if_pos hT]
    · intro hT
      dsimp only
      rw [if_neg hT]
  · intro hor
    by_cases hc : m.scene.isSome ∧ b.size ≠ UNSIGNED_MINUS_ONE
    · rcases hor with h1 | h1
      · rw [h1] at hc
        exact absurd hc.1 (by simp)
      · exact absurd h1 hc.2
    · rw [if_neg hc] at h
      subst h
      rfl

/-- C12: for the index-buffer kind (lying outside the vertex and user kind
ranges) on a mesh whose index buffer holds P triangles, every successful
`newBuffer` and every successful `setBuffer` with the new count Q leaves the
state described by `indexReplaced`: on a mesh attached to a scene and for Q
other than `(unsigned)-1`, the aggregate selected by the number of time steps
ends at its previous value minus P plus Q (in `size_t` arithmetic, the exact
value when P does not exceed the counter and the result stays below 2^64),
the other aggregate is unchanged and the cached primitive count is Q; on a
mesh without scene, or for Q equal to `(unsigned)-1`, neither aggregate
changes. -/
theorem index_buffer_replacement (c : RTCConsts) (env : Env) (m : TriangleMesh)
    (ptr offset stride P Q : Nat)
    (hv : isVertexBufferType c m.numTimeSteps c.RTC_INDEX_BUFFER = false)
    (hu : isUserBufferType c c.RTC_INDEX_BUFFER = false)
    (hP : m.triangles.size = P) :
    (∀ v m', m.newBuffer c env c.RTC_INDEX_BUFFER stride Q = (.ok v, m') →
      indexReplaced m P Q m') ∧
    (∀ m', m.setBuffer c env c.RTC_INDEX_BUFFER ptr offset stride Q = (.ok (), m') →
      indexReplaced m P Q m') ∧
    (∀ a, P ≤ a → a - P + Q < 2 ^ 64 → addSizeT (subSizeT a P) Q = a - P + Q) := by
  refine ⟨?_, ?_, ?_⟩
  · intro v m' h
    exact indexReplaced_of_state m ⟨env.alignedMalloc (stride * Q), 0, stride, Q, false⟩
      P Q m' hP rfl (newBuffer_index_state c env m _ stride Q v m' rfl hv hu h)
  · intro m' h
    exact indexReplaced_of_state m ⟨ptr, offset, stride, Q, true⟩
      P Q m' hP rfl (setBuffer_index_state c env m _ ptr offset stride Q m' rfl hv hu h)
  · intro a h1 h2
    unfold addSizeT subSizeT
    omega

/-- Witness of C12: the index buffer of one triangle of `meshAttached`, in a
scene that counts 10 static triangles, is replaced by one of 5 triangles: the
static aggregate ends at 10 - 1 + 5 and the cached count at 5. -/
theorem index_buffer_replacement_witness :
    (meshAttached.newBuffer embreeConsts envPadded 0x01000000 12 5).1 = .ok ⟨4096, 12, 5⟩ ∧
    (meshAttached.newBuffer embreeConsts envPadded 0x01000000 12 5).2.numPrimitives = 5 ∧
    (meshAttached.newBuffer embreeConsts envPadded 0x01000000 12 5).2.scene
      = some { sceneEx with world := ⟨addSizeT (subSizeT 10 1) 5⟩ } ∧
    addSizeT (subSizeT 10 1) 5 = 10 - 1 + 5 :=
  have h := index_buffer_replacement embreeConsts envPadded meshAttached 4096 0 12 1 5
    (by decide) (by decide) rfl
  have h1 := (h.1 ⟨4096, 12, 5⟩ (meshAttached.newBuffer embreeConsts envPadded 0x01000000 12 5).2
    (by decide)).1 sceneEx rfl (by decide)
  ⟨by decide, h1.1, h1.2.1 rfl, h.2.2 10 (by decide) (by decide)⟩

/-! ### newBuffer, setBuffer: user-attribute slots -/

theorem vresize_length (l : List APIBuffer) (n : Nat) : (vresize l n).length = n := by
  unfold vresize
  rw [List.length_append, List.length_take, List.length_replicate]
  omega

theorem growSet_length (l : List APIBuffer) (bid : Nat) (b : APIBuffer) :
    (growSet l bid b).length = max l.length (bid + 1) := by
  unfold growSet
  rw [List.length_set]
  split
  · rw [vresize_length]
    omega
  · omega

theorem growSet_self (l : List APIBuffer) (bid : Nat) (b : APIBuffer) :
    (growSet l bid b)[bid]? = some b := by
  unfold growSet
  rw [List.getElem?_set, if_pos rfl, if_pos]
  split
  · rw [vresize_length]
    omega
  · omega

theorem vresize_getElem?_old (l : List APIBuffer) (n j : Nat) (hj : j < l.length)
    (hn : l.length ≤ n) : (vresize l n)[j]? = l[j]? := by
  unfold vresize
  rw [List.take_of_length_le hn, List.getElem?_append, if_pos hj]

theorem vresize_getElem?_new (l : List APIBuffer) (n j : Nat) (hj : l.length ≤ j)
    (hn : j < n) : (vresize l n)[j]? = some APIBuffer.empty := by
  unfold vresize
  rw [List.take_of_length_le (by omega), List.getElem?_append, if_neg (by omega),
    List.getElem?_replicate, if_pos (by omega)]

theorem growSet_old (l : List APIBuffer) (bid : Nat) (b : APIBuffer) (j : Nat)
    (hj : j < l.length) (hne : j ≠ bid) : (growSet l bid b)[j]? = l[j]? := by
  unfold growSet
  rw [List.getElem?_set, if_neg (fun h => hne h.symm)]
  split
  · exact vresize_getElem?_old l _ j hj (by omega)
  · rfl

/-- The slots that `resize` creates below the slot assigned to are empty. -/
theorem growSet_gap (l : List APIBuffer) (bid : Nat) (b : APIBuffer) (j : Nat)
    (hj : l.length ≤ j) (hlt : j < bid) : (growSet l bid b)[j]? = some APIBuffer.empty := by
  unfold growSet
  rw [List.getElem?_set, if_neg (by omega), if_pos (by omega)]
  exact vresize_getElem?_new l _ j hj (by omega)

theorem userStored_growSet (m : TriangleMesh) (s : Nat) (b : APIBuffer) :
    userStored m s b { m with userbuffers := growSet m.userbuffers s b } :=
  ⟨growSet_length _ _ _, growSet_self _ _ _, fun j hj hne => growSet_old _ _ _ j hj hne,
    rfl, rfl, rfl, rfl, rfl, rfl, rfl⟩

theorem isUserBufferType_add (c : RTCConsts) (s : Nat)
    (hs : s < c.RTC_MAX_USER_VERTEX_BUFFERS) :
    isUserBufferType c (c.RTC_USER_VERTEX_BUFFER0 + s) = true := by
  simp only [isUserBufferType, Bool.and_eq_true, decide_eq_true_eq]
  omega

/-- The state after a successful `newBuffer` of a user-attribute kind. -/
theorem newBuffer_user_state (c : RTCConsts) (env : Env) (m : TriangleMesh)
    (type stride size : Nat) (v : BufferView) (m' : TriangleMesh)
    (hv : isVertexBufferType c m.numTimeSteps type = false)
    (hu : isUserBufferType c type = true)
    (h : m.newBuffer c env type stride size = (.ok v, m')) :
    m' = { m with userbuffers := (growSet m.userbuffers (type &&& 0xFFFF)
      (APIBuffer.mk (env.alignedMalloc (stride * size)) 0 stride size false)) } := by
  unfold TriangleMesh.newBuffer at h
  by_cases hal : stride &&& 0x3 ≠ 0
  · rw [if_pos hal] at h
    exact absurd (congrArg Prod.fst h) (by simp)
  rw [if_neg hal] at h
  dsimp only at h
  rw [hv, hu] at h
  simp only [Bool.false_eq_true, if_false, if_true] at h
  cases hb : APIBuffer.newBuffer env size stride with
  | error e =>
    rw [hb] at h
    exact absurd (congrArg Prod.fst h) (by simp)
  | ok b =>
    rw [hb] at h
    have hb2 := APIBuffer.newBuffer_ok env size stride b hb
    subst hb2
    have hm := congrArg Prod.snd h
    dsimp only at hm
    rw [← hm]
    unfold growSet
    by_cases hc : type &&& 0xFFFF ≥ m.userbuffers.length
    · simp only [hc, if_true]
    · simp only [hc, if_false]

/-- The state after a successful `setBuffer` of a user-attribute kind. -/
theorem setBuffer_user_state (c : RTCConsts) (env : Env) (m : TriangleMesh)
    (type ptr offset stride size : Nat) (m' : TriangleMesh)
    (hv : isVertexBufferType c m.numTimeSteps type = false)
    (hu : isUserBufferType c type = true)
    (h : m.setBuffer c env type ptr offset stride size = (.ok (), m')) :
    m' = { m with userbuffers := (growSet m.userbuffers (type &&& 0xFFFF)
      (APIBuffer.mk ptr offset stride size true)) } := by
  unfold TriangleMesh.setBuffer at h
  by_cases hal : ((ptr + offset) % 2 ^ 64) &&& 0x3 ≠ 0 ∨ stride &&& 0x3 ≠ 0
  · rw [if_pos hal] at h
    exact absurd (congrArg Prod.fst h) (by simp)
  rw [if_neg hal] at h
  dsimp only at h
  rw [hv, hu] at h
  simp only [Bool.false_eq_true, if_false, if_true] at h
  cases hb : APIBuffer.set ptr offset stride size with
  | error e =>
    rw [hb] at h
    exact absurd (congrArg Prod.fst h) (by simp)
  | ok b =>
    rw [hb] at h
    have hb2 := APIBuffer.set_ok ptr offset stride size b hb
    subst hb2
    dsimp only at h
    split at h
    · exact absurd (congrArg Prod.fst h) (by simp)
    · have hm := congrArg Prod.snd h
      dsimp only at hm
      rw [← hm]
      unfold growSet
      by_cases hc : type &&& 0xFFFF ≥ m.userbuffers.length
      · simp only [hc, if_true, List.set_set]
      · simp only [hc, if_false, List.set_set]

/-- C16: for a user-attribute slot `s` (the low 16 bits of
`RTC_USER_VERTEX_BUFFER0` being clear, the slot limit at most 2^16, the kind
lying outside the vertex kind range), after every successful `newBuffer` or
`setBuffer` of that slot the user-slot array has length
`max (previous length) (s+1)`, slot `s` holds the new buffer with the given
stride and count, every other slot that existed before holds the same buffer
as before, and the index buffer, the vertex buffers and the scene with its
world aggregates are unchanged. -/
theorem user_slot_store (c : RTCConsts) (env : Env) (m : TriangleMesh)
    (s ptr offset stride size : Nat)
    (hb : c.RTC_USER_VERTEX_BUFFER0 % 2 ^ 16 = 0)
    (hmax : c.RTC_MAX_USER_VERTEX_BUFFERS ≤ 2 ^ 16)
    (hs : s < c.RTC_MAX_USER_VERTEX_BUFFERS)
    (hv : isVertexBufferType c m.numTimeSteps (c.RTC_USER_VERTEX_BUFFER0 + s) = false) :
    (∀ v m', m.newBuffer c env (c.RTC_USER_VERTEX_BUFFER0 + s) stride size = (.ok v, m') →
      ∃ b, userStored m s b m' ∧ b.stride = stride ∧ b.num = size) ∧
    (∀ m', m.setBuffer c env (c.RTC_USER_VERTEX_BUFFER0 + s) ptr offset stride size
        = (.ok (), m') →
      ∃ b, userStored m s b m' ∧ b.stride = stride ∧ b.num = size ∧
        b.getPtr = ptr + offset) := by
  have hu := isUserBufferType_add c s hs
  have hbid := land_FFFF_add c.RTC_USER_VERTEX_BUFFER0 s hb (by omega)
  constructor
  · intro v m' h
    have hst := newBuffer_user_state c env m _ stride size v m' hv hu h
    rw [hbid] at hst
    subst hst
    exact ⟨_, userStored_growSet m s _, rfl, rfl⟩
  · intro m' h
    have hst := setBuffer_user_state c env m _ ptr offset stride size m' hv hu h
    rw [hbid] at hst
    subst hst
    exact ⟨_, userStored_growSet m s _, rfl, rfl, rfl⟩

/-- Witness of C16: user slot 1 of a fresh mesh, three elements of stride 8. -/
theorem user_slot_store_witness :
    ∃ b, userStored mesh1 1 b
        (mesh1.newBuffer embreeConsts envPadded (embreeConsts.RTC_USER_VERTEX_BUFFER0 + 1) 8 3).2 ∧
      b.stride = 8 ∧ b.num = 3 :=
  (user_slot_store embreeConsts envPadded mesh1 1 0 0 8 3 (by decide) (by decide)
    (by decide) (by decide)).1 ⟨4096, 8, 3⟩ _ (by decide)

/-! ### verify after a store to a user slot above 0 -/

/-- A slot of the user-slot array whose element count differs from the vertex
count makes `verify()` return false. -/
theorem verify_false_of_user {F : Type} (isvalid : Vec3 F → Bool) (words : Nat → Nat)
    (floats : Nat → F) (m : TriangleMesh) (b : APIBuffer) (hb : b ∈ m.userbuffers)
    (hne : b.size ≠ m.numVertices) : m.verify isvalid words floats = false := by
  unfold TriangleMesh.verify
  split
  · rfl
  split
  · rfl
  rw [if_pos]
  simp only [List.any_eq_true, decide_eq_true_eq]
  exact ⟨b, hb, hne⟩

/-- After the store of `b` to slot `s > 0` of a mesh without user slots, the
slot array has `s + 1` slots, those below `s` are empty, and `verify()` is
false when the vertex count is not zero. -/
theorem verify_growSet_sparse {F : Type} (isvalid : Vec3 F → Bool) (words : Nat → Nat)
    (floats : Nat → F) (m : TriangleMesh) (s : Nat) (b : APIBuffer)
    (hempty : m.userbuffers = []) (h0 : 0 < s) (hn : m.numVertices ≠ 0) :
    (growSet m.userbuffers s b).length = s + 1 ∧
    (∀ j, j < s → (growSet m.userbuffers s b)[j]? = some APIBuffer.empty) ∧
    (growSet m.userbuffers s b)[s]? = some b ∧
    TriangleMesh.verify isvalid words floats
      { m with userbuffers := growSet m.userbuffers s b } = false := by
  have hlen : (growSet m.userbuffers s b).length = s + 1 := by
    rw [growSet_length, hempty]
    simp
  have hgap : ∀ j, j < s → (growSet m.userbuffers s b)[j]? = some APIBuffer.empty := by
    intro j hj
    apply growSet_gap _ _ _ _ _ hj
    rw [hempty]
    simp
  refine ⟨hlen, hgap, growSet_self _ _ _, ?_⟩
  apply verify_false_of_user isvalid words floats _ APIBuffer.empty
  · exact List.getElem?_mem (hgap 0 h0)
  · intro h
    exact hn h.symm

/-- C20: on a mesh with a non-zero vertex count and no user slots, after every
successful `newBuffer` or `setBuffer` of a user-attribute slot `s > 0` (the
low 16 bits of `RTC_USER_VERTEX_BUFFER0` being clear, the slot limit at most
2^16, the kind lying outside the vertex kind range) the user-slot array has
`s + 1` slots, every slot below `s` is an empty buffer of element count 0,
slot `s` holds a buffer of the given count, the vertex count is what it was,
and `verify()` returns false, whatever the validity test, the index memory and
the vertex memory are. -/
theorem verify_sparse_user_slots {F : Type} (c : RTCConsts) (env : Env) (m : TriangleMesh)
    (s ptr offset stride size : Nat) (isvalid : Vec3 F → Bool) (words : Nat → Nat)
    (floats : Nat → F)
    (hb : c.RTC_USER_VERTEX_BUFFER0 % 2 ^ 16 = 0)
    (hmax : c.RTC_MAX_USER_VERTEX_BUFFERS ≤ 2 ^ 16)
    (hs : s < c.RTC_MAX_USER_VERTEX_BUFFERS)
    (hv : isVertexBufferType c m.numTimeSteps (c.RTC_USER_VERTEX_BUFFER0 + s) = false)
    (hempty : m.userbuffers = []) (h0 : 0 < s) (hn : m.numVertices ≠ 0) :
    (∀ v m', m.newBuffer c env (c.RTC_USER_VERTEX_BUFFER0 + s) stride size = (.ok v, m') →
      m'.userbuffers.length = s + 1 ∧
      (∀ j, j < s → ∃ b, m'.userbuffers[j]? = some b ∧ b = APIBuffer.empty ∧ b.size = 0) ∧
      (∃ b, m'.userbuffers[s]? = some b ∧ b.size = size) ∧
      m'.numVertices = m.numVertices ∧
      m'.verify isvalid words floats = false) ∧
    (∀ m', m.setBuffer c env (c.RTC_USER_VERTEX_BUFFER0 + s) ptr offset stride size
        = (.ok (), m') →
      m'.userbuffers.length = s + 1 ∧
      (∀ j, j < s → ∃ b, m'.userbuffers[j]? = some b ∧ b = APIBuffer.empty ∧ b.size = 0) ∧
      (∃ b, m'.userbuffers[s]? = some b ∧ b.size = size) ∧
      m'.numVertices = m.numVertices ∧
      m'.verify isvalid words floats = false) := by
  have hu := isUserBufferType_add c s hs
  have hbid := land_FFFF_add c.RTC_USER_VERTEX_BUFFER0 s hb (by omega)
  constructor
  · intro v m' h
    have hst := newBuffer_user_state c env m _ stride size v m' hv hu h
    rw [hbid] at hst
    subst hst
    obtain ⟨h1, h2, h3, h4⟩ := verify_growSet_sparse isvalid words floats m s
      ⟨env.alignedMalloc (stride * size), 0, stride, size, false⟩ hempty h0 hn
    exact ⟨h1, fun j hj => ⟨_, h2 j hj, rfl, rfl⟩, ⟨_, h3, rfl⟩, rfl, h4⟩
  · intro m' h
    have hst := setBuffer_user_state c env m _ ptr offset stride size m' hv hu h
    rw [hbid] at hst
    subst hst
    obtain ⟨h1, h2, h3, h4⟩ := verify_growSet_sparse isvalid words floats m s
      ⟨ptr, offset, stride, size, true⟩ hempty h0 hn
    exact ⟨h1, fun j hj => ⟨_, h2 j hj, rfl, rfl⟩, ⟨_, h3, rfl⟩, rfl, h4⟩

/-- Witness of C20: `meshTri` has three valid vertices and the valid triple
(0, 1, 2), and `verify()` is true on it; after a user buffer of three elements
is set in slot 1, `verify()` is false. -/
theorem verify_sparse_user_slots_witness :
    meshTri.verify (fun _ => true) wordsTri (fun _ => (0 : Int)) = true ∧
    (meshTri.setBuffer embreeConsts envPadded (embreeConsts.RTC_USER_VERTEX_BUFFER0 + 1)
      2048 0 16 3).2.verify (fun _ => true) wordsTri (fun _ => (0 : Int)) = false :=
  ⟨by decide,
    ((verify_sparse_user_slots embreeConsts envPadded meshTri 1 2048 0 16 3 (fun _ => true)
      wordsTri (fun _ => (0 : Int)) (by decide) (by decide) (by decide) (by decide) rfl
      (by decide) (by decide)).2 _ (by decide)).2.2.2.2⟩

/-! ### The cached time-step-0 view and postCommit -/

theorem enabling_cached (m : TriangleMesh) :
    cachedViewCurrent m.enabling ↔ cachedViewCurrent m := by
  rw [enabling_eq]
  exact Iff.rfl

theorem disabling_cached (m : TriangleMesh) :
    cachedViewCurrent m.disabling ↔ cachedViewCurrent m := by
  rw [disabling_eq]
  exact Iff.rfl

/-- A successful `newBuffer` leaves the cached view current: the vertex branch
refreshes it, the other branches touch neither the view nor the vertex
buffers. -/
theorem newBuffer_cached (c : RTCConsts) (env : Env) (m : TriangleMesh)
    (type stride size : Nat) (v : BufferView) (m' : TriangleMesh)
    (h0 : isVertexBufferType c m.numTimeSteps type = false → cachedViewCurrent m)
    (h : m.newBuffer c env type stride size = (.ok v, m')) : cachedViewCurrent m' := by
  cases hv : isVertexBufferType c m.numTimeSteps type with
  | true =>
    unfold TriangleMesh.newBuffer at h
    by_cases hal : stride &&& 0x3 ≠ 0
    · rw [if_pos hal] at h
      exact absurd (congrArg Prod.fst h) (by simp)
    rw [if_neg hal] at h
    dsimp only at h
    rw [hv] at h
    simp only [if_true] at h
    split at h
    · exact absurd (congrArg Prod.fst h) (by simp)
    cases hb : APIBuffer.newBuffer env size stride with
    | error e =>
      rw [hb] at h
      exact absurd (congrArg Prod.fst h) (by simp)
    | ok b =>
      rw [hb] at h
      have hm := congrArg Prod.snd h
      dsimp only at hm
      rw [← hm]
      rfl
  | false =>
    have hc := h0 hv
    cases hu : isUserBufferType c type with
    | true =>
      have hst := newBuffer_user_state c env m type stride size v m' hv hu h
      subst hst
      exact hc
    | false =>
      by_cases hi : type = c.RTC_INDEX_BUFFER
      · have hst := newBuffer_index_state c env m type stride size v m' hi hv hu h
        subst hst
        split
        · rw [enabling_cached]
          exact (disabling_cached m).2 hc
        · exact hc
      · unfold TriangleMesh.newBuffer at h
        by_cases hal : stride &&& 0x3 ≠ 0
        · rw [if_pos hal] at h
          exact absurd (congrArg Prod.fst h) (by simp)
        rw [if_neg hal] at h
        dsimp only at h
        rw [hv, hu, if_neg hi] at h
        simp only [Bool.false_eq_true, if_false] at h
        exact absurd (congrArg Prod.fst h) (by simp)

/-- A successful `setBuffer` leaves the cached view current. -/
theorem setBuffer_cached (c : RTCConsts) (env : Env) (m : TriangleMesh)
    (type ptr offset stride size : Nat) (m' : TriangleMesh)
    (h0 : isVertexBufferType c m.numTimeSteps type = false → cachedViewCurrent m)
    (h : m.setBuffer c env type ptr offset stride size = (.ok (), m')) :
    cachedViewCurrent m' := by
  cases hv : isVertexBufferType c m.numTimeSteps type with
  | true =>
    unfold TriangleMesh.setBuffer at h
    by_cases hal : ((ptr + offset) % 2 ^ 64) &&& 0x3 ≠ 0 ∨ stride &&& 0x3 ≠ 0
    · rw [if_pos hal] at h
      exact absurd (congrArg Prod.fst h) (by simp)
    rw [if_neg hal] at h
    dsimp only at h
    rw [hv] at h
    simp only [if_true] at h
    generalize (if size = UNSIGNED_MINUS_ONE then
      (m.vertices.getD (type - c.RTC_VERTEX_BUFFER0) APIBuffer.empty).size % 2 ^ 32
      else size) = sz at h
    by_cases hx : exceeds16GB stride sz = true
    · rw [if_pos hx] at h
      exact absurd (congrArg Prod.fst h) (by simp)
    rw [if_neg hx] at h
    cases hb : APIBuffer.set ptr offset stride sz with
    | error e =>
      rw [hb] at h
      exact absurd (congrArg Prod.fst h) (by simp)
    | ok b =>
      rw [hb] at h
      dsimp only at h
      split at h
      · exact absurd (congrArg Prod.fst h) (by simp)
      · have hm := congrArg Prod.snd h
        dsimp only at hm
        rw [← hm]
        rfl
  | false =>
    have hc := h0 hv
    cases hu : isUserBufferType c type with
    | true =>
      have hst := setBuffer_user_state c env m type ptr offset stride size m' hv hu h
      subst hst
      exact hc
    | false =>
      by_cases hi : type = c.RTC_INDEX_BUFFER
      · have hst := setBuffer_index_state c env m type ptr offset stride size m' hi hv hu h
        subst hst
        split
        · rw [enabling_cached]
          exact (disabling_cached m).2 hc
        · exact hc
      · unfold TriangleMesh.setBuffer at h
        by_cases hal : ((ptr + offset) % 2 ^ 64) &&& 0x3 ≠ 0 ∨ stride &&& 0x3 ≠ 0
        · rw [if_pos hal] at h
          exact absurd (congrArg Prod.fst h) (by simp)
        rw [if_neg hal] at h
        dsimp only at h
        rw [hv, hu, if_neg hi] at h
        simp only [Bool.false_eq_true, if_false] at h
        exact absurd (congrArg Prod.fst h) (by simp)

/-- A sequence of successful buffer operations keeps the cached view current. -/
theorem runCalls_cached (c : RTCConsts) (calls : List BufferCall) :
    ∀ m0 m : TriangleMesh, cachedViewCurrent m0 →
      TriangleMesh.runCalls c calls m0 = some m → cachedViewCurrent m := by
  induction calls with
  | nil =>
    intro m0 m h0 hrun
    simp only [TriangleMesh.runCalls, Option.some.injEq] at hrun
    subst hrun
    exact h0
  | cons call calls ih =>
    intro m0 m h0 hrun
    cases call with
    | newBuffer env type stride size =>
      cases hr : m0.newBuffer c env type stride size with
      | mk r m1 =>
        cases r with
        | error e =>
          simp only [TriangleMesh.runCalls, hr] at hrun
          exact absurd hrun (by simp)
        | ok v =>
          simp only [TriangleMesh.runCalls, hr] at hrun
          exact ih m1 m (newBuffer_cached c env m0 type stride size v m1 (fun _ => h0) hr) hrun
    | setBuffer env type ptr offset stride size =>
      cases hr : m0.setBuffer c env type ptr offset stride size with
      | mk r m1 =>
        cases r with
        | error e =>
          simp only [TriangleMesh.runCalls, hr] at hrun
          exact absurd hrun (by simp)
        | ok v =>
          simp only [TriangleMesh.runCalls, hr] at hrun
          exact ih m1 m (setBuffer_cached c env m0 type ptr offset stride size m1
            (fun _ => h0) hr) hrun

/-- The method `postCommit()` on an attached mesh. -/
theorem postCommit_attached (m : TriangleMesh) (s : Scene) (hs : m.scene = some s) :
    m.postCommit = { m with scene := some { s with
      vertices := s.vertices.set m.geomID m.vertices0.getPtr } } := by
  unfold TriangleMesh.postCommit
  rw [hs]

/-- C17: after every successful `newBuffer` or `setBuffer` of a vertex-buffer
kind the cached time-step-0 view is the view of the current time-step-0
vertex buffer; a freshly constructed mesh has a current cached view; and
after every sequence of successful buffer operations on a mesh whose cached
view is current, the cached view is current and `postCommit()` on the
attached mesh changes nothing but the scene's vertex table, in which the
entry at the geometry id of the mesh becomes the pointer of the current
time-step-0 vertex buffer, the length and every other entry staying as they
were. -/
theorem cached_view_published (c : RTCConsts) :
    (∀ (env : Env) (m : TriangleMesh) (type stride size : Nat) (v : BufferView)
        (m' : TriangleMesh),
      isVertexBufferType c m.numTimeSteps type = true →
      m.newBuffer c env type stride size = (.ok v, m') → cachedViewCurrent m') ∧
    (∀ (env : Env) (m : TriangleMesh) (type ptr offset stride size : Nat) (m' : TriangleMesh),
      isVertexBufferType c m.numTimeSteps type = true →
      m.setBuffer c env type ptr offset stride size = (.ok (), m') → cachedViewCurrent m') ∧
    (∀ T : Nat, cachedViewCurrent (TriangleMesh.new T)) ∧
    (∀ (calls : List BufferCall) (m0 m : TriangleMesh) (s : Scene),
      cachedViewCurrent m0 → TriangleMesh.runCalls c calls m0 = some m → m.scene = some s →
      cachedViewCurrent m ∧
      m.postCommit = { m with scene := some { s with
        vertices := s.vertices.set m.geomID (m.vertices.getD 0 APIBuffer.empty).getPtr } } ∧
      (s.vertices.set m.geomID (m.vertices.getD 0 APIBuffer.empty).getPtr).length
        = s.vertices.length ∧
      (m.geomID < s.vertices.length →
        (s.vertices.set m.geomID (m.vertices.getD 0 APIBuffer.empty).getPtr)[m.geomID]?
          = some (m.vertices.getD 0 APIBuffer.empty).getPtr) ∧
      (∀ j, j ≠ m.geomID →
        (s.vertices.set m.geomID (m.vertices.getD 0 APIBuffer.empty).getPtr)[j]?
          = s.vertices[j]?)) := by
  refine ⟨?_, ?_, ?_, ?_⟩
  · intro env m type stride size v m' hv h
    exact newBuffer_cached c env m type stride size v m' (fun hf => by rw [hv] at hf; cases hf) h
  · intro env m type ptr offset stride size m' hv h
    exact setBuffer_cached c env m type ptr offset stride size m'
      (fun hf => by rw [hv] at hf; cases hf) h
  · intro T
    unfold cachedViewCurrent TriangleMesh.new vresize
    cases T with
    | zero => rfl
    | succ T => simp [List.replicate_succ]
  · intro calls m0 m s h0 hrun hs
    have hc := runCalls_cached c calls m0 m h0 hrun
    refine ⟨hc, ?_, List.length_set _ _ _, ?_, ?_⟩
    · rw [postCommit_attached m s hs, hc]
      rfl
    · intro hg
      rw [List.getElem?_set, if_pos rfl, if_pos hg]
    · intro j hj
      rw [List.getElem?_set, if_neg (Ne.symm hj)]

/-- Witness of C17: after the two calls of `callsEx` on `meshAttached` the
cached view is current and `postCommit()` writes 2064, the pointer of the
vertex buffer set, into entry 0 of the scene's vertex table and leaves entry 1. -/
theorem cached_view_published_witness :
    TriangleMesh.runCalls embreeConsts callsEx meshAttached = some meshAfterCalls ∧
    cachedViewCurrent meshAfterCalls ∧
    meshAfterCalls.postCommit = { meshAfterCalls with
      scene := some { sceneEx with vertices := [2064, 0] } } :=
  ⟨by decide,
    ((cached_view_published embreeConsts).2.2.2 callsEx meshAttached meshAfterCalls sceneEx
      rfl (by decide) rfl).1,
    ((cached_view_published embreeConsts).2.2.2 callsEx meshAttached meshAfterCalls sceneEx
      rfl (by decide) rfl).2.1⟩

/-! ### interpolate: which outputs are written -/

/-- Without `dPdu` the body of the loop does not use `dPdv`. -/
theorem interpolateBody_without_dPdu {F : Type} (ops : FloatOps F) (b : Build) (V : Nat)
    (u v : F) (src stride : Nat) (tri : Nat → Nat)
    (P dPdv X ddPdudu ddPdvdv ddPdudv n : Nat) :
    interpolateBody ops b V u v src stride tri P 0 X ddPdudu ddPdvdv ddPdudv n
      = interpolateBody ops b V u v src stride tri P 0 dPdv ddPdudu ddPdvdv ddPdudv n := by
  funext i fm
  simp [interpolateBody]

/-- Without `ddPdudu` the body of the loop uses neither `ddPdvdv` nor `ddPdudv`. -/
theorem interpolateBody_without_ddPdudu {F : Type} (ops : FloatOps F) (b : Build) (V : Nat)
    (u v : F) (src stride : Nat) (tri : Nat → Nat)
    (P dPdu dPdv ddPdvdv ddPdudv X Y n : Nat) :
    interpolateBody ops b V u v src stride tri P dPdu dPdv 0 X Y n
      = interpolateBody ops b V u v src stride tri P dPdu dPdv 0 ddPdvdv ddPdudv n := by
  funext i fm
  simp [interpolateBody]

/-- The pointers stored through, by the three null tests. -/
theorem mem_outputPointers_cases (P dPdu dPdv ddPdudu ddPdvdv ddPdudv X : Nat) :
    X ∈ outputPointers P dPdu dPdv ddPdudu ddPdvdv ddPdudv ↔
      (P ≠ 0 ∧ X = P) ∨ (dPdu ≠ 0 ∧ (X = dPdu ∨ X = dPdv)) ∨
      (ddPdudu ≠ 0 ∧ (X = ddPdudu ∨ X = ddPdvdv ∨ X = ddPdudv)) := by
  unfold outputPointers
  by_cases h1 : P = 0 <;> by_cases h2 : dPdu = 0 <;> by_cases h3 : ddPdudu = 0 <;>
    simp [h1, h2, h3, or_assoc]

/-- C19: with a count of 2^31, a chunk width of 4 and all six outputs
supplied, the call returns in every build and has written through none of
the outputs: the store log is empty. -/
theorem interpolate_huge_count_writes_no_output :
    (∀ b : Build, ∃ fm', meshTri.interpolate embreeConsts intOps b 4 true wordsTri 0 0 0
        0x02000000 4096 8192 12288 16384 20480 24576 (2 ^ 31) (2 ^ 29 + 1) fmemEx
          = some (.ok fm') ∧
      fm'.stores = []) ∧
    outputPointers 4096 8192 12288 16384 20480 24576
      = [4096, 8192, 12288, 16384, 20480, 24576] ∧ 0 < 2 ^ 31 := by
  refine ⟨fun b => ⟨fmemEx, ?_, rfl⟩, by decide, by norm_num⟩
  rw [interpolate_eq_loop _ _ _ _ _ _ _ _ _ _ _ _ _ _ _ _ _ _ _ _ (fun _ => rfl)
    (fun _ => Or.inl (by decide))]
  exact interpolateLoop_huge intOps 4 0 0 _ _ _ 4096 8192 12288 16384 20480 24576
    (2 ^ 29) (2 ^ 29 + 1) fmemEx b (by norm_num) (by omega) (fun _ => by decide)
    (fun _ => ⟨by decide, by decide⟩)

/-- Below 2^31 the outputs that a call whose checks pass writes: for a count
`n` with `0 < n < 2^31` and a chunk width `V` that divides 2^31 or has `n + V`
at most 2^31, the call returns and the addresses it has stored to are,
besides those stored to before, exactly the indices below `n` of `P` when `P`
is not null, of `dPdu` and of `dPdv` when `dPdu` is not null, and of
`ddPdudu`, `ddPdvdv` and `ddPdudv` when `ddPdudu` is not null; and without
`dPdu` the call does not depend on `dPdv`, without `ddPdudu` it depends on
neither `ddPdvdv` nor `ddPdudv`. -/
theorem interpolate_output_guards {F : Type} (c : RTCConsts) (ops : FloatOps F) (b : Build)
    (V : Nat) (en : Bool)
    (m : TriangleMesh) (words : Nat → Nat) (primID : Nat) (u v : F)
    (buffer P dPdu dPdv ddPdudu ddPdvdv ddPdudv n fuel : Nat) (fm : FMem F)
    (hV : 0 < V) (hdiv : V ∣ 2 ^ 31 ∨ n + V ≤ 2 ^ 31) (hn0 : 0 < n) (hn : n < 2 ^ 31)
    (hfuel : n < fuel)
    (hchk : checksPass c b en m buffer dPdu dPdv ddPdudu ddPdvdv ddPdudv) :
    ∃ fm', m.interpolate c ops b V en words primID u v buffer P dPdu dPdv ddPdudu ddPdvdv
        ddPdudv n fuel fm = some (.ok fm') ∧
      (∀ a, a ∈ fm'.stores ↔ a ∈ fm.stores ∨
        (P ≠ 0 ∧ ∃ j, j < n ∧ a = P + 4 * j) ∨
        (dPdu ≠ 0 ∧ ∃ j, j < n ∧ (a = dPdu + 4 * j ∨ a = dPdv + 4 * j)) ∨
        (ddPdudu ≠ 0 ∧ ∃ j, j < n ∧
          (a = ddPdudu + 4 * j ∨ a = ddPdvdv + 4 * j ∨ a = ddPdudv + 4 * j))) ∧
      (P ≠ 0 → P ∈ fm'.stores) ∧
      (dPdu ≠ 0 → dPdu ∈ fm'.stores ∧ dPdv ∈ fm'.stores) ∧
      (ddPdudu ≠ 0 → ddPdudu ∈ fm'.stores ∧ ddPdvdv ∈ fm'.stores ∧ ddPdudv ∈ fm'.stores) ∧
      (dPdu = 0 → ∀ X, m.interpolate c ops b V en words primID u v buffer P dPdu X
        ddPdudu ddPdvdv ddPdudv n fuel fm = some (.ok fm')) ∧
      (ddPdudu = 0 → ∀ X Y, m.interpolate c ops b V en words primID u v buffer P dPdu dPdv
        ddPdudu X Y n fuel fm = some (.ok fm')) := by
  obtain ⟨hc1, hc2, hc3, hc4⟩ := hchk
  obtain ⟨fm', hrun, hS, -, -⟩ := interpolateLoop_log ops V u v
    (m.interpolateSource c buffer).1 (m.interpolateSource c buffer).2
    (m.triangleV words primID) P dPdu dPdv ddPdudu ddPdvdv ddPdudv n fuel fm b hV hdiv hn hfuel
    hc3 hc4
  have hS2 : ∀ a, a ∈ fm'.stores ↔ a ∈ fm.stores ∨
      (P ≠ 0 ∧ ∃ j, j < n ∧ a = P + 4 * j) ∨
      (dPdu ≠ 0 ∧ ∃ j, j < n ∧ (a = dPdu + 4 * j ∨ a = dPdv + 4 * j)) ∨
      (ddPdudu ≠ 0 ∧ ∃ j, j < n ∧
        (a = ddPdudu + 4 * j ∨ a = ddPdvdv + 4 * j ∨ a = ddPdudv + 4 * j)) := by
    intro a
    rw [hS a]
    constructor
    · rintro (h | ⟨e, he, j, hj, rfl⟩)
      · exact Or.inl h
      · have hX := (mem_outputPointers_iff ops u v P dPdu dPdv ddPdudu ddPdvdv ddPdudv e.1).2
          ⟨e, he, rfl⟩
        rcases (mem_outputPointers_cases _ _ _ _ _ _ _).1 hX with
          ⟨h1, h2⟩ | ⟨h1, h2 | h2⟩ | ⟨h1, h2 | h2 | h2⟩
        · exact Or.inr (Or.inl ⟨h1, j, hj, by rw [h2]⟩)
        · exact Or.inr (Or.inr (Or.inl ⟨h1, j, hj, Or.inl (by rw [h2])⟩))
        · exact Or.inr (Or.inr (Or.inl ⟨h1, j, hj, Or.inr (by rw [h2])⟩))
        · exact Or.inr (Or.inr (Or.inr ⟨h1, j, hj, Or.inl (by rw [h2])⟩))
        · exact Or.inr (Or.inr (Or.inr ⟨h1, j, hj, Or.inr (Or.inl (by rw [h2]))⟩))
        · exact Or.inr (Or.inr (Or.inr ⟨h1, j, hj, Or.inr (Or.inr (by rw [h2]))⟩))
    · have hmem : ∀ X j, X ∈ outputPointers P dPdu dPdv ddPdudu ddPdvdv ddPdudv → j < n →
          ∃ e ∈ outputFormulas ops u v P dPdu dPdv ddPdudu ddPdvdv ddPdudv,
            ∃ j', j' < n ∧ X + 4 * j = e.1 + 4 * j' := by
        intro X j hX hj
        obtain ⟨e, he, rfl⟩ := (mem_outputPointers_iff ops u v _ _ _ _ _ _ _).1 hX
        exact ⟨e, he, j, hj, rfl⟩
      rintro (h | ⟨h1, j, hj, rfl⟩ | ⟨h1, j, hj, rfl | rfl⟩ | ⟨h1, j, hj, rfl | rfl | rfl⟩)
      · exact Or.inl h
      · exact Or.inr (hmem _ j
          ((mem_outputPointers_cases _ _ _ _ _ _ _).2 (Or.inl ⟨h1, rfl⟩)) hj)
      · exact Or.inr (hmem _ j
          ((mem_outputPointers_cases _ _ _ _ _ _ _).2 (Or.inr (Or.inl ⟨h1, Or.inl rfl⟩))) hj)
      · exact Or.inr (hmem _ j
          ((mem_outputPointers_cases _ _ _ _ _ _ _).2 (Or.inr (Or.inl ⟨h1, Or.inr rfl⟩))) hj)
      · exact Or.inr (hmem _ j
          ((mem_outputPointers_cases _ _ _ _ _ _ _).2
            (Or.inr (Or.inr ⟨h1, Or.inl rfl⟩))) hj)
      · exact Or.inr (hmem _ j
          ((mem_outputPointers_cases _ _ _ _ _ _ _).2
            (Or.inr (Or.inr ⟨h1, Or.inr (Or.inl rfl)⟩))) hj)
      · exact Or.inr (hmem _ j
          ((mem_outputPointers_cases _ _ _ _ _ _ _).2
            (Or.inr (Or.inr ⟨h1, Or.inr (Or.inr rfl)⟩))) hj)
  refine ⟨fm', ?_, hS2, ?_, ?_, ?_, ?_, ?_⟩
  · rw [interpolate_eq_loop c ops b V en m words primID u v buffer P dPdu dPdv ddPdudu ddPdvdv
      ddPdudv n fuel fm hc1 hc2]
    exact hrun
  · intro h
    exact (hS2 P).2 (Or.inr (Or.inl ⟨h, 0, hn0, rfl⟩))
  · intro h
    exact ⟨(hS2 dPdu).2 (Or.inr (Or.inr (Or.inl ⟨h, 0, hn0, Or.inl rfl⟩))),
      (hS2 dPdv).2 (Or.inr (Or.inr (Or.inl ⟨h, 0, hn0, Or.inr rfl⟩)))⟩
  · intro h
    exact ⟨(hS2 ddPdudu).2 (Or.inr (Or.inr (Or.inr ⟨h, 0, hn0, Or.inl rfl⟩))),
      (hS2 ddPdvdv).2 (Or.inr (Or.inr (Or.inr ⟨h, 0, hn0, Or.inr (Or.inl rfl)⟩))),
      (hS2 ddPdudv).2 (Or.inr (Or.inr (Or.inr ⟨h, 0, hn0, Or.inr (Or.inr rfl)⟩)))⟩
  · intro h X
    subst h
    rw [interpolate_eq_loop c ops b V en m words primID u v buffer P 0 X ddPdudu ddPdvdv
      ddPdudv n fuel fm hc1 hc2, interpolateBody_without_dPdu ops b V u v _ _ _ P dPdv X]
    exact hrun
  · intro h X Y
    subst h
    rw [interpolate_eq_loop c ops b V en m words primID u v buffer P dPdu dPdv 0 X Y
      n fuel fm hc1 hc2,
      interpolateBody_without_ddPdudu ops b V u v _ _ _ P dPdu dPdv ddPdvdv ddPdudv X Y]
    exact hrun

/-- An instance of `interpolate_output_guards`: five channels with a chunk width
of 4, `P` and `dPdv` supplied, `dPdu` and `ddPdudu` null: the stores are the
five entries of `P`. -/
theorem interpolate_output_guards_witness :
    ∃ fm', meshTri.interpolate embreeConsts intOps ⟨true, false⟩ 4 true wordsTri 0 2 3
        0x02000000 4096 0 12288 0 0 0 5 6 fmemEx = some (.ok fm') ∧
      (∀ a, a ∈ fm'.stores ↔ a ∈ fmemEx.stores ∨
        ((4096 : Nat) ≠ 0 ∧ ∃ j, j < 5 ∧ a = 4096 + 4 * j) ∨
        ((0 : Nat) ≠ 0 ∧ ∃ j, j < 5 ∧ (a = 0 + 4 * j ∨ a = 12288 + 4 * j)) ∨
        ((0 : Nat) ≠ 0 ∧ ∃ j, j < 5 ∧
          (a = 0 + 4 * j ∨ a = 0 + 4 * j ∨ a = 0 + 4 * j))) ∧
      ((4096 : Nat) ≠ 0 → 4096 ∈ fm'.stores) ∧
      ((0 : Nat) ≠ 0 → 0 ∈ fm'.stores ∧ 12288 ∈ fm'.stores) ∧
      ((0 : Nat) ≠ 0 → 0 ∈ fm'.stores ∧ 0 ∈ fm'.stores ∧ 0 ∈ fm'.stores) ∧
      ((0 : Nat) = 0 → ∀ X, meshTri.interpolate embreeConsts intOps ⟨true, false⟩ 4 true
        wordsTri 0 2 3 0x02000000 4096 0 X 0 0 0 5 6 fmemEx = some (.ok fm')) ∧
      ((0 : Nat) = 0 → ∀ X Y, meshTri.interpolate embreeConsts intOps ⟨true, false⟩ 4 true
        wordsTri 0 2 3 0x02000000 4096 0 12288 0 X Y 5 6 fmemEx = some (.ok fm')) :=
  interpolate_output_guards embreeConsts intOps ⟨true, false⟩ 4 true meshTri wordsTri 0 2 3
    0x02000000 4096 0 12288 0 0 0 5 6 fmemEx (by decide) (Or.inl ⟨2 ^ 29, by norm_num⟩)
    (by decide) (by decide) (by decide)
    ⟨fun _ => rfl, fun _ => Or.inl (by decide), fun h => absurd rfl h,
      fun h => absurd rfl h⟩

/-- An instance of `interpolate_null_dPdv`: with `dPdu` supplied and `dPdv` null the call on
five channels ends at `assert(dPdv)` in a build with assertions and at the store through the
null pointer in a build without. -/
theorem interpolate_null_dPdv_example :
    meshTri.interpolate embreeConsts intOps ⟨true, false⟩ 4 true wordsTri 0 2 3
      0x02000000 4096 8192 0 0 0 0 5 6 fmemEx = some (.error .assertFailed) ∧
    meshTri.interpolate embreeConsts intOps ⟨false, true⟩ 4 true wordsTri 0 2 3
      0x02000000 4096 8192 0 0 0 0 5 6 fmemEx = some (.error .nullStore) :=
  ⟨interpolate_null_dPdv embreeConsts intOps ⟨true, false⟩ 4 true meshTri wordsTri 0 2 3
      0x02000000 4096 8192 0 0 0 5 6 fmemEx (fun _ => rfl) (fun _ => Or.inl (by decide))
      (by decide) (by decide) (by decide) (by decide) (by decide),
    interpolate_null_dPdv embreeConsts intOps ⟨false, true⟩ 4 true meshTri wordsTri 0 2 3
      0x02000000 4096 8192 0 0 0 5 6 fmemEx (fun _ => rfl) (fun h => absurd h (by decide))
      (by decide) (by decide) (by decide) (by decide) (by decide)⟩

end Embree
